import Mathlib

/-!
# babylon anyflow: the dependency activation state machine

A shallow embedding of `GraphDependency` (src/babylon/anyflow/dependency.hpp).

* Pointers are identities: a `GraphData*` / `GraphVertex*` is an `Option Nat`, `none` being
  `nullptr`.  `_target` is dereferenced on every path that looks at it and is kept non-null.
* `_waiting_num` is a `std::atomic<int64_t>`; every `fetch_add` / `fetch_sub` is followed by an
  explicit two's-complement wrap (`wrap64`).
* The collaborators `GraphData`, `GraphVertex` and the closure are declared outside this file's
  sources; what they answer is taken as a parameter (`Env`), and every call made on them is
  recorded, in program order, as an `Event`.
* A call that dereferences a null pointer has no defined result: the embedded function
  returns `none` there.
-/

namespace babylon.anyflow

/-- Two's-complement wrap of a mathematical integer into the range of `int64_t`. -/
def wrap64 (x : Int) : Int :=
  (x + 9223372036854775808) % 18446744073709551616 - 9223372036854775808

/-- Calls made on the collaborators and atomic operations on `_waiting_num`, in program order. -/
inductive Event where
  /-- The call `_waiting_num.fetch_add(k, acq_rel)` -/
  | fetch_add (k : Int)
  /-- The call `_waiting_num.fetch_sub(k, acq_rel)` -/
  | fetch_sub (k : Int)
  /-- The call `data->as<bool>()` -/
  | as_bool (data : Nat)
  /-- The call `data->ready()` -/
  | data_ready (data : Nat)
  /-- The call `data->acquire_immutable_depend()` -/
  | acquire_immutable_depend (data : Nat)
  /-- The call `data->acquire_mutable_depend()` -/
  | acquire_mutable_depend (data : Nat)
  /-- The call `data->trigger(activating_data)` -/
  | trigger (data : Nat)
  /-- The call `data->recursive_activate(runnable_vertexes, vertex->closure())` -/
  | recursive_activate (data : Nat) (vertex : Nat)
  /-- The call `vertex->closure()->finish(code)` -/
  | closure_finish (vertex : Nat) (code : Int)
  /-- The call `vertex->ready(this)` -/
  | vertex_ready (vertex : Nat)
  /-- The call `runnable_vertexes.emplace_back(vertex)` -/
  | emplace_back (vertex : Nat)
  /-- A line written through `BABYLON_LOG(WARNING)` -/
  | log_warning
  /-- The call `data->empty()` -/
  | data_empty (data : Nat)
  /-- The call `data->cvalue<T>()` -/
  | data_cvalue (data : Nat)
  /-- The call `data->as<T>()` -/
  | data_as (data : Nat)
  /-- The call `data->mutable_value<T>()` -/
  | data_mutable_value (data : Nat)
  deriving DecidableEq, Repr

/-- The constant `LogInterface::SEVERITY_WARNING` (logging/interface.h). -/
def SEVERITY_WARNING : Int := 2

/-- What the collaborators answer during one call into the edge. -/
structure Env where
  /-- Answer of `GraphData::as<bool>()` -/
  as_bool : Nat → Bool
  /-- Answer of `GraphData::ready()` -/
  data_ready : Nat → Bool
  /-- Answer of `GraphData::acquire_immutable_depend()` -/
  acquire_immutable_depend : Nat → Bool
  /-- Answer of `GraphData::acquire_mutable_depend()` -/
  acquire_mutable_depend : Nat → Bool
  /-- Answer of `GraphData::recursive_activate(runnable_vertexes, closure)`: the return code
  and the runnable stack as the callee leaves it (the stack is passed by reference). -/
  recursive_activate : Nat → Nat → List Nat → Int × List Nat
  /-- Answer of `GraphVertex::ready(dependency)` -/
  vertex_ready : Nat → Bool
  /-- Answer of `LogInterface::min_severity()` -/
  min_severity : Int

/-- The fields of `GraphDependency`. -/
structure GraphDependency where
  _source : Option Nat
  _target : Nat
  _condition : Option Nat
  _establish_value : Bool
  _mutable : Bool
  _essential : Bool
  _waiting_num : Int
  _established : Bool
  _ready : Bool
  deriving DecidableEq, Repr

/-- Result of `activate`: the edge afterwards, the returned `int32_t`, the calls made. -/
structure ActivateResult where
  dep : GraphDependency
  ret : Int
  events : List Event
  deriving DecidableEq, Repr

/-- Result of `ready(data, runnable_vertexes)`: the edge and the stack afterwards, the calls
made. -/
structure ReadyResult where
  dep : GraphDependency
  runnable_vertexes : List Nat
  events : List Event
  deriving DecidableEq, Repr

/-- A `ready(data, runnable_vertexes)` call stopped after its first part: everything up to, and
excluding, the second `fetch_sub` and the final `if (waiting_num == 0 && nullptr != _source)`. -/
structure ReadyMid where
  dep : GraphDependency
  runnable_vertexes : List Nat
  events : List Event
  /-- the local variable `waiting_num` -/
  waiting_num : Int
  /-- the branch `else if (waiting_num != 0)` was taken; its `fetch_sub` is still to come -/
  second_sub : Bool
  /-- one of the two `return;` statements was executed -/
  returned : Bool
  deriving DecidableEq, Repr

namespace GraphDependency

/-- Source: `void reset()` -/
def reset (d : GraphDependency) : GraphDependency :=
  { d with _waiting_num := 0, _established := false, _ready := false }

/-- Source: `bool established() const` -/
def established (d : GraphDependency) : Bool := d._established

/-- Source: `bool is_mutable() const` -/
def is_mutable (d : GraphDependency) : Bool := d._mutable

/-- Source: `bool check_established()`: the edge afterwards, the returned flag, the calls
made. -/
def check_established (env : Env) (d : GraphDependency) :
    GraphDependency × Bool × List Event :=
  match d._condition with
  | none => ({ d with _established := true }, true, [])
  | some c =>
    let value := env.as_bool c
    let d1 := if value = d._establish_value then { d with _established := true } else d
    (d1, d1._established, [Event.as_bool c])

/-- The expression `!_mutable ? _target->acquire_immutable_depend()
: _target->acquire_mutable_depend()`: its value and the call made. -/
def acquire_depend (env : Env) (d : GraphDependency) : Bool × List Event :=
  if !d._mutable then
    (env.acquire_immutable_depend d._target, [Event.acquire_immutable_depend d._target])
  else
    (env.acquire_mutable_depend d._target, [Event.acquire_mutable_depend d._target])

/-- The macro `BABYLON_LOG(WARNING)`: the streamed expression is evaluated only when
`min_severity() > SEVERITY_WARNING` is false. -/
def log_enabled (env : Env) : Bool := !decide (env.min_severity > SEVERITY_WARNING)

/-- The events of one `BABYLON_LOG(WARNING) << ...` statement. -/
def log_warning (env : Env) : List Event :=
  if log_enabled env then [Event.log_warning] else []

/-- The amount `activate` adds: `_condition == nullptr ? 1 : 2`. -/
def activate_increment (d : GraphDependency) : Int :=
  if d._condition = none then 1 else 2

/-- The value of the local `waiting_num` in `activate` after
`_waiting_num.fetch_add(waiting_num, acq_rel) + waiting_num`. -/
def post_add (d : GraphDependency) : Int :=
  wrap64 (d._waiting_num + activate_increment d)

/-- The value of the local `waiting_num` in `ready` after
`_waiting_num.fetch_sub(1, acq_rel) - 1`. -/
def post_sub (d : GraphDependency) : Int :=
  wrap64 (d._waiting_num - 1)

/-- Source: `int32_t activate(DataStack& activating_data)`. -/
def activate (env : Env) (d : GraphDependency) : Option ActivateResult :=
  let k : Int := activate_increment d
  let waiting_num : Int := post_add d
  let d0 := { d with _waiting_num := waiting_num }
  let ev0 := [Event.fetch_add k]
  if waiting_num = -1 then
    some ⟨d0, 1, ev0⟩
  else if waiting_num = 0 then
    let ce := check_established env d0
    let d1 := ce.1
    if ce.2.1 then
      let acquired_depend := acquire_depend env d1
      if !acquired_depend.1 then
        some ⟨d1, -1, ev0 ++ ce.2.2 ++ acquired_depend.2 ++ log_warning env⟩
      else
        some ⟨{ d1 with _ready := env.data_ready d1._target }, 1,
          ev0 ++ ce.2.2 ++ acquired_depend.2 ++ [Event.data_ready d1._target]⟩
    else
      some ⟨d1, 1, ev0 ++ ce.2.2⟩
  else if waiting_num = 1 then
    match d0._condition with
    | none =>
      let d1 := { d0 with _established := true }
      let acquired_depend := acquire_depend env d1
      if !acquired_depend.1 then
        some ⟨d1, -1, ev0 ++ acquired_depend.2 ++ log_warning env⟩
      else
        some ⟨d1, 0, ev0 ++ acquired_depend.2 ++ [Event.trigger d1._target]⟩
    | some c =>
      if !env.data_ready c then
        some ⟨d0, 0, ev0 ++ [Event.data_ready c, Event.trigger c]⟩
      else
        let ce := check_established env d0
        let d1 := ce.1
        if ce.2.1 then
          let acquired_depend := acquire_depend env d1
          if !acquired_depend.1 then
            -- this log statement streams `*_source`
            if log_enabled env && d1._source.isNone then none
            else
              some ⟨d1, -1,
                ev0 ++ [Event.data_ready c] ++ ce.2.2 ++ acquired_depend.2 ++ log_warning env⟩
          else
            some ⟨d1, 0,
              ev0 ++ [Event.data_ready c] ++ ce.2.2 ++ acquired_depend.2
                ++ [Event.trigger d1._target]⟩
        else
          some ⟨d1, 0, ev0 ++ [Event.data_ready c] ++ ce.2.2⟩
  else if waiting_num = 2 then
    match d0._condition with
    | none => none
    | some c => some ⟨d0, 0, ev0 ++ [Event.trigger c]⟩
  else
    some ⟨d0, 0, ev0⟩

/-- First part of `void ready(GraphData* data, VertexStack& runnable_vertexes)`: the first
`fetch_sub` and the `if (data == _condition)` block up to the second `fetch_sub`. -/
def ready_enter (env : Env) (d : GraphDependency) (data : Option Nat)
    (runnable_vertexes : List Nat) : Option ReadyMid :=
  let waiting_num : Int := post_sub d
  let d0 := { d with _waiting_num := waiting_num }
  let ev0 := [Event.fetch_sub 1]
  if data = d0._condition then
    let ce := check_established env d0
    let d1 := ce.1
    if ce.2.1 then
      if waiting_num = 1 then
        let acquired_depend := acquire_depend env d1
        if !acquired_depend.1 then
          match d1._source with
          | none => none
          | some v =>
            some ⟨d1, runnable_vertexes,
              ev0 ++ ce.2.2 ++ acquired_depend.2 ++ log_warning env
                ++ [Event.closure_finish v (-1)],
              waiting_num, false, true⟩
        else
          match d1._source with
          | none => none
          | some v =>
            let rec_ret := env.recursive_activate d1._target v runnable_vertexes
            if rec_ret.1 ≠ 0 then
              some ⟨d1, rec_ret.2,
                ev0 ++ ce.2.2 ++ acquired_depend.2 ++ [Event.recursive_activate d1._target v]
                  ++ log_warning env ++ [Event.closure_finish v rec_ret.1],
                waiting_num, false, true⟩
            else
              some ⟨d1, rec_ret.2,
                ev0 ++ ce.2.2 ++ acquired_depend.2 ++ [Event.recursive_activate d1._target v],
                waiting_num, false, false⟩
      else
        some ⟨d1, runnable_vertexes, ev0 ++ ce.2.2, waiting_num, false, false⟩
    else
      some ⟨d1, runnable_vertexes, ev0 ++ ce.2.2, waiting_num, decide (waiting_num ≠ 0),
        false⟩
  else
    some ⟨d0, runnable_vertexes, ev0, waiting_num, false, false⟩

/-- The final block of `ready(data, runnable_vertexes)`,
`if (waiting_num == 0 && nullptr != _source) { ... }`, entered with the local `waiting_num`,
the stack and the calls made so far. -/
def ready_final (env : Env) (d : GraphDependency) (data : Option Nat) (waiting_num : Int)
    (runnable_vertexes : List Nat) (events : List Event) : ReadyResult :=
  if waiting_num = 0 then
    match d._source with
    | none => ⟨d, runnable_vertexes, events⟩
    | some v =>
      -- `_ready = check_established()` or `_ready = established() && _target->ready()`
      let fin : GraphDependency × List Event :=
        if data = some d._target then
          let ce := check_established env d
          ({ ce.1 with _ready := ce.2.1 }, ce.2.2)
        else if established d then
          ({ d with _ready := env.data_ready d._target }, [Event.data_ready d._target])
        else
          ({ d with _ready := false }, [])
      if env.vertex_ready v then
        ⟨fin.1, runnable_vertexes ++ [v],
          events ++ fin.2 ++ [Event.vertex_ready v, Event.emplace_back v]⟩
      else
        ⟨fin.1, runnable_vertexes, events ++ fin.2 ++ [Event.vertex_ready v]⟩
  else
    ⟨d, runnable_vertexes, events⟩

/-- Second part of `ready(data, runnable_vertexes)`, run on the edge as it is by then: the
second `fetch_sub` when it was decided, then the final block.  Nothing is left to do after one
of the `return;` statements. -/
def ready_leave (env : Env) (d : GraphDependency) (data : Option Nat) (m : ReadyMid) :
    ReadyResult :=
  if m.returned then
    ⟨d, m.runnable_vertexes, m.events⟩
  else if m.second_sub then
    ready_final env { d with _waiting_num := post_sub d } data (post_sub d)
      m.runnable_vertexes (m.events ++ [Event.fetch_sub 1])
  else
    ready_final env d data m.waiting_num m.runnable_vertexes m.events

/-- Source: `void ready(GraphData* data, VertexStack& runnable_vertexes)`, run without
interruption. -/
def ready (env : Env) (d : GraphDependency) (data : Option Nat)
    (runnable_vertexes : List Nat) : Option ReadyResult :=
  (ready_enter env d data runnable_vertexes).map fun m => ready_leave env m.dep data m

/-- What the target answers to the typed accessors of `GraphData`. -/
structure DataView (T : Type) where
  /-- Answer of `GraphData::empty()` -/
  empty : Nat → Bool
  /-- Answer of `GraphData::cvalue<T>()`, a `const T*` -/
  cvalue : Nat → Option T
  /-- Answer of `GraphData::as<T>()` -/
  as : Nat → T
  /-- Answer of `GraphData::mutable_value<T>()`, a `T*` -/
  mutable_value : Nat → Option T

/-- Source: `template <typename T> const T* value() const`: the pointer (`none` is
`nullptr`) and the calls made on the target. -/
def value {T : Type} (view : DataView T) (d : GraphDependency) : Option T × List Event :=
  if !d._ready then (none, [])
  else if view.empty d._target then (none, [Event.data_empty d._target])
  else (view.cvalue d._target, [Event.data_empty d._target, Event.data_cvalue d._target])

/-- Source: `template <typename T> T as() const`, the fallback being `static_cast<T>(0)`. -/
def as {T : Type} [Zero T] (view : DataView T) (d : GraphDependency) : T × List Event :=
  if !d._ready then (0, [])
  else if view.empty d._target then (0, [Event.data_empty d._target])
  else (view.as d._target, [Event.data_empty d._target, Event.data_as d._target])

/-- Source: `template <typename T> T* mutable_value()`. -/
def mutable_value {T : Type} (view : DataView T) (d : GraphDependency) :
    Option T × List Event :=
  if !d._ready || !d._mutable then (none, [])
  else (view.mutable_value d._target, [Event.data_mutable_value d._target])

end GraphDependency

open GraphDependency

/-! ## Vocabulary for statements about event lists -/

/-- Whether the event is a reservation attempt. -/
def Event.is_reservation : Event → Bool
  | Event.acquire_immutable_depend _ => true
  | Event.acquire_mutable_depend _ => true
  | _ => false

/-- The reservation attempts among the calls made, in order. -/
def reservations (es : List Event) : List Event := es.filter Event.is_reservation

/-- Whether the event is a `trigger` call. -/
def Event.is_trigger : Event → Bool
  | Event.trigger _ => true
  | _ => false

/-- The `trigger` calls among the calls made, in order. -/
def triggers (es : List Event) : List Event := es.filter Event.is_trigger

/-- Whether the event is an atomic operation on `_waiting_num`. -/
def Event.is_counter_op : Event → Bool
  | Event.fetch_add _ => true
  | Event.fetch_sub _ => true
  | _ => false

/-- The atomic operations on `_waiting_num` among the events, in order. -/
def counter_ops (es : List Event) : List Event := es.filter Event.is_counter_op

/-- Whether the event is a `closure()->finish(code)` call. -/
def Event.is_finish : Event → Bool
  | Event.closure_finish _ _ => true
  | _ => false

/-- The `closure()->finish(code)` calls among the calls made, in order. -/
def finishes (es : List Event) : List Event := es.filter Event.is_finish

/-- Whether the event is a `recursive_activate` call. -/
def Event.is_recursive_activate : Event → Bool
  | Event.recursive_activate _ _ => true
  | _ => false

/-- The `recursive_activate` calls among the calls made, in order. -/
def recursive_activations (es : List Event) : List Event := es.filter Event.is_recursive_activate

/-- Whether the event is a call `vertex->ready(this)`. -/
def Event.is_vertex_ready : Event → Bool
  | Event.vertex_ready _ => true
  | _ => false

/-- The calls `vertex->ready(this)` among the calls made, in order. -/
def notifications (es : List Event) : List Event := es.filter Event.is_vertex_ready

/-- Whether the event is a `runnable_vertexes.emplace_back` call. -/
def Event.is_emplace_back : Event → Bool
  | Event.emplace_back _ => true
  | _ => false

/-- The `runnable_vertexes.emplace_back` calls among the calls made, in order. -/
def pushes (es : List Event) : List Event := es.filter Event.is_emplace_back

/-- The reservation call an edge with the given `_mutable` makes on the given target:
`acquire_mutable_depend` when mutable, `acquire_immutable_depend` otherwise. -/
def reservation_call (is_mutable : Bool) (target : Nat) : Event :=
  if is_mutable then Event.acquire_mutable_depend target
  else Event.acquire_immutable_depend target

/-- What the target answers to that reservation call. -/
def reservation_answer (env : Env) (is_mutable : Bool) (target : Nat) : Bool :=
  if is_mutable then env.acquire_mutable_depend target
  else env.acquire_immutable_depend target

/-- The condition holds: there is none, or its boolean equals the establish value. -/
def condition_holds (env : Env) (condition : Option Nat) (establish_value : Bool) : Bool :=
  match condition with
  | none => true
  | some c => env.as_bool c == establish_value

/-- The read of the condition: `_condition->as<bool>()` when there is a condition. -/
def condition_read (condition : Option Nat) : List Event :=
  match condition with
  | none => []
  | some c => [Event.as_bool c]

/-- The reservation this edge asks for. -/
@[simp] def wanted_reservation (d : GraphDependency) : Event :=
  reservation_call d._mutable d._target

/-- Whether the target grants the reservation this edge asks for. -/
@[simp] def granted (env : Env) (d : GraphDependency) : Bool :=
  reservation_answer env d._mutable d._target

/-- The calls `check_established` makes on this edge. -/
@[simp] def check_events (d : GraphDependency) : List Event :=
  condition_read d._condition

/-- Whether the event is a reservation attempt that the target refuses. -/
def refuses (env : Env) : Event → Bool
  | Event.acquire_immutable_depend t => !env.acquire_immutable_depend t
  | Event.acquire_mutable_depend t => !env.acquire_mutable_depend t
  | _ => false

/-- Some reservation attempted among the calls made was refused. -/
def refused (env : Env) (es : List Event) : Bool := es.any (refuses env)

/-- The edge is established in the sense of the data model: it has no condition, or the
condition's boolean equals `_establish_value`. -/
@[simp] def satisfied (env : Env) (d : GraphDependency) : Bool :=
  condition_holds env d._condition d._establish_value

/-- The flag `_established`, when set, agrees with the condition.  It holds after `reset()` and
is kept by every operation as long as the condition's boolean does not change. -/
def flag_consistent (env : Env) (d : GraphDependency) : Prop :=
  d._established = true → satisfied env d = true

/-! ## One execution of an edge as an interleaving of atomic steps

The activator calls `activate` once; the producer of the target calls `ready(target, ...)` at
most once; the producer of the condition, when the edge has one, calls
`ready(condition, ...)` once.  `activate` is one atomic step (it touches `_waiting_num` once, in
its `fetch_add`).  Each `ready` call is two atomic steps, `ready_enter` (the first `fetch_sub`
and the condition block) and `ready_leave` (the second `fetch_sub`, when decided, and the final
block), and the other actors may run in between. -/

/-- The three actors of one execution of an edge. -/
inductive Actor where
  /-- the thread that calls `activate` -/
  | activator
  /-- the thread that completes the target and calls `ready(_target, ...)` -/
  | target_completer
  /-- the thread that completes the condition and calls `ready(_condition, ...)` -/
  | condition_completer
  deriving DecidableEq, Repr

/-- How far one `ready` call has come. -/
inductive CallState where
  /-- not called (yet) -/
  | idle
  /-- between its two parts; `m` holds the call's local variables -/
  | entered (m : ReadyMid)
  /-- returned -/
  | finished (r : ReadyResult)
  deriving DecidableEq, Repr

/-- The state of one execution: the shared edge and what each actor has done so far. -/
structure Execution where
  dep : GraphDependency
  /-- the result of `activate`, once it has run -/
  activated : Option ActivateResult
  target_call : CallState
  condition_call : CallState
  deriving DecidableEq, Repr

/-- One scheduling decision: who runs its next atomic step, what the collaborators answer
during that step, and the runnable stack the actor passes if the step starts a `ready` call. -/
structure Move where
  actor : Actor
  env : Env
  runnable_vertexes : List Nat

/-- The next atomic step of one `ready(data, ...)` call on the shared edge: the edge
afterwards and the call's new state; `none` when the step dereferences a null pointer. -/
def step_call (mv : Move) (d : GraphDependency) (data : Option Nat) :
    CallState → Option (GraphDependency × CallState)
  | CallState.idle =>
    (ready_enter mv.env d data mv.runnable_vertexes).map fun m => (m.dep, CallState.entered m)
  | CallState.entered m =>
    let r := ready_leave mv.env d data m
    some (r.dep, CallState.finished r)
  | CallState.finished r => some (d, CallState.finished r)

/-- The actor of the move runs its next atomic step.  An actor that has nothing left to do
(its one call has returned, or the edge has no condition to complete) leaves the state as it
is. -/
def step (mv : Move) (x : Execution) : Option Execution :=
  match mv.actor with
  | Actor.activator =>
    match x.activated with
    | some _ => some x
    | none => (activate mv.env x.dep).map fun r => { x with dep := r.dep, activated := some r }
  | Actor.target_completer =>
    (step_call mv x.dep (some x.dep._target) x.target_call).map fun p =>
      { x with dep := p.1, target_call := p.2 }
  | Actor.condition_completer =>
    match x.dep._condition with
    | none => some x
    | some c =>
      (step_call mv x.dep (some c) x.condition_call).map fun p =>
        { x with dep := p.1, condition_call := p.2 }

/-- Runs a schedule, move by move. -/
def run (x : Execution) : List Move → Option Execution
  | [] => some x
  | mv :: rest => (step mv x).bind fun y => run y rest

/-- The state at the start of an execution: the edge after `reset()`, nobody has run. -/
def start (d : GraphDependency) : Execution :=
  ⟨reset d, none, CallState.idle, CallState.idle⟩

/-- The edge is established when its condition has the boolean `cv`: it has no condition, or
`cv` equals `_establish_value`. -/
def established_at (d : GraphDependency) (cv : Bool) : Bool :=
  match d._condition with
  | none => true
  | some _ => cv == d._establish_value

/-- The condition of the edge reads `cv` throughout the schedule. -/
def condition_reads (d : GraphDependency) (cv : Bool) (schedule : List Move) : Prop :=
  ∀ mv ∈ schedule, ∀ c, d._condition = some c → mv.env.as_bool c = cv

/-- The calls made so far by a `ready` call. -/
def CallState.events : CallState → List Event
  | CallState.idle => []
  | CallState.entered m => m.events
  | CallState.finished r => r.events

/-- The `ready` call has returned. -/
def CallState.is_finished : CallState → Bool
  | CallState.finished _ => true
  | _ => false

/-- The `ready` call has not been made. -/
def CallState.is_idle : CallState → Bool
  | CallState.idle => true
  | _ => false

/-- The activation has occurred, the condition (if any) has completed, and the target has
completed whenever the edge is established; here a `ready(target)` call counts as soon as it
has made its `fetch_sub`. -/
def settled (d : GraphDependency) (cv : Bool) (x : Execution) : Bool :=
  x.activated.isSome
    && (d._condition.isNone || x.condition_call.is_finished)
    && (!established_at d cv || !x.target_call.is_idle)

/-- Quiescence: the activation has occurred, the condition (if any) has completed, the target
has completed whenever the edge is established, and no `ready` call is still running. -/
def quiescent (d : GraphDependency) (cv : Bool) (x : Execution) : Bool :=
  x.activated.isSome
    && (d._condition.isNone || x.condition_call.is_finished)
    && (!established_at d cv || x.target_call.is_finished)
    && (x.target_call.is_idle || x.target_call.is_finished)

/-- How often the `ready` calls of the execution have invoked `_source->ready(this)`. -/
def notified (x : Execution) : Nat :=
  (notifications x.target_call.events).length + (notifications x.condition_call.events).length

/-- The configuration of an edge, the fields no operation writes, is that of `d`. -/
def same_edge (d e : GraphDependency) : Prop :=
  e._source = d._source ∧ e._target = d._target ∧ e._condition = d._condition ∧
  e._establish_value = d._establish_value ∧ e._mutable = d._mutable ∧
  e._essential = d._essential

/-- The number of atomic operations a `ready` call has made on `_waiting_num` so far. -/
def CallState.subs (cs : CallState) : Int := (counter_ops cs.events).length

/-- The number of `_source->ready(this)` invocations a `ready` call has made, or is bound to
make: a call between its two parts that has neither returned nor decided on a second
`fetch_sub` invokes it exactly when its local `waiting_num` is 0. -/
def CallState.seen : CallState → Int
  | CallState.idle => 0
  | CallState.entered m =>
    if m.returned = false ∧ m.second_sub = false ∧ m.waiting_num = 0 then 1 else 0
  | CallState.finished r => (notifications r.events).length

/-- One once `activate` has run, zero before. -/
def Execution.acts (x : Execution) : Int := if x.activated.isSome then 1 else 0

/-- What `activate` has added to `_waiting_num` so far: its increment once it has run. -/
def Execution.added (d : GraphDependency) (x : Execution) : Int :=
  if x.activated.isSome then activate_increment d else 0

/-- The value `activate` observed after its `fetch_add` (0 before it has run). -/
def Execution.observed (x : Execution) : Int :=
  match x.activated with
  | some r => r.dep._waiting_num
  | none => 0

/-- The invariant of an execution of the edge `d` whose condition reads as established
(`sat = true`) or not.  `_waiting_num` is the increment of `activate`, once made, minus the
decrements made; the remaining fields record how the decrements and the invocations of
`_source->ready(this)` are distributed over the calls. -/
structure Inv (d : GraphDependency) (sat : Bool) (x : Execution) : Prop where
  edge : same_edge d x.dep
  flag : x.dep._established = true → sat = true
  counter : x.dep._waiting_num =
    x.added d - x.target_call.subs - x.condition_call.subs
  target_idle : x.target_call.is_idle = true → x.target_call.subs = 0
  target_busy : x.target_call.is_idle = false → x.target_call.subs = 1
  target_mid : ∀ m, x.target_call = CallState.entered m →
    m.second_sub = false ∧ m.returned = false ∧ notifications m.events = []
  condition_none : d._condition = none → x.condition_call = CallState.idle
  condition_idle : x.condition_call.is_idle = true → x.condition_call.subs = 0
  condition_mid : ∀ m, x.condition_call = CallState.entered m →
    x.condition_call.subs = 1 ∧ notifications m.events = [] ∧
    (m.second_sub = true → sat = false ∧ m.returned = false) ∧
    (sat = false → m.second_sub = false → x.acts = 1 ∧ x.target_call.subs = 1)
  condition_done : ∀ r, x.condition_call = CallState.finished r →
    (x.condition_call.subs = 1 ∨ x.condition_call.subs = 2) ∧
    (x.condition_call.subs = 2 → sat = false) ∧
    (sat = false → x.condition_call.subs = 1 → x.acts = 1 ∧ x.target_call.subs = 1)
  observed_range : x.acts = 1 →
    -1 ≤ x.observed ∧ x.observed ≤ 2 ∧
    activate_increment d - x.target_call.subs - x.condition_call.subs ≤ x.observed
  returned : ∀ r, x.activated = some r →
    r.ret = -1 ∨ r.ret = if r.dep._waiting_num = -1 ∨ r.dep._waiting_num = 0 then 1 else 0
  seen_one : d._source ≠ none → x.acts = 1 → 1 ≤ x.observed →
    activate_increment d ≤ x.target_call.subs + x.condition_call.subs →
    x.target_call.seen + x.condition_call.seen = 1
  seen_none : d._source ≠ none →
    ¬ (x.acts = 1 ∧ 1 ≤ x.observed ∧
      activate_increment d ≤ x.target_call.subs + x.condition_call.subs) →
    x.target_call.seen + x.condition_call.seen = 0

/-! ## Sample inputs -/

/-- Collaborators that grant every reservation and report every data item ready and true;
`recursive_activate` succeeds and schedules nothing. -/
def env_grant : Env where
  as_bool := fun _ => true
  data_ready := fun _ => true
  acquire_immutable_depend := fun _ => true
  acquire_mutable_depend := fun _ => true
  recursive_activate := fun _ _ rs => (0, rs)
  vertex_ready := fun _ => true
  min_severity := 1

/-- Collaborators that refuse every reservation, everything else as in `env_grant`. -/
def env_refuse : Env :=
  { env_grant with
    acquire_immutable_depend := fun _ => false
    acquire_mutable_depend := fun _ => false }

/-- An unconditional immutable edge of vertex 0 on data 1, freshly reset. -/
def plain_edge : GraphDependency where
  _source := some 0
  _target := 1
  _condition := none
  _establish_value := false
  _mutable := false
  _essential := true
  _waiting_num := 0
  _established := false
  _ready := false

/-- An edge of vertex 0 on data 1 under the condition that data 2 is true, freshly reset. -/
def conditional_edge : GraphDependency :=
  { plain_edge with _condition := some 2, _establish_value := true }

/-- Collaborators under which every condition reads false, everything else as in
`env_grant`. -/
def env_false : Env :=
  { env_grant with as_bool := fun _ => false }

/-- Modelled from the spec: `GraphData::recursive_activate(runnable, closure)`, declared
outside these sources, "schedules the producer vertex immediately"; here it succeeds and
pushes the producer, vertex 9, onto the stack it is handed.  Everything else is as in
`env_grant`. -/
def env_schedule : Env :=
  { env_grant with recursive_activate := fun _ _ rs => (0, rs ++ [9]) }

/-- The typed view of a target holding the integer 7. -/
def view_seven : DataView Int where
  empty := fun _ => false
  cvalue := fun _ => some 7
  as := fun _ => 7
  mutable_value := fun _ => some 7

/-- The schedule in which the listed actors run one atomic step each, in order, all under
the same collaborators and with an empty runnable stack. -/
def moves (env : Env) (actors : List Actor) : List Move :=
  actors.map fun a => ⟨a, env, []⟩

/-- The condition completes, then the activator runs, then the target completes. -/
def schedule_condition_first : List Move :=
  moves env_grant [Actor.condition_completer, Actor.condition_completer, Actor.activator,
    Actor.target_completer, Actor.target_completer]

/-- The target completes first; the activator then finds its reservation refused. -/
def schedule_refused : List Move :=
  moves env_grant [Actor.target_completer, Actor.target_completer]
    ++ moves env_refuse [Actor.activator]

/-- The final state of `schedule_condition_first` on `conditional_edge`. -/
def final_condition_first : Execution :=
  (run (start conditional_edge) schedule_condition_first).getD (start conditional_edge)


/-! ## Introspection: the producers of the target -/

/-- What `GraphData::producers()` and `GraphVertex::name()` answer; both are declared outside
this file's sources. -/
structure ProducerView where
  /-- Answer of `data->producers()`, `none` being a null pointer -/
  producers : Nat → Option (List Nat)
  /-- Answer of `vertex->name()` -/
  name : Nat → String

namespace GraphDependency

/-- The overload `activated_vertex_name(std::vector<std::string>& vertex_names)`: the returned
`err` and the vector as the call leaves it. -/
def activated_vertex_name_vector (view : ProducerView) (d : GraphDependency)
    (vertex_names : List String) : Int × List String :=
  if d._ready then
    match view.producers d._target with
    | some producers =>
      if producers.isEmpty = false then
        (0, producers.foldl (fun names producer => names ++ [view.name producer]) vertex_names)
      else (1, vertex_names)
    | none => (1, vertex_names)
  else (-1, vertex_names)

/-- The overload `activated_vertex_name(std::string& vertex_name)`: the returned `err` and the
string as the call leaves it. -/
def activated_vertex_name_string (view : ProducerView) (d : GraphDependency)
    (vertex_name : String) : Int × String :=
  if d._ready then
    match view.producers d._target with
    | some (producer :: _) => (0, view.name producer)
    | some [] => (1, vertex_name)
    | none => (1, vertex_name)
  else (-1, vertex_name)

end GraphDependency

/-! ## Sequences of calls on one edge -/

/-- One call on an edge, with what the collaborators answer during it. -/
inductive Call where
  /-- The call `activate(activating_data)` -/
  | activate (env : Env)
  /-- The call `ready(data, runnable_vertexes)` -/
  | ready (env : Env) (data : Option Nat) (runnable_vertexes : List Nat)
  /-- The call `check_established()` -/
  | check_established (env : Env)

/-- The collaborators of a call. -/
def Call.env : Call → Env
  | Call.activate env => env
  | Call.ready env _ _ => env
  | Call.check_established env => env

/-- What one call hands back: the return code of `activate` or the boolean of
`check_established` (`ready` returns nothing), the runnable stack after a `ready`, and the calls
made on the collaborators. -/
structure CallOutput where
  ret : Option Int
  runnable_vertexes : List Nat
  events : List Event
  deriving DecidableEq, Repr

/-- The call `c` made on the edge in state `d`: the edge afterwards and what the call hands
back; `none` when the call dereferences a null pointer. -/
def perform (c : Call) (d : GraphDependency) : Option (GraphDependency × CallOutput) :=
  match c with
  | Call.activate env =>
    (activate env d).map fun r =>
      (r.dep, { ret := some r.ret, runnable_vertexes := [], events := r.events })
  | Call.ready env data runnable_vertexes =>
    (ready env d data runnable_vertexes).map fun r =>
      (r.dep, { ret := none, runnable_vertexes := r.runnable_vertexes, events := r.events })
  | Call.check_established env =>
    let ce := check_established env d
    some (ce.1,
      { ret := some (if ce.2.1 then 1 else 0), runnable_vertexes := [], events := ce.2.2 })

/-- The calls made one after the other, each on the state the one before left. -/
def replay (d : GraphDependency) : List Call → Option (GraphDependency × List CallOutput)
  | [] => some (d, [])
  | c :: cs =>
    match perform c d with
    | none => none
    | some (d1, o) => (replay d1 cs).map fun p => (p.1, o :: p.2)

/-- Modelled from the spec: a freshly constructed edge with a given configuration.  The
constructor and the member initialisers are in dependency.h, which is not under src; the spec
has `waiting_num` "initially 0" and `established`, `ready` as per-execution state resolved
during an execution. -/
def fresh_edge (source : Option Nat) (target : Nat) (condition : Option Nat)
    (establish_value is_mutable is_essential : Bool) : GraphDependency where
  _source := source
  _target := target
  _condition := condition
  _establish_value := establish_value
  _mutable := is_mutable
  _essential := is_essential
  _waiting_num := 0
  _established := false
  _ready := false

/-- The condition was read during the calls `es` and gave `_establish_value`, or there is no
condition to read. -/
def checked (env : Env) (d : GraphDependency) (es : List Event) : Prop :=
  d._condition = none ∨
    ∃ c, d._condition = some c ∧ Event.as_bool c ∈ es ∧ env.as_bool c = d._establish_value

/-- The state of an execution in which `activate` has not run yet: `_waiting_num` is minus the
number of decrements made so far, of which the `ready(target)` call has made at most one and
makes no further one, and the `ready(condition)` call at most two. -/
structure Counted (d : GraphDependency) (x : Execution) : Prop where
  edge : same_edge d x.dep
  before : x.activated = none
  counter : x.dep._waiting_num = - x.target_call.subs - x.condition_call.subs
  target_subs : x.target_call.subs ≤ 1
  target_mid : ∀ m, x.target_call = CallState.entered m → m.second_sub = false
  condition_none : d._condition = none → x.condition_call = CallState.idle
  condition_mid : ∀ m, x.condition_call = CallState.entered m → x.condition_call.subs = 1
  condition_subs : x.condition_call.subs ≤ 2

/-! ## The reservation of a target -/

/-- Modelled from the spec: the reservation state of one `GraphData` (data.h and its
implementation are not under src): whether the exclusive reservation was granted, and whether
a shared one was. -/
structure Reservation where
  mutable_granted : Bool
  immutable_granted : Bool
  deriving DecidableEq, Repr

namespace Reservation

/-- A data item nobody reserved. -/
def free : Reservation := { mutable_granted := false, immutable_granted := false }

/-- Modelled from the spec: `acquire_immutable_depend()` "succeeds unless a mutable
reservation already exists; idempotent across multiple shared consumers". -/
def acquire_immutable_depend (s : Reservation) : Bool × Reservation :=
  if s.mutable_granted then (false, s) else (true, { s with immutable_granted := true })

/-- Modelled from the spec: `acquire_mutable_depend()` "succeeds only if no other reservation
exists". -/
def acquire_mutable_depend (s : Reservation) : Bool × Reservation :=
  if s.mutable_granted || s.immutable_granted then (false, s)
  else (true, { s with mutable_granted := true })

/-- Nobody reserved any data. -/
def nothing_reserved : Nat → Reservation := fun _ => free

/-- The reservation states of all data after the reservation calls among `es`, made in that
order. -/
def record (w : Nat → Reservation) : List Event → Nat → Reservation
  | [] => w
  | Event.acquire_immutable_depend data :: es =>
    record (fun x => if x = data then (w data).acquire_immutable_depend.2 else w x) es
  | Event.acquire_mutable_depend data :: es =>
    record (fun x => if x = data then (w data).acquire_mutable_depend.2 else w x) es
  | _ :: es => record w es

end Reservation

/-- The collaborators `env`, except that the reservation calls are answered from the
reservation states `w` of the data. -/
def env_reserving (env : Env) (w : Nat → Reservation) : Env :=
  { env with
    acquire_immutable_depend := fun data => (w data).acquire_immutable_depend.1
    acquire_mutable_depend := fun data => (w data).acquire_mutable_depend.1 }

/-- The call `activate` of edge `d` while the data are in the reservation states `w`: the
result and the reservation states afterwards. -/
def activate_reserving (env : Env) (w : Nat → Reservation) (d : GraphDependency) :
    Option (ActivateResult × (Nat → Reservation)) :=
  (activate (env_reserving env w) d).map fun r => (r, Reservation.record w r.events)

/-! ## More sample inputs -/

/-- The target, data 1, is produced by the vertices 4 and 5, named "v4" and "v5"; no other data
has a producer list. -/
def view_two : ProducerView where
  producers := fun data => if data = 1 then some [4, 5] else none
  name := fun vertex => if vertex = 4 then "v4" else "v5"

/-- An unconditional mutable edge of vertex 0 on data 1, freshly reset. -/
def mutable_edge : GraphDependency :=
  { plain_edge with _mutable := true }

/-- A second unconditional mutable edge on data 1, of vertex 3, freshly reset. -/
def second_mutable_edge : GraphDependency :=
  { mutable_edge with _source := some 3 }

/-- A mutable edge of vertex 3 on data 1 under the condition that data 2 is true, freshly
reset. -/
def mutable_conditional_edge : GraphDependency :=
  { conditional_edge with _source := some 3, _mutable := true }

/-- An edge without a source vertex on data 1 under the condition that data 2 is true,
activated and waiting for both. -/
def sourceless_edge : GraphDependency :=
  { conditional_edge with _source := none, _waiting_num := 2 }

/-- The activator runs, then the target completes, then the condition. -/
def schedule_target_first : List Move :=
  moves env_grant [Actor.activator, Actor.target_completer, Actor.target_completer,
    Actor.condition_completer, Actor.condition_completer]

/-- The final state of `schedule_target_first` on `mutable_conditional_edge`. -/
def final_target_first : Execution :=
  (run (start mutable_conditional_edge) schedule_target_first).getD
    (start mutable_conditional_edge)

/-- All calls made on the collaborators during an execution. -/
def Execution.events (x : Execution) : List Event :=
  (match x.activated with
    | some r => r.events
    | none => []) ++ x.target_call.events ++ x.condition_call.events

/-- An edge left over from an earlier execution: `plain_edge` with its per-execution state
used. -/
def used_edge : GraphDependency :=
  { plain_edge with _waiting_num := 5, _established := true, _ready := true }

/-- The calls of one execution of an unconditional edge: the activation, then the completion
of the target, data 1. -/
def calls_plain : List Call :=
  [Call.activate env_grant, Call.ready env_grant (some 1) []]

/-- The calls of one execution of `conditional_edge` whose condition reads false: the
activation, the completion of the condition, data 2, and that of the target, data 1. -/
def calls_unsatisfied : List Call :=
  [Call.activate env_false, Call.ready env_false (some 2) [], Call.ready env_false (some 1) []]

end babylon.anyflow

/-!
# babylon concurrent: the sharded counters

A shallow embedding of the three `operator<<` of src/babylon/concurrent/counter.h.  An
`ssize_t` is an `Int` wrapped by `anyflow.wrap64` after every addition, a `size_t` a `Nat`
taken modulo `2 ^ 64`.  A thread is a natural number, its index in the storage.
-/

namespace babylon

/-- The constant `SIZE_MAX` of a 64-bit `size_t`. -/
def SIZE_MAX : Nat := 18446744073709551615

/-- Modelled from the spec: `CompactEnumerableThreadLocal<T, 64>::local()`, whose header
thread_local.h is not under src.  The storage is "a collection of slots, one per writer
thread", here the list of the slots of the threads 0, 1, 2, ...; `local()` is the slot of the
calling thread, created in its initial state `init`, with those of the threads before it, when
the storage does not reach that far yet.  `update_local init f thread storage` is the storage
after the calling thread replaced its slot `local` by `f local`. -/
def update_local {T : Type} (init : T) (f : T → T) : Nat → List T → List T
  | 0, [] => [f init]
  | 0, slot :: slots => f slot :: slots
  | thread + 1, [] => init :: update_local init f thread []
  | thread + 1, slot :: slots => slot :: update_local init f thread slots

/-- The slot of a thread as `local()` finds it: the stored one, or the initial state. -/
def local_slot {T : Type} (init : T) (thread : Nat) (storage : List T) : T :=
  storage.getD thread init

/-- The fields of `ConcurrentAdder`. -/
structure ConcurrentAdder where
  _storage : List Int
  deriving DecidableEq, Repr

namespace ConcurrentAdder

/-- The operator `<<` of `ConcurrentAdder`, called by `thread`: `local = local + value`.  The
slot of a thread is an `ssize_t` that starts at 0. -/
def operator_shl (a : ConcurrentAdder) (thread : Nat) (value : Int) : ConcurrentAdder :=
  { a with
    _storage := update_local 0 (fun slot => anyflow.wrap64 (slot + value)) thread a._storage }

/-- Modelled from the spec: `value()`, declared in counter.h and implemented outside src;
"Read sums all slots", in `ssize_t`. -/
def value (a : ConcurrentAdder) : Int :=
  a._storage.foldl (fun sum slot => anyflow.wrap64 (sum + slot)) 0

/-- A sequence of writes, each by a thread, in the order they take effect. -/
def writes (a : ConcurrentAdder) (ws : List (Nat × Int)) : ConcurrentAdder :=
  ws.foldl (fun a w => a.operator_shl w.1 w.2) a

end ConcurrentAdder

/-- The struct `ConcurrentMaxer::Slot`. -/
structure Slot where
  version : Nat
  value : Int
  deriving DecidableEq, Repr

/-- The fields of `ConcurrentMaxer`. -/
structure ConcurrentMaxer where
  _storage : List Slot
  _version : Nat
  deriving DecidableEq, Repr

namespace ConcurrentMaxer

/-- A slot nobody wrote yet: `version {SIZE_MAX}`, and a `value` that has no initialiser, so
whatever it holds is a parameter. -/
def fresh_slot (uninitialised : Int) : Slot :=
  { version := SIZE_MAX, value := uninitialised }

/-- The body of the operator `<<` of `ConcurrentMaxer` on the slot `local` of the calling
thread. -/
def write_slot (_version : Nat) (value : Int) (slot : Slot) : Slot :=
  if _version ≠ slot.version then
    { version := _version, value := value }
  else if value > slot.value then
    { slot with value := value }
  else slot

/-- The operator `<<` of `ConcurrentMaxer`, called by `thread`. -/
def operator_shl (uninitialised : Int) (m : ConcurrentMaxer) (thread : Nat) (value : Int) :
    ConcurrentMaxer :=
  { m with
    _storage := update_local (fresh_slot uninitialised) (write_slot m._version value) thread
      m._storage }

/-- A sequence of writes, each by a thread, in the order they take effect. -/
def writes (uninitialised : Int) (m : ConcurrentMaxer) (ws : List (Nat × Int)) :
    ConcurrentMaxer :=
  ws.foldl (fun m w => operator_shl uninitialised m w.1 w.2) m

/-- The maximum with a value of what was found so far, `none` being nothing found. -/
def raise : Option Int → Int → Option Int
  | none, value => some value
  | some found, value => some (max found value)

/-- The maximum over the slots that carry the version `_version`, `none` when no slot does. -/
def current_max (_version : Nat) : List Slot → Option Int
  | [] => none
  | slot :: slots =>
    if slot.version = _version then
      match current_max _version slots with
      | none => some slot.value
      | some found => some (max slot.value found)
    else current_max _version slots

/-- Modelled from the spec: `bool value(ssize_t& max_value)`, declared in counter.h and
implemented outside src; "Read walks slots whose version equals the current global and returns
the max, or signals no samples when none match". -/
def value (m : ConcurrentMaxer) : Option Int := current_max m._version m._storage

/-- Modelled from the spec: `reset()`, declared in counter.h and implemented outside src;
"Reset increments the global version", a `size_t`. -/
def reset (m : ConcurrentMaxer) : ConcurrentMaxer :=
  { m with _version := (m._version + 1) % 18446744073709551616 }

/-- A maxer as constructed: no slot yet, `_version {0}`. -/
def fresh : ConcurrentMaxer := { _storage := [], _version := 0 }

end ConcurrentMaxer

/-- The struct `ConcurrentSummer::Summary`. -/
structure Summary where
  sum : Int
  num : Nat
  deriving DecidableEq, Repr

/-- The fields of `ConcurrentSummer`. -/
structure ConcurrentSummer where
  _storage : List Summary
  deriving DecidableEq, Repr

namespace ConcurrentSummer

/-- The intrinsic `_mm_add_epi64` (`vaddq_s64` on ARM) on the two 64-bit lanes of a `Summary`:
lane 0 is the `ssize_t sum`, lane 1 the `size_t num`; each lane is added on its own and
wraps. -/
def add_epi64 (local_value delta_value : Summary) : Summary :=
  { sum := anyflow.wrap64 (local_value.sum + delta_value.sum)
    num := (local_value.num + delta_value.num) % 18446744073709551616 }

/-- The operator `<<` of `ConcurrentSummer` on a `Summary`, called by `thread`.  The slot of a
thread starts as `{0, 0}`. -/
def operator_shl_summary (s : ConcurrentSummer) (thread : Nat) (summary : Summary) :
    ConcurrentSummer :=
  { s with
    _storage := update_local { sum := 0, num := 0 } (fun slot => add_epi64 slot summary) thread
      s._storage }

/-- The operator `<<` of `ConcurrentSummer` on a `ssize_t`, called by `thread`. -/
def operator_shl (s : ConcurrentSummer) (thread : Nat) (value : Int) : ConcurrentSummer :=
  s.operator_shl_summary thread { sum := value, num := 1 }

/-- Modelled from the spec: `value()`, declared in counter.h and implemented outside src; "the
reader enumerates all live slots and folds them", lane by lane. -/
def value (s : ConcurrentSummer) : Summary :=
  s._storage.foldl add_epi64 { sum := 0, num := 0 }

/-- A sequence of scalar writes, each by a thread, in the order they take effect. -/
def writes (s : ConcurrentSummer) (ws : List (Nat × Int)) : ConcurrentSummer :=
  ws.foldl (fun s w => s.operator_shl w.1 w.2) s

end ConcurrentSummer

/-! ## Sample inputs of the counters -/

/-- The writes 3, 1, 8, 2, 5 spread over the threads 0, 1, 2, 3. -/
def five_writes : List (Nat × Int) := [(0, 3), (1, 1), (2, 8), (3, 2), (0, 5)]

/-- Each of the threads 0, ..., `threads - 1` writes `samples` times the value `value`. -/
def uniform_writes (samples : Nat) (value : Int) : Nat → List (Nat × Int)
  | 0 => []
  | threads + 1 => uniform_writes samples value threads ++ List.replicate samples (threads, value)

end babylon

namespace babylon.anyflow

open GraphDependency

/-! ## The vocabulary on the event lists the code produces -/

@[simp] theorem is_reservation_eval :
    (∀ (k : Int), (Event.fetch_add k).is_reservation = false) ∧
    (∀ (k : Int), (Event.fetch_sub k).is_reservation = false) ∧
    (∀ (x : Nat), (Event.as_bool x).is_reservation = false) ∧
    (∀ (x : Nat), (Event.data_ready x).is_reservation = false) ∧
    (∀ (x : Nat), (Event.acquire_immutable_depend x).is_reservation = true) ∧
    (∀ (x : Nat), (Event.acquire_mutable_depend x).is_reservation = true) ∧
    (∀ (x : Nat), (Event.trigger x).is_reservation = false) ∧
    (∀ (x : Nat) (v : Nat), (Event.recursive_activate x v).is_reservation = false) ∧
    (∀ (v : Nat) (k : Int), (Event.closure_finish v k).is_reservation = false) ∧
    (∀ (v : Nat), (Event.vertex_ready v).is_reservation = false) ∧
    (∀ (v : Nat), (Event.emplace_back v).is_reservation = false) ∧
    (Event.log_warning.is_reservation = false) ∧
    (∀ (x : Nat), (Event.data_empty x).is_reservation = false) ∧
    (∀ (x : Nat), (Event.data_cvalue x).is_reservation = false) ∧
    (∀ (x : Nat), (Event.data_as x).is_reservation = false) ∧
    (∀ (x : Nat), (Event.data_mutable_value x).is_reservation = false) := by
  simp [Event.is_reservation]

@[simp] theorem is_trigger_eval :
    (∀ (k : Int), (Event.fetch_add k).is_trigger = false) ∧
    (∀ (k : Int), (Event.fetch_sub k).is_trigger = false) ∧
    (∀ (x : Nat), (Event.as_bool x).is_trigger = false) ∧
    (∀ (x : Nat), (Event.data_ready x).is_trigger = false) ∧
    (∀ (x : Nat), (Event.acquire_immutable_depend x).is_trigger = false) ∧
    (∀ (x : Nat), (Event.acquire_mutable_depend x).is_trigger = false) ∧
    (∀ (x : Nat), (Event.trigger x).is_trigger = true) ∧
    (∀ (x : Nat) (v : Nat), (Event.recursive_activate x v).is_trigger = false) ∧
    (∀ (v : Nat) (k : Int), (Event.closure_finish v k).is_trigger = false) ∧
    (∀ (v : Nat), (Event.vertex_ready v).is_trigger = false) ∧
    (∀ (v : Nat), (Event.emplace_back v).is_trigger = false) ∧
    (Event.log_warning.is_trigger = false) ∧
    (∀ (x : Nat), (Event.data_empty x).is_trigger = false) ∧
    (∀ (x : Nat), (Event.data_cvalue x).is_trigger = false) ∧
    (∀ (x : Nat), (Event.data_as x).is_trigger = false) ∧
    (∀ (x : Nat), (Event.data_mutable_value x).is_trigger = false) := by
  simp [Event.is_trigger]

@[simp] theorem is_counter_op_eval :
    (∀ (k : Int), (Event.fetch_add k).is_counter_op = true) ∧
    (∀ (k : Int), (Event.fetch_sub k).is_counter_op = true) ∧
    (∀ (x : Nat), (Event.as_bool x).is_counter_op = false) ∧
    (∀ (x : Nat), (Event.data_ready x).is_counter_op = false) ∧
    (∀ (x : Nat), (Event.acquire_immutable_depend x).is_counter_op = false) ∧
    (∀ (x : Nat), (Event.acquire_mutable_depend x).is_counter_op = false) ∧
    (∀ (x : Nat), (Event.trigger x).is_counter_op = false) ∧
    (∀ (x : Nat) (v : Nat), (Event.recursive_activate x v).is_counter_op = false) ∧
    (∀ (v : Nat) (k : Int), (Event.closure_finish v k).is_counter_op = false) ∧
    (∀ (v : Nat), (Event.vertex_ready v).is_counter_op = false) ∧
    (∀ (v : Nat), (Event.emplace_back v).is_counter_op = false) ∧
    (Event.log_warning.is_counter_op = false) ∧
    (∀ (x : Nat), (Event.data_empty x).is_counter_op = false) ∧
    (∀ (x : Nat), (Event.data_cvalue x).is_counter_op = false) ∧
    (∀ (x : Nat), (Event.data_as x).is_counter_op = false) ∧
    (∀ (x : Nat), (Event.data_mutable_value x).is_counter_op = false) := by
  simp [Event.is_counter_op]

@[simp] theorem is_finish_eval :
    (∀ (k : Int), (Event.fetch_add k).is_finish = false) ∧
    (∀ (k : Int), (Event.fetch_sub k).is_finish = false) ∧
    (∀ (x : Nat), (Event.as_bool x).is_finish = false) ∧
    (∀ (x : Nat), (Event.data_ready x).is_finish = false) ∧
    (∀ (x : Nat), (Event.acquire_immutable_depend x).is_finish = false) ∧
    (∀ (x : Nat), (Event.acquire_mutable_depend x).is_finish = false) ∧
    (∀ (x : Nat), (Event.trigger x).is_finish = false) ∧
    (∀ (x : Nat) (v : Nat), (Event.recursive_activate x v).is_finish = false) ∧
    (∀ (v : Nat) (k : Int), (Event.closure_finish v k).is_finish = true) ∧
    (∀ (v : Nat), (Event.vertex_ready v).is_finish = false) ∧
    (∀ (v : Nat), (Event.emplace_back v).is_finish = false) ∧
    (Event.log_warning.is_finish = false) ∧
    (∀ (x : Nat), (Event.data_empty x).is_finish = false) ∧
    (∀ (x : Nat), (Event.data_cvalue x).is_finish = false) ∧
    (∀ (x : Nat), (Event.data_as x).is_finish = false) ∧
    (∀ (x : Nat), (Event.data_mutable_value x).is_finish = false) := by
  simp [Event.is_finish]

@[simp] theorem is_recursive_activate_eval :
    (∀ (k : Int), (Event.fetch_add k).is_recursive_activate = false) ∧
    (∀ (k : Int), (Event.fetch_sub k).is_recursive_activate = false) ∧
    (∀ (x : Nat), (Event.as_bool x).is_recursive_activate = false) ∧
    (∀ (x : Nat), (Event.data_ready x).is_recursive_activate = false) ∧
    (∀ (x : Nat), (Event.acquire_immutable_depend x).is_recursive_activate = false) ∧
    (∀ (x : Nat), (Event.acquire_mutable_depend x).is_recursive_activate = false) ∧
    (∀ (x : Nat), (Event.trigger x).is_recursive_activate = false) ∧
    (∀ (x : Nat) (v : Nat), (Event.recursive_activate x v).is_recursive_activate = true) ∧
    (∀ (v : Nat) (k : Int), (Event.closure_finish v k).is_recursive_activate = false) ∧
    (∀ (v : Nat), (Event.vertex_ready v).is_recursive_activate = false) ∧
    (∀ (v : Nat), (Event.emplace_back v).is_recursive_activate = false) ∧
    (Event.log_warning.is_recursive_activate = false) ∧
    (∀ (x : Nat), (Event.data_empty x).is_recursive_activate = false) ∧
    (∀ (x : Nat), (Event.data_cvalue x).is_recursive_activate = false) ∧
    (∀ (x : Nat), (Event.data_as x).is_recursive_activate = false) ∧
    (∀ (x : Nat), (Event.data_mutable_value x).is_recursive_activate = false) := by
  simp [Event.is_recursive_activate]

@[simp] theorem is_vertex_ready_eval :
    (∀ (k : Int), (Event.fetch_add k).is_vertex_ready = false) ∧
    (∀ (k : Int), (Event.fetch_sub k).is_vertex_ready = false) ∧
    (∀ (x : Nat), (Event.as_bool x).is_vertex_ready = false) ∧
    (∀ (x : Nat), (Event.data_ready x).is_vertex_ready = false) ∧
    (∀ (x : Nat), (Event.acquire_immutable_depend x).is_vertex_ready = false) ∧
    (∀ (x : Nat), (Event.acquire_mutable_depend x).is_vertex_ready = false) ∧
    (∀ (x : Nat), (Event.trigger x).is_vertex_ready = false) ∧
    (∀ (x : Nat) (v : Nat), (Event.recursive_activate x v).is_vertex_ready = false) ∧
    (∀ (v : Nat) (k : Int), (Event.closure_finish v k).is_vertex_ready = false) ∧
    (∀ (v : Nat), (Event.vertex_ready v).is_vertex_ready = true) ∧
    (∀ (v : Nat), (Event.emplace_back v).is_vertex_ready = false) ∧
    (Event.log_warning.is_vertex_ready = false) ∧
    (∀ (x : Nat), (Event.data_empty x).is_vertex_ready = false) ∧
    (∀ (x : Nat), (Event.data_cvalue x).is_vertex_ready = false) ∧
    (∀ (x : Nat), (Event.data_as x).is_vertex_ready = false) ∧
    (∀ (x : Nat), (Event.data_mutable_value x).is_vertex_ready = false) := by
  simp [Event.is_vertex_ready]

@[simp] theorem is_emplace_back_eval :
    (∀ (k : Int), (Event.fetch_add k).is_emplace_back = false) ∧
    (∀ (k : Int), (Event.fetch_sub k).is_emplace_back = false) ∧
    (∀ (x : Nat), (Event.as_bool x).is_emplace_back = false) ∧
    (∀ (x : Nat), (Event.data_ready x).is_emplace_back = false) ∧
    (∀ (x : Nat), (Event.acquire_immutable_depend x).is_emplace_back = false) ∧
    (∀ (x : Nat), (Event.acquire_mutable_depend x).is_emplace_back = false) ∧
    (∀ (x : Nat), (Event.trigger x).is_emplace_back = false) ∧
    (∀ (x : Nat) (v : Nat), (Event.recursive_activate x v).is_emplace_back = false) ∧
    (∀ (v : Nat) (k : Int), (Event.closure_finish v k).is_emplace_back = false) ∧
    (∀ (v : Nat), (Event.vertex_ready v).is_emplace_back = false) ∧
    (∀ (v : Nat), (Event.emplace_back v).is_emplace_back = true) ∧
    (Event.log_warning.is_emplace_back = false) ∧
    (∀ (x : Nat), (Event.data_empty x).is_emplace_back = false) ∧
    (∀ (x : Nat), (Event.data_cvalue x).is_emplace_back = false) ∧
    (∀ (x : Nat), (Event.data_as x).is_emplace_back = false) ∧
    (∀ (x : Nat), (Event.data_mutable_value x).is_emplace_back = false) := by
  simp [Event.is_emplace_back]

@[simp] theorem reservations_nil : reservations [] = [] := rfl

@[simp] theorem reservations_cons (e : Event) (l : List Event) :
    reservations (e :: l) = if e.is_reservation then e :: reservations l else reservations l := by
  simp only [reservations, List.filter_cons]

@[simp] theorem reservations_append (a b : List Event) :
    reservations (a ++ b) = reservations a ++ reservations b := by
  simp [reservations]

@[simp] theorem reservations_log_warning (env : Env) : reservations (log_warning env) = [] := by
  unfold log_warning
  split <;> simp

@[simp] theorem reservations_condition_read (c : Option Nat) :
    reservations (condition_read c) = [] := by
  unfold condition_read
  split <;> simp

@[simp] theorem is_reservation_reservation_call (m : Bool) (t : Nat) :
    (reservation_call m t).is_reservation = true := by
  unfold reservation_call
  split <;> simp

@[simp] theorem triggers_nil : triggers [] = [] := rfl

@[simp] theorem triggers_cons (e : Event) (l : List Event) :
    triggers (e :: l) = if e.is_trigger then e :: triggers l else triggers l := by
  simp only [triggers, List.filter_cons]

@[simp] theorem triggers_append (a b : List Event) :
    triggers (a ++ b) = triggers a ++ triggers b := by
  simp [triggers]

@[simp] theorem triggers_log_warning (env : Env) : triggers (log_warning env) = [] := by
  unfold log_warning
  split <;> simp

@[simp] theorem triggers_condition_read (c : Option Nat) : triggers (condition_read c) = [] := by
  unfold condition_read
  split <;> simp

@[simp] theorem is_trigger_reservation_call (m : Bool) (t : Nat) :
    (reservation_call m t).is_trigger = false := by
  unfold reservation_call
  split <;> simp

@[simp] theorem counter_ops_nil : counter_ops [] = [] := rfl

@[simp] theorem counter_ops_cons (e : Event) (l : List Event) :
    counter_ops (e :: l) = if e.is_counter_op then e :: counter_ops l else counter_ops l := by
  simp only [counter_ops, List.filter_cons]

@[simp] theorem counter_ops_append (a b : List Event) :
    counter_ops (a ++ b) = counter_ops a ++ counter_ops b := by
  simp [counter_ops]

@[simp] theorem counter_ops_log_warning (env : Env) : counter_ops (log_warning env) = [] := by
  unfold log_warning
  split <;> simp

@[simp] theorem counter_ops_condition_read (c : Option Nat) :
    counter_ops (condition_read c) = [] := by
  unfold condition_read
  split <;> simp

@[simp] theorem is_counter_op_reservation_call (m : Bool) (t : Nat) :
    (reservation_call m t).is_counter_op = false := by
  unfold reservation_call
  split <;> simp

@[simp] theorem finishes_nil : finishes [] = [] := rfl

@[simp] theorem finishes_cons (e : Event) (l : List Event) :
    finishes (e :: l) = if e.is_finish then e :: finishes l else finishes l := by
  simp only [finishes, List.filter_cons]

@[simp] theorem finishes_append (a b : List Event) :
    finishes (a ++ b) = finishes a ++ finishes b := by
  simp [finishes]

@[simp] theorem finishes_log_warning (env : Env) : finishes (log_warning env) = [] := by
  unfold log_warning
  split <;> simp

@[simp] theorem finishes_condition_read (c : Option Nat) : finishes (condition_read c) = [] := by
  unfold condition_read
  split <;> simp

@[simp] theorem is_finish_reservation_call (m : Bool) (t : Nat) :
    (reservation_call m t).is_finish = false := by
  unfold reservation_call
  split <;> simp

@[simp] theorem recursive_activations_nil : recursive_activations [] = [] := rfl

@[simp] theorem recursive_activations_cons (e : Event) (l : List Event) :
    recursive_activations (e :: l) =
      if e.is_recursive_activate then e :: recursive_activations l
      else recursive_activations l := by
  simp only [recursive_activations, List.filter_cons]

@[simp] theorem recursive_activations_append (a b : List Event) :
    recursive_activations (a ++ b) = recursive_activations a ++ recursive_activations b := by
  simp [recursive_activations]

@[simp] theorem recursive_activations_log_warning (env : Env) :
    recursive_activations (log_warning env) = [] := by
  unfold log_warning
  split <;> simp

@[simp] theorem recursive_activations_condition_read (c : Option Nat) :
    recursive_activations (condition_read c) = [] := by
  unfold condition_read
  split <;> simp

@[simp] theorem is_recursive_activate_reservation_call (m : Bool) (t : Nat) :
    (reservation_call m t).is_recursive_activate = false := by
  unfold reservation_call
  split <;> simp

@[simp] theorem notifications_nil : notifications [] = [] := rfl

@[simp] theorem notifications_cons (e : Event) (l : List Event) :
    notifications (e :: l) =
      if e.is_vertex_ready then e :: notifications l else notifications l := by
  simp only [notifications, List.filter_cons]

@[simp] theorem notifications_append (a b : List Event) :
    notifications (a ++ b) = notifications a ++ notifications b := by
  simp [notifications]

@[simp] theorem notifications_log_warning (env : Env) : notifications (log_warning env) = [] := by
  unfold log_warning
  split <;> simp

@[simp] theorem notifications_condition_read (c : Option Nat) :
    notifications (condition_read c) = [] := by
  unfold condition_read
  split <;> simp

@[simp] theorem is_vertex_ready_reservation_call (m : Bool) (t : Nat) :
    (reservation_call m t).is_vertex_ready = false := by
  unfold reservation_call
  split <;> simp

@[simp] theorem pushes_nil : pushes [] = [] := rfl

@[simp] theorem pushes_cons (e : Event) (l : List Event) :
    pushes (e :: l) = if e.is_emplace_back then e :: pushes l else pushes l := by
  simp only [pushes, List.filter_cons]

@[simp] theorem pushes_append (a b : List Event) : pushes (a ++ b) = pushes a ++ pushes b := by
  simp [pushes]

@[simp] theorem pushes_log_warning (env : Env) : pushes (log_warning env) = [] := by
  unfold log_warning
  split <;> simp

@[simp] theorem pushes_condition_read (c : Option Nat) : pushes (condition_read c) = [] := by
  unfold condition_read
  split <;> simp

@[simp] theorem is_emplace_back_reservation_call (m : Bool) (t : Nat) :
    (reservation_call m t).is_emplace_back = false := by
  unfold reservation_call
  split <;> simp

@[simp] theorem refuses_eval (env : Env) :
    (∀ (k : Int), refuses env (Event.fetch_add k) = false) ∧
    (∀ (k : Int), refuses env (Event.fetch_sub k) = false) ∧
    (∀ (x : Nat), refuses env (Event.as_bool x) = false) ∧
    (∀ (x : Nat), refuses env (Event.data_ready x) = false) ∧
    (∀ (x : Nat),
      refuses env (Event.acquire_immutable_depend x) = !env.acquire_immutable_depend x) ∧
    (∀ (x : Nat),
      refuses env (Event.acquire_mutable_depend x) = !env.acquire_mutable_depend x) ∧
    (∀ (x : Nat), refuses env (Event.trigger x) = false) ∧
    (∀ (x : Nat) (v : Nat), refuses env (Event.recursive_activate x v) = false) ∧
    (∀ (v : Nat) (k : Int), refuses env (Event.closure_finish v k) = false) ∧
    (∀ (v : Nat), refuses env (Event.vertex_ready v) = false) ∧
    (∀ (v : Nat), refuses env (Event.emplace_back v) = false) ∧
    (refuses env Event.log_warning = false) := by
  simp [refuses]

@[simp] theorem refuses_reservation_call (env : Env) (m : Bool) (t : Nat) :
    refuses env (reservation_call m t) = !reservation_answer env m t := by
  unfold reservation_call reservation_answer
  split <;> simp

@[simp] theorem refused_nil (env : Env) : refused env [] = false := rfl

@[simp] theorem refused_cons (env : Env) (e : Event) (l : List Event) :
    refused env (e :: l) = (refuses env e || refused env l) := by
  simp [refused]

@[simp] theorem refused_append (env : Env) (a b : List Event) :
    refused env (a ++ b) = (refused env a || refused env b) := by
  simp [refused]

@[simp] theorem refused_log_warning (env env1 : Env) :
    refused env (log_warning env1) = false := by
  unfold log_warning
  split <;> simp

@[simp] theorem refused_condition_read (env : Env) (c : Option Nat) :
    refused env (condition_read c) = false := by
  unfold condition_read
  split <;> simp

/-! ## The pieces of `check_established` and of the reservation expression -/

theorem check_established_flag (env : Env) (d : GraphDependency) :
    (check_established env d).2.1 = (d._established || satisfied env d) := by
  rcases d with ⟨src, t, cond, ev, mu, es, w, est, rdy⟩
  unfold check_established satisfied condition_holds
  cases cond with
  | none => simp
  | some c => by_cases h : env.as_bool c = ev <;> simp [h]

theorem check_established_dep (env : Env) (d : GraphDependency) :
    (check_established env d).1 =
      { d with _established := d._established || satisfied env d } := by
  rcases d with ⟨src, t, cond, ev, mu, es, w, est, rdy⟩
  unfold check_established satisfied condition_holds
  cases cond with
  | none => simp
  | some c => by_cases h : env.as_bool c = ev <;> simp [h]

theorem check_established_events (env : Env) (d : GraphDependency) :
    (check_established env d).2.2 = check_events d := by
  unfold check_established check_events condition_read
  cases d._condition <;> simp

theorem acquire_depend_fst (env : Env) (d : GraphDependency) :
    (acquire_depend env d).1 = granted env d := by
  unfold acquire_depend granted reservation_answer
  cases d._mutable <;> simp

theorem acquire_depend_snd (env : Env) (d : GraphDependency) :
    (acquire_depend env d).2 = [wanted_reservation d] := by
  unfold acquire_depend wanted_reservation reservation_call
  cases d._mutable <;> simp

@[simp] theorem post_sub_mk (s : Option Nat) (t : Nat) (c : Option Nat) (ev m e : Bool) (w : Int)
    (est r : Bool) : post_sub ⟨s, t, c, ev, m, e, w, est, r⟩ = wrap64 (w - 1) := rfl

theorem wrap64_of_range (x : Int) (h1 : -9223372036854775808 ≤ x)
    (h2 : x ≤ 9223372036854775807) : wrap64 x = x := by
  unfold wrap64
  omega

/-! ## `activate`, branch by branch -/

theorem activate_neg_one (env : Env) (d : GraphDependency) (h : post_add d = -1) :
    activate env d =
      some ⟨{ d with _waiting_num := -1 }, 1, [Event.fetch_add (activate_increment d)]⟩ := by
  rcases d with ⟨src, t, cond, ev, mu, es, w, est, rdy⟩
  simp only [satisfied, granted, wanted_reservation, check_events, condition_holds,
    reservation_call, reservation_answer, condition_read, post_add,
    activate_increment, reduceCtorEq, if_true, if_false] at *
  simp [activate, check_established_flag, check_established_dep, check_established_events,
    acquire_depend_fst, acquire_depend_snd, satisfied, granted, wanted_reservation, check_events,
    condition_holds, reservation_call, reservation_answer, condition_read,
    post_add, activate_increment, *]

theorem activate_zero_unestablished (env : Env) (d : GraphDependency) (h : post_add d = 0)
    (he : d._established = false) (hs : satisfied env d = false) :
    activate env d =
      some ⟨{ d with _waiting_num := 0 }, 1,
        Event.fetch_add (activate_increment d) :: check_events d⟩ := by
  rcases d with ⟨src, t, cond, ev, mu, es, w, est, rdy⟩
  simp only [satisfied, granted, wanted_reservation, check_events, condition_holds,
    reservation_call, reservation_answer, condition_read, post_add,
    activate_increment, reduceCtorEq, if_true, if_false] at *
  simp [activate, check_established_flag, check_established_dep, check_established_events,
    acquire_depend_fst, acquire_depend_snd, satisfied, granted, wanted_reservation, check_events,
    condition_holds, reservation_call, reservation_answer, condition_read,
    post_add, activate_increment, *]

theorem activate_zero_refused (env : Env) (d : GraphDependency) (h : post_add d = 0)
    (he : (d._established || satisfied env d) = true) (hg : granted env d = false) :
    activate env d =
      some ⟨{ d with _waiting_num := 0, _established := true }, -1,
        Event.fetch_add (activate_increment d) :: check_events d
          ++ wanted_reservation d :: log_warning env⟩ := by
  rcases d with ⟨src, t, cond, ev, mu, es, w, est, rdy⟩
  simp only [satisfied, granted, wanted_reservation, check_events, condition_holds,
    reservation_call, reservation_answer, condition_read, post_add,
    activate_increment, reduceCtorEq, if_true, if_false] at *
  simp [activate, check_established_flag, check_established_dep, check_established_events,
    acquire_depend_fst, acquire_depend_snd, satisfied, granted, wanted_reservation, check_events,
    condition_holds, reservation_call, reservation_answer, condition_read,
    post_add, activate_increment, *]

theorem activate_zero_granted (env : Env) (d : GraphDependency) (h : post_add d = 0)
    (he : (d._established || satisfied env d) = true) (hg : granted env d = true) :
    activate env d =
      some ⟨{ d with
          _waiting_num := 0, _established := true, _ready := env.data_ready d._target }, 1,
        Event.fetch_add (activate_increment d) :: check_events d
          ++ [wanted_reservation d, Event.data_ready d._target]⟩ := by
  rcases d with ⟨src, t, cond, ev, mu, es, w, est, rdy⟩
  simp only [satisfied, granted, wanted_reservation, check_events, condition_holds,
    reservation_call, reservation_answer, condition_read, post_add,
    activate_increment, reduceCtorEq, if_true, if_false] at *
  simp [activate, check_established_flag, check_established_dep, check_established_events,
    acquire_depend_fst, acquire_depend_snd, satisfied, granted, wanted_reservation, check_events,
    condition_holds, reservation_call, reservation_answer, condition_read,
    post_add, activate_increment, *]

theorem activate_one_none_refused (env : Env) (d : GraphDependency) (h : post_add d = 1)
    (hc : d._condition = none) (hg : granted env d = false) :
    activate env d =
      some ⟨{ d with _waiting_num := 1, _established := true }, -1,
        Event.fetch_add 1 :: wanted_reservation d :: log_warning env⟩ := by
  rcases d with ⟨src, t, cond, ev, mu, es, w, est, rdy⟩
  subst hc
  simp only [satisfied, granted, wanted_reservation, check_events, condition_holds,
    reservation_call, reservation_answer, condition_read, post_add,
    activate_increment, reduceCtorEq, if_true, if_false] at *
  simp [activate, check_established_flag, check_established_dep, check_established_events,
    acquire_depend_fst, acquire_depend_snd, satisfied, granted, wanted_reservation, check_events,
    condition_holds, reservation_call, reservation_answer, condition_read,
    post_add, activate_increment, *]

theorem activate_one_none_granted (env : Env) (d : GraphDependency) (h : post_add d = 1)
    (hc : d._condition = none) (hg : granted env d = true) :
    activate env d =
      some ⟨{ d with _waiting_num := 1, _established := true }, 0,
        [Event.fetch_add 1, wanted_reservation d, Event.trigger d._target]⟩ := by
  rcases d with ⟨src, t, cond, ev, mu, es, w, est, rdy⟩
  subst hc
  simp only [satisfied, granted, wanted_reservation, check_events, condition_holds,
    reservation_call, reservation_answer, condition_read, post_add,
    activate_increment, reduceCtorEq, if_true, if_false] at *
  simp [activate, check_established_flag, check_established_dep, check_established_events,
    acquire_depend_fst, acquire_depend_snd, satisfied, granted, wanted_reservation, check_events,
    condition_holds, reservation_call, reservation_answer, condition_read,
    post_add, activate_increment, *]

theorem activate_one_not_ready (env : Env) (d : GraphDependency) (c : Nat)
    (h : post_add d = 1) (hc : d._condition = some c) (hr : env.data_ready c = false) :
    activate env d =
      some ⟨{ d with _waiting_num := 1 }, 0,
        [Event.fetch_add 2, Event.data_ready c, Event.trigger c]⟩ := by
  rcases d with ⟨src, t, cond, ev, mu, es, w, est, rdy⟩
  subst hc
  simp only [satisfied, granted, wanted_reservation, check_events, condition_holds,
    reservation_call, reservation_answer, condition_read, post_add,
    activate_increment, reduceCtorEq, if_true, if_false] at *
  simp [activate, check_established_flag, check_established_dep, check_established_events,
    acquire_depend_fst, acquire_depend_snd, satisfied, granted, wanted_reservation, check_events,
    condition_holds, reservation_call, reservation_answer, condition_read,
    post_add, activate_increment, *]

theorem activate_one_unestablished (env : Env) (d : GraphDependency) (c : Nat)
    (h : post_add d = 1) (hc : d._condition = some c) (hr : env.data_ready c = true)
    (he : d._established = false) (hs : satisfied env d = false) :
    activate env d =
      some ⟨{ d with _waiting_num := 1 }, 0,
        [Event.fetch_add 2, Event.data_ready c, Event.as_bool c]⟩ := by
  rcases d with ⟨src, t, cond, ev, mu, es, w, est, rdy⟩
  subst hc
  simp only [satisfied, granted, wanted_reservation, check_events, condition_holds,
    reservation_call, reservation_answer, condition_read, post_add,
    activate_increment, reduceCtorEq, if_true, if_false] at *
  simp [activate, check_established_flag, check_established_dep, check_established_events,
    acquire_depend_fst, acquire_depend_snd, satisfied, granted, wanted_reservation, check_events,
    condition_holds, reservation_call, reservation_answer, condition_read,
    post_add, activate_increment, *]

theorem activate_one_refused (env : Env) (d : GraphDependency) (c : Nat)
    (h : post_add d = 1) (hc : d._condition = some c) (hr : env.data_ready c = true)
    (he : (d._established || satisfied env d) = true) (hg : granted env d = false) :
    activate env d =
      if log_enabled env && d._source.isNone then none
      else
        some ⟨{ d with _waiting_num := 1, _established := true }, -1,
          Event.fetch_add 2 :: Event.data_ready c :: Event.as_bool c :: wanted_reservation d
            :: log_warning env⟩ := by
  rcases d with ⟨src, t, cond, ev, mu, es, w, est, rdy⟩
  subst hc
  simp only [satisfied, granted, wanted_reservation, check_events, condition_holds,
    reservation_call, reservation_answer, condition_read, post_add,
    activate_increment, reduceCtorEq, if_true, if_false] at *
  simp [activate, check_established_flag, check_established_dep, check_established_events,
    acquire_depend_fst, acquire_depend_snd, satisfied, granted, wanted_reservation, check_events,
    condition_holds, reservation_call, reservation_answer, condition_read,
    post_add, activate_increment, *]

theorem activate_one_granted (env : Env) (d : GraphDependency) (c : Nat)
    (h : post_add d = 1) (hc : d._condition = some c) (hr : env.data_ready c = true)
    (he : (d._established || satisfied env d) = true) (hg : granted env d = true) :
    activate env d =
      some ⟨{ d with _waiting_num := 1, _established := true }, 0,
        [Event.fetch_add 2, Event.data_ready c, Event.as_bool c, wanted_reservation d,
          Event.trigger d._target]⟩ := by
  rcases d with ⟨src, t, cond, ev, mu, es, w, est, rdy⟩
  subst hc
  simp only [satisfied, granted, wanted_reservation, check_events, condition_holds,
    reservation_call, reservation_answer, condition_read, post_add,
    activate_increment, reduceCtorEq, if_true, if_false] at *
  simp [activate, check_established_flag, check_established_dep, check_established_events,
    acquire_depend_fst, acquire_depend_snd, satisfied, granted, wanted_reservation, check_events,
    condition_holds, reservation_call, reservation_answer, condition_read,
    post_add, activate_increment, *]

theorem activate_two_none (env : Env) (d : GraphDependency) (h : post_add d = 2)
    (hc : d._condition = none) : activate env d = none := by
  rcases d with ⟨src, t, cond, ev, mu, es, w, est, rdy⟩
  subst hc
  simp only [satisfied, granted, wanted_reservation, check_events, condition_holds,
    reservation_call, reservation_answer, condition_read, post_add,
    activate_increment, reduceCtorEq, if_true, if_false] at *
  simp [activate, check_established_flag, check_established_dep, check_established_events,
    acquire_depend_fst, acquire_depend_snd, satisfied, granted, wanted_reservation, check_events,
    condition_holds, reservation_call, reservation_answer, condition_read,
    post_add, activate_increment, *]

theorem activate_two_some (env : Env) (d : GraphDependency) (c : Nat) (h : post_add d = 2)
    (hc : d._condition = some c) :
    activate env d =
      some ⟨{ d with _waiting_num := 2 }, 0, [Event.fetch_add 2, Event.trigger c]⟩ := by
  rcases d with ⟨src, t, cond, ev, mu, es, w, est, rdy⟩
  subst hc
  simp only [satisfied, granted, wanted_reservation, check_events, condition_holds,
    reservation_call, reservation_answer, condition_read, post_add,
    activate_increment, reduceCtorEq, if_true, if_false] at *
  simp [activate, check_established_flag, check_established_dep, check_established_events,
    acquire_depend_fst, acquire_depend_snd, satisfied, granted, wanted_reservation, check_events,
    condition_holds, reservation_call, reservation_answer, condition_read,
    post_add, activate_increment, *]

theorem activate_other (env : Env) (d : GraphDependency) (h1 : post_add d ≠ -1)
    (h2 : post_add d ≠ 0) (h3 : post_add d ≠ 1) (h4 : post_add d ≠ 2) :
    activate env d =
      some ⟨{ d with _waiting_num := post_add d }, 0,
        [Event.fetch_add (activate_increment d)]⟩ := by
  rcases d with ⟨src, t, cond, ev, mu, es, w, est, rdy⟩
  simp only [satisfied, granted, wanted_reservation, check_events, condition_holds,
    reservation_call, reservation_answer, condition_read, post_add,
    activate_increment, reduceCtorEq, if_true, if_false] at *
  simp [activate, check_established_flag, check_established_dep, check_established_events,
    acquire_depend_fst, acquire_depend_snd, satisfied, granted, wanted_reservation, check_events,
    condition_holds, reservation_call, reservation_answer, condition_read,
    post_add, activate_increment, *]

/-- Case analysis on the path `activate` takes: a property that holds of the result on each of
the paths of the `switch` holds of `activate env d`. -/
theorem activate_cases (env : Env) (d : GraphDependency) (P : Option ActivateResult → Prop)
    (neg_one : post_add d = -1 →
      P (some ⟨{ d with _waiting_num := -1 }, 1, [Event.fetch_add (activate_increment d)]⟩))
    (zero_unestablished : post_add d = 0 → d._established = false → satisfied env d = false →
      P (some ⟨{ d with _waiting_num := 0 }, 1,
        Event.fetch_add (activate_increment d) :: check_events d⟩))
    (zero_refused : post_add d = 0 → (d._established || satisfied env d) = true →
      granted env d = false →
      P (some ⟨{ d with _waiting_num := 0, _established := true }, -1,
        Event.fetch_add (activate_increment d) :: check_events d
          ++ wanted_reservation d :: log_warning env⟩))
    (zero_granted : post_add d = 0 → (d._established || satisfied env d) = true →
      granted env d = true →
      P (some ⟨{ d with
          _waiting_num := 0, _established := true, _ready := env.data_ready d._target }, 1,
        Event.fetch_add (activate_increment d) :: check_events d
          ++ [wanted_reservation d, Event.data_ready d._target]⟩))
    (one_none_refused : post_add d = 1 → d._condition = none → granted env d = false →
      P (some ⟨{ d with _waiting_num := 1, _established := true }, -1,
        Event.fetch_add 1 :: wanted_reservation d :: log_warning env⟩))
    (one_none_granted : post_add d = 1 → d._condition = none → granted env d = true →
      P (some ⟨{ d with _waiting_num := 1, _established := true }, 0,
        [Event.fetch_add 1, wanted_reservation d, Event.trigger d._target]⟩))
    (one_not_ready : ∀ c, post_add d = 1 → d._condition = some c →
      env.data_ready c = false →
      P (some ⟨{ d with _waiting_num := 1 }, 0,
        [Event.fetch_add 2, Event.data_ready c, Event.trigger c]⟩))
    (one_unestablished : ∀ c, post_add d = 1 → d._condition = some c →
      env.data_ready c = true → d._established = false → satisfied env d = false →
      P (some ⟨{ d with _waiting_num := 1 }, 0,
        [Event.fetch_add 2, Event.data_ready c, Event.as_bool c]⟩))
    (one_refused_null : ∀ c, post_add d = 1 → d._condition = some c →
      env.data_ready c = true → (d._established || satisfied env d) = true →
      granted env d = false → log_enabled env = true → d._source = none → P none)
    (one_refused : ∀ c, post_add d = 1 → d._condition = some c →
      env.data_ready c = true → (d._established || satisfied env d) = true →
      granted env d = false → (log_enabled env = true → d._source ≠ none) →
      P (some ⟨{ d with _waiting_num := 1, _established := true }, -1,
          Event.fetch_add 2 :: Event.data_ready c :: Event.as_bool c :: wanted_reservation d
            :: log_warning env⟩))
    (one_granted : ∀ c, post_add d = 1 → d._condition = some c →
      env.data_ready c = true → (d._established || satisfied env d) = true →
      granted env d = true →
      P (some ⟨{ d with _waiting_num := 1, _established := true }, 0,
        [Event.fetch_add 2, Event.data_ready c, Event.as_bool c, wanted_reservation d,
          Event.trigger d._target]⟩))
    (two_none : post_add d = 2 → d._condition = none → P none)
    (two_some : ∀ c, post_add d = 2 → d._condition = some c →
      P (some ⟨{ d with _waiting_num := 2 }, 0, [Event.fetch_add 2, Event.trigger c]⟩))
    (other : post_add d ≠ -1 → post_add d ≠ 0 → post_add d ≠ 1 → post_add d ≠ 2 →
      P (some ⟨{ d with _waiting_num := post_add d }, 0,
        [Event.fetch_add (activate_increment d)]⟩)) :
    P (activate env d) := by
  by_cases h1 : post_add d = -1
  · rw [activate_neg_one env d h1]; exact neg_one h1
  by_cases h2 : post_add d = 0
  · cases he : (d._established || satisfied env d)
    · have he2 := he
      simp only [Bool.or_eq_false_iff] at he2
      rw [activate_zero_unestablished env d h2 he2.1 he2.2]
      exact zero_unestablished h2 he2.1 he2.2
    · cases hg : granted env d
      · rw [activate_zero_refused env d h2 he hg]; exact zero_refused h2 he hg
      · rw [activate_zero_granted env d h2 he hg]; exact zero_granted h2 he hg
  by_cases h3 : post_add d = 1
  · cases hc : d._condition with
    | none =>
      cases hg : granted env d
      · rw [activate_one_none_refused env d h3 hc hg]; exact one_none_refused h3 hc hg
      · rw [activate_one_none_granted env d h3 hc hg]; exact one_none_granted h3 hc hg
    | some c =>
      cases hr : env.data_ready c
      · rw [activate_one_not_ready env d c h3 hc hr]; exact one_not_ready c h3 hc hr
      · cases he : (d._established || satisfied env d)
        · have he2 := he
          simp only [Bool.or_eq_false_iff] at he2
          rw [activate_one_unestablished env d c h3 hc hr he2.1 he2.2]
          exact one_unestablished c h3 hc hr he2.1 he2.2
        · cases hg : granted env d
          · rw [activate_one_refused env d c h3 hc hr he hg]
            by_cases hl : log_enabled env = true ∧ d._source = none
            · simp only [hl.1, hl.2, Option.isNone_none, Bool.and_self, if_true]
              exact one_refused_null c h3 hc hr he hg hl.1 hl.2
            · have hl2 : (log_enabled env && d._source.isNone) = false := by
                cases hle : log_enabled env <;> cases hs : d._source <;> simp_all
              simp only [hl2, Bool.false_eq_true, if_false]
              exact one_refused c h3 hc hr he hg (fun a b => hl ⟨a, b⟩)
          · rw [activate_one_granted env d c h3 hc hr he hg]
            exact one_granted c h3 hc hr he hg
  by_cases h4 : post_add d = 2
  · cases hc : d._condition with
    | none => rw [activate_two_none env d h4 hc]; exact two_none h4 hc
    | some c => rw [activate_two_some env d c h4 hc]; exact two_some c h4 hc
  rw [activate_other env d h1 h2 h3 h4]
  exact other h1 h2 h3 h4

/-! ## `ready`, branch by branch -/

theorem ready_enter_other (env : Env) (d : GraphDependency) (data : Option Nat)
    (rs : List Nat) (hd : data ≠ d._condition) :
    ready_enter env d data rs =
      some ⟨{ d with _waiting_num := post_sub d }, rs, [Event.fetch_sub 1], post_sub d,
        false, false⟩ := by
  rcases d with ⟨src, t, cond, ev, mu, es, w, est, rdy⟩
  simp only [satisfied, granted, wanted_reservation, check_events, condition_holds,
    reservation_call, reservation_answer, condition_read, post_sub,
    reduceCtorEq, if_true, if_false] at *
  simp [ready_enter, check_established_flag, check_established_dep, check_established_events,
    acquire_depend_fst, acquire_depend_snd, satisfied, granted, wanted_reservation, check_events,
    condition_holds, reservation_call, reservation_answer, condition_read,
    post_sub, *]

theorem ready_enter_unestablished (env : Env) (d : GraphDependency) (data : Option Nat)
    (rs : List Nat) (hd : data = d._condition) (he : d._established = false)
    (hs : satisfied env d = false) :
    ready_enter env d data rs =
      some ⟨{ d with _waiting_num := post_sub d }, rs, Event.fetch_sub 1 :: check_events d,
        post_sub d, decide (post_sub d ≠ 0), false⟩ := by
  rcases d with ⟨src, t, cond, ev, mu, es, w, est, rdy⟩
  subst hd
  simp only [satisfied, granted, wanted_reservation, check_events, condition_holds,
    reservation_call, reservation_answer, condition_read, post_sub,
    reduceCtorEq, if_true, if_false] at *
  simp [ready_enter, check_established_flag, check_established_dep, check_established_events,
    acquire_depend_fst, acquire_depend_snd, satisfied, granted, wanted_reservation, check_events,
    condition_holds, reservation_call, reservation_answer, condition_read,
    post_sub, *]

theorem ready_enter_established (env : Env) (d : GraphDependency) (data : Option Nat)
    (rs : List Nat) (hd : data = d._condition)
    (he : (d._established || satisfied env d) = true) (h1 : post_sub d ≠ 1) :
    ready_enter env d data rs =
      some ⟨{ d with _waiting_num := post_sub d, _established := true }, rs,
        Event.fetch_sub 1 :: check_events d, post_sub d, false, false⟩ := by
  rcases d with ⟨src, t, cond, ev, mu, es, w, est, rdy⟩
  subst hd
  simp only [satisfied, granted, wanted_reservation, check_events, condition_holds,
    reservation_call, reservation_answer, condition_read, post_sub,
    reduceCtorEq, if_true, if_false] at *
  simp [ready_enter, check_established_flag, check_established_dep, check_established_events,
    acquire_depend_fst, acquire_depend_snd, satisfied, granted, wanted_reservation, check_events,
    condition_holds, reservation_call, reservation_answer, condition_read,
    post_sub, *]

theorem ready_enter_null_source (env : Env) (d : GraphDependency) (data : Option Nat)
    (rs : List Nat) (hd : data = d._condition)
    (he : (d._established || satisfied env d) = true) (h1 : post_sub d = 1)
    (hv : d._source = none) :
    ready_enter env d data rs = none := by
  rcases d with ⟨src, t, cond, ev, mu, es, w, est, rdy⟩
  subst hd
  subst hv
  simp only [satisfied, granted, wanted_reservation, check_events, condition_holds,
    reservation_call, reservation_answer, condition_read, post_sub,
    reduceCtorEq, if_true, if_false] at *
  simp [ready_enter, check_established_flag, check_established_dep, check_established_events,
    acquire_depend_fst, acquire_depend_snd, satisfied, granted, wanted_reservation, check_events,
    condition_holds, reservation_call, reservation_answer, condition_read,
    post_sub, *]

theorem ready_enter_refused (env : Env) (d : GraphDependency) (data : Option Nat)
    (rs : List Nat) (v : Nat) (hd : data = d._condition)
    (he : (d._established || satisfied env d) = true) (h1 : post_sub d = 1)
    (hg : granted env d = false) (hv : d._source = some v) :
    ready_enter env d data rs =
      some ⟨{ d with _waiting_num := 1, _established := true }, rs,
        Event.fetch_sub 1 :: check_events d ++ wanted_reservation d :: log_warning env
          ++ [Event.closure_finish v (-1)], 1, false, true⟩ := by
  rcases d with ⟨src, t, cond, ev, mu, es, w, est, rdy⟩
  subst hd
  subst hv
  simp only [satisfied, granted, wanted_reservation, check_events, condition_holds,
    reservation_call, reservation_answer, condition_read, post_sub,
    reduceCtorEq, if_true, if_false] at *
  simp [ready_enter, check_established_flag, check_established_dep, check_established_events,
    acquire_depend_fst, acquire_depend_snd, satisfied, granted, wanted_reservation, check_events,
    condition_holds, reservation_call, reservation_answer, condition_read,
    post_sub, *]

theorem ready_enter_failed (env : Env) (d : GraphDependency) (data : Option Nat)
    (rs : List Nat) (v : Nat) (hd : data = d._condition)
    (he : (d._established || satisfied env d) = true) (h1 : post_sub d = 1)
    (hg : granted env d = true) (hv : d._source = some v)
    (hrec : (env.recursive_activate d._target v rs).1 ≠ 0) :
    ready_enter env d data rs =
      some ⟨{ d with _waiting_num := 1, _established := true },
        (env.recursive_activate d._target v rs).2,
        Event.fetch_sub 1 :: check_events d ++ wanted_reservation d
          :: Event.recursive_activate d._target v :: log_warning env
          ++ [Event.closure_finish v (env.recursive_activate d._target v rs).1],
        1, false, true⟩ := by
  rcases d with ⟨src, t, cond, ev, mu, es, w, est, rdy⟩
  subst hd
  subst hv
  simp only [satisfied, granted, wanted_reservation, check_events, condition_holds,
    reservation_call, reservation_answer, condition_read, post_sub,
    reduceCtorEq, if_true, if_false] at *
  simp [ready_enter, check_established_flag, check_established_dep, check_established_events,
    acquire_depend_fst, acquire_depend_snd, satisfied, granted, wanted_reservation, check_events,
    condition_holds, reservation_call, reservation_answer, condition_read,
    post_sub, *]

theorem ready_enter_activated (env : Env) (d : GraphDependency) (data : Option Nat)
    (rs : List Nat) (v : Nat) (hd : data = d._condition)
    (he : (d._established || satisfied env d) = true) (h1 : post_sub d = 1)
    (hg : granted env d = true) (hv : d._source = some v)
    (hrec : (env.recursive_activate d._target v rs).1 = 0) :
    ready_enter env d data rs =
      some ⟨{ d with _waiting_num := 1, _established := true },
        (env.recursive_activate d._target v rs).2,
        Event.fetch_sub 1 :: check_events d
          ++ [wanted_reservation d, Event.recursive_activate d._target v],
        1, false, false⟩ := by
  rcases d with ⟨src, t, cond, ev, mu, es, w, est, rdy⟩
  subst hd
  subst hv
  simp only [satisfied, granted, wanted_reservation, check_events, condition_holds,
    reservation_call, reservation_answer, condition_read, post_sub,
    reduceCtorEq, if_true, if_false] at *
  simp [ready_enter, check_established_flag, check_established_dep, check_established_events,
    acquire_depend_fst, acquire_depend_snd, satisfied, granted, wanted_reservation, check_events,
    condition_holds, reservation_call, reservation_answer, condition_read,
    post_sub, *]

/-- Case analysis on the path the first part of `ready` takes. -/
theorem ready_enter_cases (env : Env) (d : GraphDependency) (data : Option Nat) (rs : List Nat)
    (P : Option ReadyMid → Prop)
    (other : data ≠ d._condition →
      P (some ⟨{ d with _waiting_num := post_sub d }, rs, [Event.fetch_sub 1], post_sub d,
        false, false⟩))
    (unestablished : data = d._condition → d._established = false → satisfied env d = false →
      P (some ⟨{ d with _waiting_num := post_sub d }, rs, Event.fetch_sub 1 :: check_events d,
        post_sub d, decide (post_sub d ≠ 0), false⟩))
    (established : data = d._condition → (d._established || satisfied env d) = true →
      post_sub d ≠ 1 →
      P (some ⟨{ d with _waiting_num := post_sub d, _established := true }, rs,
        Event.fetch_sub 1 :: check_events d, post_sub d, false, false⟩))
    (null_source : data = d._condition → (d._established || satisfied env d) = true →
      post_sub d = 1 → d._source = none → P none)
    (refused : ∀ v, data = d._condition → (d._established || satisfied env d) = true →
      post_sub d = 1 → granted env d = false → d._source = some v →
      P (some ⟨{ d with _waiting_num := 1, _established := true }, rs,
        Event.fetch_sub 1 :: check_events d ++ wanted_reservation d :: log_warning env
          ++ [Event.closure_finish v (-1)], 1, false, true⟩))
    (failed : ∀ v, data = d._condition → (d._established || satisfied env d) = true →
      post_sub d = 1 → granted env d = true → d._source = some v →
      (env.recursive_activate d._target v rs).1 ≠ 0 →
      P (some ⟨{ d with _waiting_num := 1, _established := true },
        (env.recursive_activate d._target v rs).2,
        Event.fetch_sub 1 :: check_events d ++ wanted_reservation d
          :: Event.recursive_activate d._target v :: log_warning env
          ++ [Event.closure_finish v (env.recursive_activate d._target v rs).1],
        1, false, true⟩))
    (activated : ∀ v, data = d._condition → (d._established || satisfied env d) = true →
      post_sub d = 1 → granted env d = true → d._source = some v →
      (env.recursive_activate d._target v rs).1 = 0 →
      P (some ⟨{ d with _waiting_num := 1, _established := true },
        (env.recursive_activate d._target v rs).2,
        Event.fetch_sub 1 :: check_events d
          ++ [wanted_reservation d, Event.recursive_activate d._target v],
        1, false, false⟩)) :
    P (ready_enter env d data rs) := by
  by_cases hd : data = d._condition
  · cases he : (d._established || satisfied env d)
    · have he2 := he
      simp only [Bool.or_eq_false_iff] at he2
      rw [ready_enter_unestablished env d data rs hd he2.1 he2.2]
      exact unestablished hd he2.1 he2.2
    · by_cases h1 : post_sub d = 1
      · cases hv : d._source with
        | none =>
          rw [ready_enter_null_source env d data rs hd he h1 hv]
          exact null_source hd he h1 hv
        | some v =>
          cases hg : granted env d
          · rw [ready_enter_refused env d data rs v hd he h1 hg hv]
            exact refused v hd he h1 hg hv
          · by_cases hrec : (env.recursive_activate d._target v rs).1 = 0
            · rw [ready_enter_activated env d data rs v hd he h1 hg hv hrec]
              exact activated v hd he h1 hg hv hrec
            · rw [ready_enter_failed env d data rs v hd he h1 hg hv hrec]
              exact failed v hd he h1 hg hv hrec
      · rw [ready_enter_established env d data rs hd he h1]
        exact established hd he h1
  · rw [ready_enter_other env d data rs hd]
    exact other hd

/-! ## The final block of `ready` -/

theorem ready_final_nonzero (env : Env) (d : GraphDependency) (data : Option Nat) (w : Int)
    (rs : List Nat) (es : List Event) (h : w ≠ 0) :
    ready_final env d data w rs es = ⟨d, rs, es⟩ := by
  simp [ready_final, h]

theorem ready_final_null (env : Env) (d : GraphDependency) (data : Option Nat) (w : Int)
    (rs : List Nat) (es : List Event) (h : d._source = none) :
    ready_final env d data w rs es = ⟨d, rs, es⟩ := by
  simp [ready_final, h]

theorem ready_final_target (env : Env) (d : GraphDependency) (data : Option Nat)
    (rs : List Nat) (es : List Event) (v : Nat) (hv : d._source = some v)
    (hd : data = some d._target) :
    ready_final env d data 0 rs es =
      ⟨{ d with
          _established := d._established || satisfied env d,
          _ready := d._established || satisfied env d },
        if env.vertex_ready v then rs ++ [v] else rs,
        es ++ check_events d ++ Event.vertex_ready v ::
          (if env.vertex_ready v then [Event.emplace_back v] else [])⟩ := by
  unfold ready_final
  simp only [check_established_flag, check_established_dep, check_established_events, hv, hd]
  cases env.vertex_ready v <;> simp

theorem ready_final_other (env : Env) (d : GraphDependency) (data : Option Nat)
    (rs : List Nat) (es : List Event) (v : Nat) (hv : d._source = some v)
    (hd : data ≠ some d._target) :
    ready_final env d data 0 rs es =
      ⟨{ d with _ready := d._established && env.data_ready d._target },
        if env.vertex_ready v then rs ++ [v] else rs,
        es ++ (if d._established then [Event.data_ready d._target] else [])
          ++ Event.vertex_ready v ::
          (if env.vertex_ready v then [Event.emplace_back v] else [])⟩ := by
  unfold ready_final
  simp only [hv, hd, established]
  cases env.vertex_ready v <;> cases d._established <;> simp
/-! ## What each atomic step does to the shared edge -/

theorem same_edge_refl (d : GraphDependency) : same_edge d d :=
  ⟨rfl, rfl, rfl, rfl, rfl, rfl⟩

theorem same_edge_trans {d e f : GraphDependency} (h1 : same_edge d e) (h2 : same_edge e f) :
    same_edge d f := by
  unfold same_edge at *
  obtain ⟨a1, a2, a3, a4, a5, a6⟩ := h1
  obtain ⟨b1, b2, b3, b4, b5, b6⟩ := h2
  exact ⟨b1.trans a1, b2.trans a2, b3.trans a3, b4.trans a4, b5.trans a5, b6.trans a6⟩

theorem activate_effect (env : Env) (d : GraphDependency) (r : ActivateResult)
    (h : activate env d = some r) :
    same_edge d r.dep ∧ r.dep._waiting_num = post_add d ∧
    (r.dep._established = true → d._established = true ∨ satisfied env d = true) ∧
    (r.ret = -1 ∨ r.ret = if post_add d = -1 ∨ post_add d = 0 then 1 else 0) := by
  revert r
  apply activate_cases env d
    (fun o => ∀ r, o = some r →
      same_edge d r.dep ∧ r.dep._waiting_num = post_add d ∧
      (r.dep._established = true → d._established = true ∨ satisfied env d = true) ∧
      (r.ret = -1 ∨ r.ret = if post_add d = -1 ∨ post_add d = 0 then 1 else 0))
  all_goals intros
  all_goals rename_i r hr
  all_goals simp only [Option.some.injEq, reduceCtorEq] at hr
  all_goals (try subst hr)
  all_goals simp_all [same_edge, condition_holds]

theorem ready_final_effect (env : Env) (d : GraphDependency) (data : Option Nat) (w : Int)
    (rs : List Nat) (es : List Event) :
    same_edge d (ready_final env d data w rs es).dep ∧
    (ready_final env d data w rs es).dep._waiting_num = d._waiting_num ∧
    ((ready_final env d data w rs es).dep._established = true →
      d._established = true ∨ satisfied env d = true) ∧
    counter_ops (ready_final env d data w rs es).events = counter_ops es ∧
    (∀ v, d._source = some v →
      notifications (ready_final env d data w rs es).events =
        notifications es ++ if w = 0 then [Event.vertex_ready v] else []) := by
  by_cases hw : w = 0
  · subst hw
    cases hsrc : d._source with
    | none =>
      simp only [ready_final_null, hsrc, same_edge]
      simp
      tauto
    | some v =>
      by_cases hdt : data = some d._target
      · rw [ready_final_target env d data rs es v hsrc hdt]
        cases hvr : env.vertex_ready v <;> cases hE : d._established <;>
          simp [same_edge, hsrc]
      · rw [ready_final_other env d data rs es v hsrc hdt]
        cases hvr : env.vertex_ready v <;> cases hE : d._established <;>
          simp [same_edge, hsrc]
  · rw [ready_final_nonzero env d data w rs es hw]
    simp only [same_edge]
    simp [hw]
    tauto

theorem ready_leave_effect (env : Env) (d : GraphDependency) (data : Option Nat) (m : ReadyMid) :
    same_edge d (ready_leave env d data m).dep ∧
    ((ready_leave env d data m).dep._waiting_num =
      if m.returned = false ∧ m.second_sub = true then post_sub d else d._waiting_num) ∧
    ((ready_leave env d data m).dep._established = true →
      d._established = true ∨ satisfied env d = true) ∧
    (counter_ops (ready_leave env d data m).events =
      counter_ops m.events ++
        if m.returned = false ∧ m.second_sub = true then [Event.fetch_sub 1] else []) ∧
    (∀ v, d._source = some v →
      notifications (ready_leave env d data m).events =
        notifications m.events ++
          if m.returned = false ∧ (if m.second_sub = true then post_sub d else m.waiting_num) = 0
          then [Event.vertex_ready v] else []) := by
  unfold ready_leave
  cases hret : m.returned
  · cases hsec : m.second_sub
    · have h := ready_final_effect env d data m.waiting_num m.runnable_vertexes m.events
      simpa using h
    · have h := ready_final_effect env { d with _waiting_num := post_sub d } data (post_sub d)
        m.runnable_vertexes (m.events ++ [Event.fetch_sub 1])
      simp only [same_edge, satisfied] at h ⊢
      simpa using h
  · simp only [same_edge]
    simp
    tauto

theorem ready_enter_target_effect (env : Env) (d : GraphDependency) (data : Option Nat)
    (rs : List Nat) (hd : data ≠ d._condition) :
    ∃ m, ready_enter env d data rs = some m ∧
      same_edge d m.dep ∧ m.dep._waiting_num = post_sub d ∧
      m.dep._established = d._established ∧ m.waiting_num = post_sub d ∧
      counter_ops m.events = [Event.fetch_sub 1] ∧ notifications m.events = [] ∧
      m.second_sub = false ∧ m.returned = false := by
  rw [ready_enter_other env d data rs hd]
  simp [same_edge]

theorem ready_enter_condition_effect (env : Env) (d : GraphDependency) (data : Option Nat)
    (rs : List Nat) (m : ReadyMid) (hd : data = d._condition)
    (h : ready_enter env d data rs = some m) :
    same_edge d m.dep ∧ m.dep._waiting_num = post_sub d ∧
    (m.dep._established = true → d._established = true ∨ satisfied env d = true) ∧
    m.waiting_num = post_sub d ∧
    counter_ops m.events = [Event.fetch_sub 1] ∧ notifications m.events = [] ∧
    m.second_sub = (!(d._established || satisfied env d) && decide (post_sub d ≠ 0)) ∧
    (m.returned = true → post_sub d = 1 ∧ m.second_sub = false) := by
  revert m
  apply ready_enter_cases env d data rs
    (fun o => ∀ m, o = some m →
      same_edge d m.dep ∧ m.dep._waiting_num = post_sub d ∧
      (m.dep._established = true → d._established = true ∨ satisfied env d = true) ∧
      m.waiting_num = post_sub d ∧
      counter_ops m.events = [Event.fetch_sub 1] ∧ notifications m.events = [] ∧
      m.second_sub = (!(d._established || satisfied env d) && decide (post_sub d ≠ 0)) ∧
      (m.returned = true → post_sub d = 1 ∧ m.second_sub = false))
  all_goals intros
  all_goals rename_i m hm
  all_goals simp only [Option.some.injEq, reduceCtorEq] at hm
  all_goals (try subst hm)
  all_goals simp_all [same_edge]
  all_goals
    cases hE : d._established <;>
    cases hS : condition_holds env d._condition d._establish_value <;>
    simp_all

/-! ## The invariant is kept by every atomic step -/

theorem activate_increment_range (d : GraphDependency) :
    (d._condition = none ∧ activate_increment d = 1) ∨
    (d._condition ≠ none ∧ activate_increment d = 2) := by
  unfold activate_increment
  cases d._condition <;> simp

theorem activate_increment_same {d e : GraphDependency} (h : same_edge d e) :
    activate_increment e = activate_increment d := by
  unfold activate_increment
  rw [h.2.2.1]

theorem satisfied_same {d e : GraphDependency} (env : Env) (h : same_edge d e) :
    satisfied env e = satisfied env d := by
  unfold satisfied
  rw [h.2.2.1, h.2.2.2.1]

theorem inv_start (d : GraphDependency) (sat : Bool) : Inv d sat (start d) := by
  constructor <;>
    simp [start, reset, same_edge, Execution.added, Execution.acts, CallState.subs,
      CallState.events, CallState.is_idle, CallState.seen, Execution.observed]

theorem inv_bounds {d : GraphDependency} {sat : Bool} {x : Execution} (h : Inv d sat x) :
    0 ≤ x.target_call.subs ∧ x.target_call.subs ≤ 1 ∧
    0 ≤ x.condition_call.subs ∧ x.condition_call.subs ≤ 2 ∧
    (d._condition = none → x.condition_call.subs = 0) := by
  have t1 := h.target_idle
  have t2 := h.target_busy
  have c0 := h.condition_none
  have c1 := h.condition_idle
  have c2 := h.condition_mid
  have c3 := h.condition_done
  refine ⟨?_, ?_, ?_, ?_, ?_⟩
  · cases hi : x.target_call.is_idle <;> simp_all
  · cases hi : x.target_call.is_idle <;> simp_all
  · cases hc : x.condition_call with
    | idle => simp [CallState.subs, CallState.events]
    | entered m => have := (c2 m hc).1; rw [hc] at this; omega
    | finished r => have := (c3 r hc).1; rw [hc] at this; omega
  · cases hc : x.condition_call with
    | idle => simp [CallState.subs, CallState.events]
    | entered m => have := (c2 m hc).1; rw [hc] at this; omega
    | finished r => have := (c3 r hc).1; rw [hc] at this; omega
  · intro hn
    rw [c0 hn]
    simp [CallState.subs, CallState.events]

theorem inv_activate (d : GraphDependency) (sat : Bool) (env : Env) (x : Execution)
    (r : ActivateResult) (hs : satisfied env d = sat) (hinv : Inv d sat x)
    (hx : x.activated = none) (h : activate env x.dep = some r) :
    Inv d sat { x with dep := r.dep, activated := some r } := by
  obtain ⟨he, hw, hest, hret⟩ := activate_effect env x.dep r h
  have hKx := activate_increment_same hinv.edge
  have hb := inv_bounds hinv
  have hK : (activate_increment d = 1 ∧ x.condition_call.subs = 0) ∨
      activate_increment d = 2 := by
    rcases activate_increment_range d with ⟨hn, hK⟩ | ⟨_, hK⟩
    · exact Or.inl ⟨hK, hb.2.2.2.2 hn⟩
    · exact Or.inr hK
  have hadd : x.added d = 0 := by simp [Execution.added, hx]
  have hacts : x.acts = 0 := by simp [Execution.acts, hx]
  have hcnt := hinv.counter
  have hp : post_add x.dep = x.dep._waiting_num + activate_increment d := by
    unfold post_add
    rw [hKx]
    exact wrap64_of_range _ (by omega) (by omega)
  rw [hp] at hw hret
  constructor
  · exact same_edge_trans hinv.edge he
  · intro h1
    rcases hest h1 with h2 | h2
    · exact hinv.flag h2
    · rw [satisfied_same env hinv.edge] at h2
      rw [← hs]; exact h2
  · simp only [Execution.added, Option.isSome_some, if_true]
    omega
  · exact hinv.target_idle
  · exact hinv.target_busy
  · exact hinv.target_mid
  · exact hinv.condition_none
  · exact hinv.condition_idle
  · intro m hm
    have := hinv.condition_mid m hm
    simp only [Execution.acts, Option.isSome_some, if_true]
    simp only [Execution.acts, hx] at this
    simp_all
  · intro r' hr'
    have := hinv.condition_done r' hr'
    simp only [Execution.acts, Option.isSome_some, if_true]
    simp only [Execution.acts, hx] at this
    simp_all
  · intro _
    simp only [Execution.observed]
    omega
  · intro r' hr'
    simp only [Option.some.injEq] at hr'
    subst hr'
    rw [hw]
    exact hret
  · intro _ _ h1 h2
    simp only [Execution.observed] at h1
    dsimp only at h1 h2
    omega
  · intro hsrc _
    exact hinv.seen_none hsrc (by omega)

theorem acts_added (d : GraphDependency) (x : Execution) :
    (x.acts = 0 ∧ x.added d = 0) ∨ (x.acts = 1 ∧ x.added d = activate_increment d) := by
  unfold Execution.acts Execution.added
  cases x.activated <;> simp

theorem inv_target_enter (d : GraphDependency) (sat : Bool) (env : Env) (x : Execution)
    (rs : List Nat) (m : ReadyMid) (hd : d._condition ≠ some d._target) (hinv : Inv d sat x)
    (hT : x.target_call = CallState.idle)
    (h : ready_enter env x.dep (some x.dep._target) rs = some m) :
    Inv d sat { x with dep := m.dep, target_call := CallState.entered m } := by
  have hd' : some x.dep._target ≠ x.dep._condition := by
    rw [hinv.edge.2.1, hinv.edge.2.2.1]
    exact fun e => hd e.symm
  obtain ⟨m', hm', he, hw, hest, hl, hc, hn, hsec, hret⟩ :=
    ready_enter_target_effect env x.dep (some x.dep._target) rs hd'
  rw [h] at hm'
  simp only [Option.some.injEq] at hm'
  subst hm'
  have hb := inv_bounds hinv
  have hK : (activate_increment d = 1 ∧ x.condition_call.subs = 0) ∨
      activate_increment d = 2 := by
    rcases activate_increment_range d with ⟨hn, hK⟩ | ⟨_, hK⟩
    · exact Or.inl ⟨hK, hb.2.2.2.2 hn⟩
    · exact Or.inr hK
  have ha := acts_added d x
  have hcnt := hinv.counter
  have hT0 : x.target_call.subs = 0 := by rw [hT]; rfl
  have hS0 : x.target_call.seen = 0 := by rw [hT]; rfl
  have hp : post_sub x.dep = x.dep._waiting_num - 1 := by
    unfold post_sub
    exact wrap64_of_range _ (by omega) (by omega)
  rw [hp] at hw hl
  have hT1 : (CallState.entered m).subs = 1 := by
    simp [CallState.subs, CallState.events, hc]
  have hS1 : ((CallState.entered m).seen = 1 ∧ x.dep._waiting_num - 1 = 0) ∨
      ((CallState.entered m).seen = 0 ∧ x.dep._waiting_num - 1 ≠ 0) := by
    simp only [CallState.seen, hsec, hret, hl, true_and]
    by_cases h0 : x.dep._waiting_num - 1 = 0
    · simp [h0]
    · simp [h0]
  have hor := hinv.observed_range
  have hs1 := hinv.seen_one
  have hs0 := hinv.seen_none
  constructor
  · exact same_edge_trans hinv.edge he
  · intro h1
    rw [hest] at h1
    exact hinv.flag h1
  · show m.dep._waiting_num = Execution.added d x - (CallState.entered m).subs
      - x.condition_call.subs
    omega
  · intro hi
    simp [CallState.is_idle] at hi
  · intro _
    exact hT1
  · intro m' hm'
    simp only [CallState.entered.injEq] at hm'
    subst hm'
    exact ⟨hsec, hret, hn⟩
  · exact hinv.condition_none
  · exact hinv.condition_idle
  · intro m' hm'
    have := hinv.condition_mid m' hm'
    refine ⟨this.1, this.2.1, this.2.2.1, ?_⟩
    intro a b
    have := this.2.2.2 a b
    exact ⟨this.1, hT1⟩
  · intro r' hr'
    have := hinv.condition_done r' hr'
    refine ⟨this.1, this.2.1, ?_⟩
    intro a b
    have := this.2.2 a b
    exact ⟨this.1, hT1⟩
  · intro h1
    have := hor h1
    show -1 ≤ x.observed ∧ x.observed ≤ 2 ∧
      activate_increment d - (CallState.entered m).subs - x.condition_call.subs ≤ x.observed
    omega
  · exact hinv.returned
  · intro hsrc h1 h2 h3
    have h1' : x.acts = 1 := h1
    have h2' : 1 ≤ x.observed := h2
    have h3' : activate_increment d ≤ (CallState.entered m).subs + x.condition_call.subs := h3
    show (CallState.entered m).seen + x.condition_call.seen = 1
    have := hor h1
    by_cases hold : activate_increment d ≤ x.target_call.subs + x.condition_call.subs
    · have := hs1 hsrc h1 h2 hold
      omega
    · have := hs0 hsrc (fun hh => hold hh.2.2)
      omega
  · intro hsrc hnot
    show (CallState.entered m).seen + x.condition_call.seen = 0
    have hnot' : ¬ (x.acts = 1 ∧ 1 ≤ x.observed ∧
        activate_increment d ≤ (CallState.entered m).subs + x.condition_call.subs) := hnot
    have := hs0 hsrc (by
      intro hh
      apply hnot'
      refine ⟨hh.1, hh.2.1, ?_⟩
      have := hh.2.2
      omega)
    rcases ha with ⟨a0, a1⟩ | ⟨a0, a1⟩
    · omega
    · have := hor a0
      have hx : ¬ (1 ≤ x.observed ∧
          activate_increment d ≤ (CallState.entered m).subs + x.condition_call.subs) :=
        fun hh => hnot' ⟨a0, hh.1, hh.2⟩
      omega

theorem inv_target_leave (d : GraphDependency) (sat : Bool) (env : Env) (x : Execution)
    (m : ReadyMid) (data : Option Nat) (hs : satisfied env d = sat) (hinv : Inv d sat x)
    (hT : x.target_call = CallState.entered m) :
    Inv d sat { x with
      dep := (ready_leave env x.dep data m).dep
      target_call := CallState.finished (ready_leave env x.dep data m) } := by
  obtain ⟨he, hw, hest, hc, hn⟩ := ready_leave_effect env x.dep data m
  obtain ⟨hsec, hret, hnm⟩ := hinv.target_mid m hT
  simp only [hsec, hret, Bool.false_eq_true, and_false, if_false, List.append_nil] at hw hc
  have hT1 : (CallState.finished (ready_leave env x.dep data m)).subs = x.target_call.subs := by
    rw [hT]
    simp [CallState.subs, CallState.events, hc]
  have hS1 : d._source ≠ none →
      (CallState.finished (ready_leave env x.dep data m)).seen = x.target_call.seen := by
    intro hsrc
    rw [← hinv.edge.1] at hsrc
    obtain ⟨v, hv⟩ := Option.ne_none_iff_exists'.mp hsrc
    have := hn v hv
    rw [hT]
    simp only [CallState.seen, this, hnm, hsec, hret, List.nil_append, Bool.false_eq_true,
      if_false, true_and]
    by_cases h0 : m.waiting_num = 0 <;> simp [h0]
  have hbusy : x.target_call.subs = 1 := hinv.target_busy (by rw [hT]; rfl)
  constructor
  · exact same_edge_trans hinv.edge he
  · intro h1
    rcases hest h1 with h2 | h2
    · exact hinv.flag h2
    · rw [satisfied_same env hinv.edge] at h2
      rw [← hs]; exact h2
  · show (ready_leave env x.dep data m).dep._waiting_num = Execution.added d x
      - (CallState.finished (ready_leave env x.dep data m)).subs - x.condition_call.subs
    rw [hT1, hw]
    exact hinv.counter
  · intro hi
    simp [CallState.is_idle] at hi
  · intro _
    show (CallState.finished (ready_leave env x.dep data m)).subs = 1
    rw [hT1]; exact hbusy
  · intro m' hm'
    simp at hm'
  · exact hinv.condition_none
  · exact hinv.condition_idle
  · intro m' hm'
    have := hinv.condition_mid m' hm'
    refine ⟨this.1, this.2.1, this.2.2.1, ?_⟩
    intro a b
    have := this.2.2.2 a b
    exact ⟨this.1, by
      show (CallState.finished (ready_leave env x.dep data m)).subs = 1
      rw [hT1]; exact hbusy⟩
  · intro r' hr'
    have := hinv.condition_done r' hr'
    refine ⟨this.1, this.2.1, ?_⟩
    intro a b
    have := this.2.2 a b
    exact ⟨this.1, by
      show (CallState.finished (ready_leave env x.dep data m)).subs = 1
      rw [hT1]; exact hbusy⟩
  · intro h1
    show -1 ≤ x.observed ∧ x.observed ≤ 2 ∧
      activate_increment d - (CallState.finished (ready_leave env x.dep data m)).subs
        - x.condition_call.subs ≤ x.observed
    rw [hT1]
    exact hinv.observed_range h1
  · exact hinv.returned
  · intro hsrc h1 h2 h3
    show (CallState.finished (ready_leave env x.dep data m)).seen + x.condition_call.seen = 1
    rw [hS1 hsrc]
    have h3' : activate_increment d ≤
        (CallState.finished (ready_leave env x.dep data m)).subs + x.condition_call.subs := h3
    rw [hT1] at h3'
    exact hinv.seen_one hsrc h1 h2 h3'
  · intro hsrc hnot
    show (CallState.finished (ready_leave env x.dep data m)).seen + x.condition_call.seen = 0
    rw [hS1 hsrc]
    apply hinv.seen_none hsrc
    intro hh
    apply hnot
    refine ⟨hh.1, hh.2.1, ?_⟩
    show activate_increment d ≤
        (CallState.finished (ready_leave env x.dep data m)).subs + x.condition_call.subs
    rw [hT1]
    exact hh.2.2

theorem inv_condition_enter (d : GraphDependency) (sat : Bool) (env : Env) (x : Execution)
    (rs : List Nat) (m : ReadyMid) (c : Nat) (hs : satisfied env d = sat) (hinv : Inv d sat x)
    (hcond : x.dep._condition = some c) (hC : x.condition_call = CallState.idle)
    (h : ready_enter env x.dep (some c) rs = some m) :
    Inv d sat { x with dep := m.dep, condition_call := CallState.entered m } := by
  obtain ⟨he, hw, hest, hl, hc, hn, hsec, hret⟩ :=
    ready_enter_condition_effect env x.dep (some c) rs m hcond.symm h
  have hsat : satisfied env x.dep = sat := by rw [satisfied_same env hinv.edge]; exact hs
  rw [hsat] at hest hsec
  have hb := inv_bounds hinv
  have hK : activate_increment d = 2 := by
    rcases activate_increment_range d with ⟨hn, _⟩ | ⟨_, hK⟩
    · rw [← hinv.edge.2.2.1, hcond] at hn
      simp at hn
    · exact hK
  have ha := acts_added d x
  have hcnt := hinv.counter
  have hC0 : x.condition_call.subs = 0 := by rw [hC]; rfl
  have hS0 : x.condition_call.seen = 0 := by rw [hC]; rfl
  have hp : post_sub x.dep = x.dep._waiting_num - 1 := by
    unfold post_sub
    exact wrap64_of_range _ (by omega) (by omega)
  rw [hp] at hw hl hsec hret
  have hC1 : (CallState.entered m).subs = 1 := by
    simp [CallState.subs, CallState.events, hc]
  have hS1 : ((CallState.entered m).seen = 1 ∧ x.dep._waiting_num - 1 = 0) ∨
      ((CallState.entered m).seen = 0 ∧ x.dep._waiting_num - 1 ≠ 0) := by
    simp only [CallState.seen, hl]
    by_cases h0 : x.dep._waiting_num - 1 = 0
    · have r0 : m.returned = false := by
        cases hr : m.returned
        · rfl
        · have := (hret hr).1
          omega
      have s0 : m.second_sub = false := by
        rw [hsec]
        simp [h0]
      simp [h0, r0, s0]
    · simp [h0]
  have hor := hinv.observed_range
  have hs1 := hinv.seen_one
  have hs0 := hinv.seen_none
  have hflag := hinv.flag
  constructor
  · exact same_edge_trans hinv.edge he
  · intro h1
    rcases hest h1 with h2 | h2
    · exact hflag h2
    · exact h2
  · show m.dep._waiting_num = Execution.added d x - x.target_call.subs
      - (CallState.entered m).subs
    omega
  · exact hinv.target_idle
  · exact hinv.target_busy
  · exact hinv.target_mid
  · intro hnone
    rw [← hinv.edge.2.2.1, hcond] at hnone
    simp at hnone
  · intro hi
    simp [CallState.is_idle] at hi
  · intro m' hm'
    simp only [CallState.entered.injEq] at hm'
    subst hm'
    refine ⟨hC1, hn, ?_, ?_⟩
    · intro h2
      refine ⟨?_, ?_⟩
      · rw [hsec] at h2
        cases sat <;> simp_all
      · cases hr : m.returned
        · rfl
        · have := (hret hr).2
          rw [h2] at this
          simp at this
    · intro hsf h2
      have he0 : x.dep._established = false := by
        cases hE : x.dep._established
        · rfl
        · have := hflag hE
          rw [hsf] at this
          simp at this
      rw [hsec, he0, hsf] at h2
      simp only [Bool.or_self, Bool.not_false, Bool.true_and, decide_eq_false_iff_not,
        not_not] at h2
      show x.acts = 1 ∧ x.target_call.subs = 1
      omega
  · intro r' hr'
    simp at hr'
  · intro h1
    have := hor h1
    show -1 ≤ x.observed ∧ x.observed ≤ 2 ∧
      activate_increment d - x.target_call.subs - (CallState.entered m).subs ≤ x.observed
    omega
  · exact hinv.returned
  · intro hsrc h1 h2 h3
    have h1' : x.acts = 1 := h1
    have h2' : 1 ≤ x.observed := h2
    have h3' : activate_increment d ≤ x.target_call.subs + (CallState.entered m).subs := h3
    show x.target_call.seen + (CallState.entered m).seen = 1
    have := hor h1
    by_cases hold : activate_increment d ≤ x.target_call.subs + x.condition_call.subs
    · have := hs1 hsrc h1 h2 hold
      omega
    · have := hs0 hsrc (fun hh => hold hh.2.2)
      omega
  · intro hsrc hnot
    show x.target_call.seen + (CallState.entered m).seen = 0
    have hnot' : ¬ (x.acts = 1 ∧ 1 ≤ x.observed ∧
        activate_increment d ≤ x.target_call.subs + (CallState.entered m).subs) := hnot
    have := hs0 hsrc (by
      intro hh
      apply hnot'
      refine ⟨hh.1, hh.2.1, ?_⟩
      have := hh.2.2
      omega)
    rcases ha with ⟨a0, a1⟩ | ⟨a0, a1⟩
    · omega
    · have := hor a0
      have hx : ¬ (1 ≤ x.observed ∧
          activate_increment d ≤ x.target_call.subs + (CallState.entered m).subs) :=
        fun hh => hnot' ⟨a0, hh.1, hh.2⟩
      omega

theorem inv_condition_leave (d : GraphDependency) (sat : Bool) (env : Env) (x : Execution)
    (m : ReadyMid) (data : Option Nat) (hs : satisfied env d = sat) (hinv : Inv d sat x)
    (hC : x.condition_call = CallState.entered m) :
    Inv d sat { x with
      dep := (ready_leave env x.dep data m).dep
      condition_call := CallState.finished (ready_leave env x.dep data m) } := by
  obtain ⟨he, hw, hest, hc, hn⟩ := ready_leave_effect env x.dep data m
  obtain ⟨hsub, hnm, hsec, hnosec⟩ := hinv.condition_mid m hC
  have hb := inv_bounds hinv
  have ha := acts_added d x
  have hcnt := hinv.counter
  have hK := activate_increment_range d
  have hor := hinv.observed_range
  have hs1 := hinv.seen_one
  have hs0 := hinv.seen_none
  have hp : post_sub x.dep = x.dep._waiting_num - 1 := by
    unfold post_sub
    rcases hK with ⟨_, hK⟩ | ⟨_, hK⟩ <;> exact wrap64_of_range _ (by omega) (by omega)
  rw [hp] at hw hn
  have hflagD : (ready_leave env x.dep data m).dep._established = true → sat = true := by
    intro h1
    rcases hest h1 with h2 | h2
    · exact hinv.flag h2
    · rw [satisfied_same env hinv.edge] at h2
      rw [← hs]; exact h2
  have hsubm : ((counter_ops m.events).length : Int) = 1 := by
    have := hsub
    rw [hC] at this
    exact this
  by_cases hdelta : m.returned = false ∧ m.second_sub = true
  · -- the second `fetch_sub`
    have hsf : sat = false := (hsec hdelta.2).1
    simp only [hdelta, and_self, if_true] at hw hc
    have hC2 : (CallState.finished (ready_leave env x.dep data m)).subs = 2 := by
      simp only [CallState.subs, CallState.events, hc, List.length_append, List.length_singleton]
      push_cast
      omega
    have hSold : x.condition_call.seen = 0 := by
      rw [hC]
      simp [CallState.seen, hdelta.2]
    have hS1 : d._source ≠ none →
        (((CallState.finished (ready_leave env x.dep data m)).seen = 1 ∧
            x.dep._waiting_num - 1 = 0) ∨
          ((CallState.finished (ready_leave env x.dep data m)).seen = 0 ∧
            x.dep._waiting_num - 1 ≠ 0)) := by
      intro hsrc
      rw [← hinv.edge.1] at hsrc
      obtain ⟨v, hv⟩ := Option.ne_none_iff_exists'.mp hsrc
      have := hn v hv
      simp only [CallState.seen, this, hnm, hdelta, List.nil_append, if_true, true_and]
      by_cases h0 : x.dep._waiting_num - 1 = 0 <;> simp [h0]
    have hC1 : x.condition_call.subs = 1 := hsub
    have hK2 : activate_increment d = 2 := by
      rcases hK with ⟨hn, _⟩ | ⟨_, hK⟩
      · have := hinv.condition_none hn
        rw [hC] at this
        simp at this
      · exact hK
    constructor
    · exact same_edge_trans hinv.edge he
    · exact hflagD
    · show (ready_leave env x.dep data m).dep._waiting_num = Execution.added d x
        - x.target_call.subs - (CallState.finished (ready_leave env x.dep data m)).subs
      omega
    · exact hinv.target_idle
    · exact hinv.target_busy
    · exact hinv.target_mid
    · intro hnone
      have := hinv.condition_none hnone
      rw [hC] at this
      simp at this
    · intro hi
      simp [CallState.is_idle] at hi
    · intro m' hm'
      simp at hm'
    · intro r' _
      show ((CallState.finished (ready_leave env x.dep data m)).subs = 1 ∨
          (CallState.finished (ready_leave env x.dep data m)).subs = 2) ∧
        ((CallState.finished (ready_leave env x.dep data m)).subs = 2 → sat = false) ∧
        (sat = false → (CallState.finished (ready_leave env x.dep data m)).subs = 1 →
          x.acts = 1 ∧ x.target_call.subs = 1)
      refine ⟨Or.inr hC2, fun _ => hsf, ?_⟩
      intro _ h1
      omega
    · intro h1
      have := hor h1
      show -1 ≤ x.observed ∧ x.observed ≤ 2 ∧
        activate_increment d - x.target_call.subs
          - (CallState.finished (ready_leave env x.dep data m)).subs ≤ x.observed
      omega
    · exact hinv.returned
    · intro hsrc h1 h2 h3
      have h1' : x.acts = 1 := h1
      have h2' : 1 ≤ x.observed := h2
      have h3' : activate_increment d ≤ x.target_call.subs
          + (CallState.finished (ready_leave env x.dep data m)).subs := h3
      show x.target_call.seen + (CallState.finished (ready_leave env x.dep data m)).seen = 1
      have := hor h1
      have := hS1 hsrc
      by_cases hold : activate_increment d ≤ x.target_call.subs + x.condition_call.subs
      · have := hs1 hsrc h1 h2 hold
        omega
      · have := hs0 hsrc (fun hh => hold hh.2.2)
        omega
    · intro hsrc hnot
      show x.target_call.seen + (CallState.finished (ready_leave env x.dep data m)).seen = 0
      have hnot' : ¬ (x.acts = 1 ∧ 1 ≤ x.observed ∧
          activate_increment d ≤ x.target_call.subs
            + (CallState.finished (ready_leave env x.dep data m)).subs) := hnot
      have := hS1 hsrc
      have := hs0 hsrc (by
        intro hh
        apply hnot'
        refine ⟨hh.1, hh.2.1, ?_⟩
        have := hh.2.2
        omega)
      rcases ha with ⟨a0, a1⟩ | ⟨a0, a1⟩
      · omega
      · have := hor a0
        have hx : ¬ (1 ≤ x.observed ∧
            activate_increment d ≤ x.target_call.subs
              + (CallState.finished (ready_leave env x.dep data m)).subs) :=
          fun hh => hnot' ⟨a0, hh.1, hh.2⟩
        omega
  · -- no second `fetch_sub`: the counter is not touched
    simp only [hdelta, if_false, List.append_nil] at hw hc
    have hC1 : (CallState.finished (ready_leave env x.dep data m)).subs
        = x.condition_call.subs := by
      rw [hC]
      simp [CallState.subs, CallState.events, hc]
    have hS1 : d._source ≠ none →
        (CallState.finished (ready_leave env x.dep data m)).seen = x.condition_call.seen := by
      intro hsrc
      rw [← hinv.edge.1] at hsrc
      obtain ⟨v, hv⟩ := Option.ne_none_iff_exists'.mp hsrc
      have := hn v hv
      rw [hC]
      simp only [CallState.seen, this, hnm, List.nil_append]
      cases hr : m.returned <;> cases hs2 : m.second_sub
      · by_cases h0 : m.waiting_num = 0 <;> simp [h0]
      · exact absurd ⟨hr, hs2⟩ hdelta
      · simp
      · simp
    have hsecf : m.returned = false → m.second_sub = false := by
      intro hr
      cases hs2 : m.second_sub
      · rfl
      · exact absurd ⟨hr, hs2⟩ hdelta
    constructor
    · exact same_edge_trans hinv.edge he
    · exact hflagD
    · show (ready_leave env x.dep data m).dep._waiting_num = Execution.added d x
        - x.target_call.subs - (CallState.finished (ready_leave env x.dep data m)).subs
      rw [hC1, hw]
      exact hcnt
    · exact hinv.target_idle
    · exact hinv.target_busy
    · exact hinv.target_mid
    · intro hnone
      have := hinv.condition_none hnone
      rw [hC] at this
      simp at this
    · intro hi
      simp [CallState.is_idle] at hi
    · intro m' hm'
      simp at hm'
    · intro r' _
      show ((CallState.finished (ready_leave env x.dep data m)).subs = 1 ∨
          (CallState.finished (ready_leave env x.dep data m)).subs = 2) ∧
        ((CallState.finished (ready_leave env x.dep data m)).subs = 2 → sat = false) ∧
        (sat = false → (CallState.finished (ready_leave env x.dep data m)).subs = 1 →
          x.acts = 1 ∧ x.target_call.subs = 1)
      rw [hC1]
      refine ⟨Or.inl hsub, fun h2 => by omega, ?_⟩
      intro hsf _
      apply hnosec hsf
      cases hs2 : m.second_sub
      · rfl
      · exact absurd ⟨(hsec hs2).2, hs2⟩ hdelta
    · intro h1
      show -1 ≤ x.observed ∧ x.observed ≤ 2 ∧
        activate_increment d - x.target_call.subs
          - (CallState.finished (ready_leave env x.dep data m)).subs ≤ x.observed
      rw [hC1]
      exact hor h1
    · exact hinv.returned
    · intro hsrc h1 h2 h3
      show x.target_call.seen + (CallState.finished (ready_leave env x.dep data m)).seen = 1
      rw [hS1 hsrc]
      have h3' : activate_increment d ≤ x.target_call.subs
          + (CallState.finished (ready_leave env x.dep data m)).subs := h3
      rw [hC1] at h3'
      exact hs1 hsrc h1 h2 h3'
    · intro hsrc hnot
      show x.target_call.seen + (CallState.finished (ready_leave env x.dep data m)).seen = 0
      rw [hS1 hsrc]
      apply hs0 hsrc
      intro hh
      apply hnot
      refine ⟨hh.1, hh.2.1, ?_⟩
      show activate_increment d ≤ x.target_call.subs
          + (CallState.finished (ready_leave env x.dep data m)).subs
      rw [hC1]
      exact hh.2.2

theorem step_inv (d : GraphDependency) (sat : Bool) (mv : Move) (x y : Execution)
    (hd : d._condition ≠ some d._target) (hs : satisfied mv.env d = sat) (hinv : Inv d sat x)
    (h : step mv x = some y) : Inv d sat y := by
  unfold step at h
  cases ha : mv.actor with
  | activator =>
    rw [ha] at h
    cases hx : x.activated with
    | some r =>
      simp only [hx, Option.some.injEq] at h
      rw [← h]; exact hinv
    | none =>
      simp only [hx, Option.map_eq_some'] at h
      obtain ⟨r, hr, hy⟩ := h
      rw [← hy]
      exact inv_activate d sat mv.env x r hs hinv hx hr
  | target_completer =>
    rw [ha] at h
    simp only [Option.map_eq_some'] at h
    obtain ⟨p, hp, hy⟩ := h
    rw [← hy]
    cases hT : x.target_call with
    | idle =>
      simp only [hT, step_call, Option.map_eq_some'] at hp
      obtain ⟨m, hm, hpm⟩ := hp
      rw [← hpm]
      exact inv_target_enter d sat mv.env x mv.runnable_vertexes m hd hinv hT hm
    | entered m =>
      simp only [hT, step_call, Option.some.injEq] at hp
      rw [← hp]
      exact inv_target_leave d sat mv.env x m (some x.dep._target) hs hinv hT
    | finished r =>
      simp only [hT, step_call, Option.some.injEq] at hp
      rw [← hp]
      have : ({ x with dep := x.dep, target_call := CallState.finished r } : Execution) = x := by
        rw [← hT]
      rw [this]
      exact hinv
  | condition_completer =>
    rw [ha] at h
    cases hc : x.dep._condition with
    | none =>
      simp only [hc, Option.some.injEq] at h
      rw [← h]; exact hinv
    | some c =>
      simp only [hc, Option.map_eq_some'] at h
      obtain ⟨p, hp, hy⟩ := h
      rw [← hy]
      cases hC : x.condition_call with
      | idle =>
        simp only [hC, step_call, Option.map_eq_some'] at hp
        obtain ⟨m, hm, hpm⟩ := hp
        rw [← hpm]
        exact inv_condition_enter d sat mv.env x mv.runnable_vertexes m c hs hinv hc hC hm
      | entered m =>
        simp only [hC, step_call, Option.some.injEq] at hp
        rw [← hp]
        exact inv_condition_leave d sat mv.env x m (some c) hs hinv hC
      | finished r =>
        simp only [hC, step_call, Option.some.injEq] at hp
        rw [← hp]
        have : ({ x with dep := x.dep, condition_call := CallState.finished r } : Execution)
            = x := by
          rw [← hC]
        rw [this]
        exact hinv

theorem satisfied_reads (d : GraphDependency) (cv : Bool) (env : Env)
    (h : ∀ c, d._condition = some c → env.as_bool c = cv) :
    satisfied env d = established_at d cv := by
  unfold satisfied condition_holds established_at
  cases hc : d._condition with
  | none => rfl
  | some c => simp [h c hc]

theorem run_inv (d : GraphDependency) (cv : Bool) (hd : d._condition ≠ some d._target)
    (schedule : List Move) :
    ∀ x y, condition_reads d cv schedule → Inv d (established_at d cv) x →
      run x schedule = some y → Inv d (established_at d cv) y := by
  induction schedule with
  | nil =>
    intro x y _ hinv h
    simp only [run, Option.some.injEq] at h
    rw [← h]; exact hinv
  | cons mv rest ih =>
    intro x y hcv hinv h
    simp only [run, Option.bind_eq_some] at h
    obtain ⟨z, hz, hrest⟩ := h
    have hs : satisfied mv.env d = established_at d cv :=
      satisfied_reads d cv mv.env (hcv mv (List.mem_cons_self _ _))
    have hinvz := step_inv d _ mv x z hd hs hinv hz
    exact ih z y (fun mv' hm => hcv mv' (List.mem_cons_of_mem _ hm)) hinvz hrest

theorem activate_defined (env : Env) (d : GraphDependency) (hs : d._source ≠ none)
    (hc : d._condition = none → post_add d ≠ 2) : activate env d ≠ none := by
  apply activate_cases env d (fun o => o ≠ none)
  all_goals intros
  all_goals simp_all

theorem ready_enter_defined (env : Env) (d : GraphDependency) (data : Option Nat)
    (rs : List Nat) (hs : d._source ≠ none) : ready_enter env d data rs ≠ none := by
  apply ready_enter_cases env d data rs (fun o => o ≠ none)
  all_goals intros
  all_goals simp_all

theorem step_defined (d : GraphDependency) (sat : Bool) (mv : Move) (x : Execution)
    (hsrc : d._source ≠ none) (hinv : Inv d sat x) : step mv x ≠ none := by
  have hsrc' : x.dep._source ≠ none := by rw [hinv.edge.1]; exact hsrc
  unfold step
  cases ha : mv.actor with
  | activator =>
    cases hx : x.activated with
    | some r => simp
    | none =>
      have hb := inv_bounds hinv
      have hcnt := hinv.counter
      have hadd : x.added d = 0 := by simp [Execution.added, hx]
      have hK := activate_increment_range d
      have hKx := activate_increment_same hinv.edge
      have : activate mv.env x.dep ≠ none := by
        apply activate_defined mv.env x.dep hsrc'
        intro hn
        rw [hinv.edge.2.2.1] at hn
        have hc0 := hb.2.2.2.2 hn
        have hK1 : activate_increment d = 1 := by
          rcases hK with ⟨_, h1⟩ | ⟨h2, _⟩
          · exact h1
          · exact absurd hn h2
        have hp : post_add x.dep = x.dep._waiting_num + activate_increment d := by
          unfold post_add
          rw [hKx]
          exact wrap64_of_range _ (by omega) (by omega)
        omega
      obtain ⟨r, hr⟩ := Option.ne_none_iff_exists'.mp this
      simp [hr]
  | target_completer =>
    cases hT : x.target_call with
    | idle =>
      have := ready_enter_defined mv.env x.dep (some x.dep._target) mv.runnable_vertexes hsrc'
      obtain ⟨m, hm⟩ := Option.ne_none_iff_exists'.mp this
      simp [step_call, hm]
    | entered m => simp [step_call]
    | finished r => simp [step_call]
  | condition_completer =>
    cases hc : x.dep._condition with
    | none => simp
    | some c =>
      cases hC : x.condition_call with
      | idle =>
        have := ready_enter_defined mv.env x.dep (some c) mv.runnable_vertexes hsrc'
        obtain ⟨m, hm⟩ := Option.ne_none_iff_exists'.mp this
        simp [step_call, hm]
      | entered m => simp [step_call]
      | finished r => simp [step_call]

theorem run_defined (d : GraphDependency) (cv : Bool) (hd : d._condition ≠ some d._target)
    (hsrc : d._source ≠ none) (schedule : List Move) :
    ∀ x, condition_reads d cv schedule → Inv d (established_at d cv) x →
      run x schedule ≠ none := by
  induction schedule with
  | nil => intro x _ _; simp [run]
  | cons mv rest ih =>
    intro x hcv hinv
    have hs : satisfied mv.env d = established_at d cv :=
      satisfied_reads d cv mv.env (hcv mv (List.mem_cons_self _ _))
    obtain ⟨z, hz⟩ := Option.ne_none_iff_exists'.mp (step_defined d _ mv x hsrc hinv)
    have hinvz := step_inv d _ mv x z hd hs hinv hz
    simp only [run, hz, Option.some_bind]
    exact ih z (fun mv' hm => hcv mv' (List.mem_cons_of_mem _ hm)) hinvz

theorem condition_reads_moves (d : GraphDependency) (cv : Bool) (env : Env)
    (actors : List Actor) (h : ∀ c, d._condition = some c → env.as_bool c = cv) :
    condition_reads d cv (moves env actors) := by
  intro mv hm c hc
  simp only [moves, List.mem_map] at hm
  obtain ⟨a, _, rfl⟩ := hm
  exact h c hc

theorem seen_settled (cs : CallState) (h : cs.is_idle = true ∨ cs.is_finished = true) :
    cs.seen = ((notifications cs.events).length : Int) := by
  cases cs with
  | idle => rfl
  | entered m => simp [CallState.is_idle, CallState.is_finished] at h
  | finished r => rfl


/-! ## The call of `activate` inside an execution -/

theorem activate_refused_iff (env : Env) (d : GraphDependency) (r : ActivateResult)
    (h : activate env d = some r) : r.ret = -1 ↔ refused env r.events = true := by
  revert r
  apply activate_cases env d
    (fun o => ∀ r, o = some r → (r.ret = -1 ↔ refused env r.events = true))
  all_goals intros
  all_goals rename_i r hr
  all_goals simp only [Option.some.injEq, reduceCtorEq] at hr
  all_goals (try subst hr)
  all_goals simp_all

theorem step_activated (mv : Move) (x y : Execution) (r : ActivateResult)
    (h : step mv x = some y) (hx : x.activated = some r) : y.activated = some r := by
  unfold step at h
  cases ha : mv.actor with
  | activator =>
    rw [ha] at h
    simp only [hx, Option.some.injEq] at h
    rw [← h]; exact hx
  | target_completer =>
    rw [ha] at h
    simp only [Option.map_eq_some'] at h
    obtain ⟨p, _, hp⟩ := h
    rw [← hp]; exact hx
  | condition_completer =>
    rw [ha] at h
    cases hc : x.dep._condition with
    | none =>
      simp only [hc, Option.some.injEq] at h
      rw [← h]; exact hx
    | some c =>
      simp only [hc, Option.map_eq_some'] at h
      obtain ⟨p, _, hp⟩ := h
      rw [← hp]; exact hx

theorem run_activated (schedule : List Move) :
    ∀ (x y : Execution) (r : ActivateResult), run x schedule = some y →
      x.activated = some r → y.activated = some r := by
  induction schedule with
  | nil =>
    intro x y r h hx
    simp only [run, Option.some.injEq] at h
    rw [← h]; exact hx
  | cons mv rest ih =>
    intro x y r h hx
    simp only [run, Option.bind_eq_some] at h
    obtain ⟨z, hz, hrest⟩ := h
    exact ih z y r hrest (step_activated mv x z r hz hx)

theorem step_activation (mv : Move) (x y : Execution) (r : ActivateResult)
    (h : step mv x = some y) (hx : x.activated = none) (hy : y.activated = some r) :
    mv.actor = Actor.activator ∧ activate mv.env x.dep = some r := by
  unfold step at h
  cases ha : mv.actor with
  | activator =>
    rw [ha] at h
    simp only [hx, Option.map_eq_some'] at h
    obtain ⟨q, hq, hyq⟩ := h
    rw [← hyq] at hy
    simp only [Option.some.injEq] at hy
    rw [← hy]
    exact ⟨rfl, hq⟩
  | target_completer =>
    rw [ha] at h
    simp only [Option.map_eq_some'] at h
    obtain ⟨p, _, hp⟩ := h
    rw [← hp] at hy
    rw [hx] at hy
    cases hy
  | condition_completer =>
    rw [ha] at h
    cases hc : x.dep._condition with
    | none =>
      simp only [hc, Option.some.injEq] at h
      rw [← h, hx] at hy
      cases hy
    | some c =>
      simp only [hc, Option.map_eq_some'] at h
      obtain ⟨p, _, hp⟩ := h
      rw [← hp] at hy
      rw [hx] at hy
      cases hy

theorem run_activation (schedule : List Move) :
    ∀ (x y : Execution) (r : ActivateResult), run x schedule = some y →
      x.activated = none → y.activated = some r →
      ∃ mv ∈ schedule, mv.actor = Actor.activator ∧
        ∃ e, activate mv.env e = some r := by
  induction schedule with
  | nil =>
    intro x y r h hx hy
    simp only [run, Option.some.injEq] at h
    rw [← h, hx] at hy
    cases hy
  | cons mv rest ih =>
    intro x y r h hx hy
    simp only [run, Option.bind_eq_some] at h
    obtain ⟨z, hz, hrest⟩ := h
    cases hza : z.activated with
    | none =>
      obtain ⟨mv1, hm, h1, h2⟩ := ih z y r hrest hza hy
      exact ⟨mv1, List.mem_cons_of_mem _ hm, h1, h2⟩
    | some q =>
      have hyq := run_activated rest z y q hrest hza
      rw [hy] at hyq
      simp only [Option.some.injEq] at hyq
      subst hyq
      obtain ⟨h1, h2⟩ := step_activation mv x z r hz hx hza
      exact ⟨mv, List.mem_cons_self _ _, h1, x.dep, h2⟩
/-! ## The claims -/

/-- C1, terminal value of `waiting_num`.  One execution of the edge `d` is a schedule of atomic
steps run from the state after `reset()`: one `activate`, at most one `ready(target)`, and
one `ready(condition)` when there is a condition, its second `fetch_sub` made exactly as the
code decides it.  For every edge whose condition and target are distinct data, every value
`cv` the condition reads throughout, and every schedule: whenever the activation has
occurred, the condition (if any) has completed and the target has completed if the edge is
established, `_waiting_num` is -1 or 0, hence never greater than 0.  The run is defined (no
null pointer is dereferenced) for every edge that has a source vertex. -/
theorem C1_terminal_waiting_num (d : GraphDependency) (cv : Bool) (schedule : List Move)
    (hdistinct : d._condition ≠ some d._target) (hcv : condition_reads d cv schedule) :
    (d._source ≠ none → run (start d) schedule ≠ none) ∧
    ∀ x, run (start d) schedule = some x → settled d cv x = true →
      x.dep._waiting_num = -1 ∨ x.dep._waiting_num = 0 := by
  refine ⟨fun hsrc => run_defined d cv hdistinct hsrc schedule _ hcv (inv_start d _), ?_⟩
  intro x hx hset
  have hinv := run_inv d cv hdistinct schedule _ x hcv (inv_start d _) hx
  have hb := inv_bounds hinv
  have hcnt := hinv.counter
  have hK := activate_increment_range d
  simp only [settled, Bool.and_eq_true, Bool.or_eq_true, Bool.not_eq_true',
    Option.isNone_iff_eq_none] at hset
  obtain ⟨⟨hact, hcond⟩, htgt⟩ := hset
  have hadd : x.added d = activate_increment d := by simp [Execution.added, hact]
  have hacts : x.acts = 1 := by simp [Execution.acts, hact]
  have hT : established_at d cv = true → x.target_call.subs = 1 := by
    intro he
    rcases htgt with h | h
    · rw [he] at h; simp at h
    · exact hinv.target_busy h
  rcases hK with ⟨hn, hK⟩ | ⟨hn, hK⟩
  · have hc0 := hb.2.2.2.2 hn
    have : established_at d cv = true := by simp [established_at, hn]
    have := hT this
    omega
  · rcases hcond with h | h
    · exact absurd h hn
    · cases hC : x.condition_call with
      | idle => rw [hC] at h; simp [CallState.is_finished] at h
      | entered m => rw [hC] at h; simp [CallState.is_finished] at h
      | finished r =>
        obtain ⟨h1, h2, h3⟩ := hinv.condition_done r hC
        cases hsat : established_at d cv
        · have := h3 hsat
          omega
        · have := hT hsat
          have : x.condition_call.subs ≠ 2 := by
            intro h4
            have := h2 h4
            rw [hsat] at this
            simp at this
          omega

/-- Witness of C1: on `conditional_edge` the condition completes, the activator runs and the
target completes; the run is defined and ends, settled, with `_waiting_num` in {-1, 0}. -/
theorem C1_terminal_waiting_num_witness :
    run (start conditional_edge) schedule_condition_first ≠ none ∧
    (final_condition_first.dep._waiting_num = -1 ∨
      final_condition_first.dep._waiting_num = 0) :=
  ⟨(C1_terminal_waiting_num conditional_edge true schedule_condition_first (by decide)
      (condition_reads_moves _ _ _ _ (fun _ _ => rfl))).1 (by decide),
    (C1_terminal_waiting_num conditional_edge true schedule_condition_first (by decide)
      (condition_reads_moves _ _ _ _ (fun _ _ => rfl))).2 final_condition_first
        (by decide) (by decide)⟩

/-- Counterexample to C2 as stated: on `plain_edge` the target completes first and the
activator then has its reservation refused.  The execution is quiescent, `activate` has
returned -1 (neither 1 nor 0) and no `ready` call has invoked `_source->ready(this)`. -/
theorem C2_single_outcome_counterexample :
    (run (start plain_edge) schedule_refused).map
        (fun x => (quiescent plain_edge true x, x.activated.map (fun r => r.ret), notified x))
      = some (true, some (-1), 0) := by
  decide

/-- C2 as amended, single well-defined outcome.  For every edge with a source vertex whose
condition and target are distinct data, every value `cv` the condition reads throughout and
every schedule, the run is defined, and at quiescence the result of `activate` is that of the
call made in one move of the activator, it is -1 exactly when a reservation attempted by that
call was refused, and exactly one of two outcomes holds: either the value `activate`
observed after its `fetch_add` was -1 or 0, `activate` returned 1 unless it returned -1, and
no `ready` call invoked `_source->ready(this)`; or that value was 1 or 2, `activate` returned
0 unless it returned -1, and the `ready` calls invoked `_source->ready(this)` exactly once in
total. -/
theorem C2_single_outcome (d : GraphDependency) (cv : Bool) (schedule : List Move) (v : Nat)
    (hsrc : d._source = some v) (hdistinct : d._condition ≠ some d._target)
    (hcv : condition_reads d cv schedule) :
    ∃ x, run (start d) schedule = some x ∧
      (quiescent d cv x = true →
        ∃ r, x.activated = some r ∧
          ∃ mv ∈ schedule, mv.actor = Actor.activator ∧
            (∃ e, activate mv.env e = some r) ∧
            (r.ret = -1 ↔ refused mv.env r.events = true) ∧
            (((r.dep._waiting_num = -1 ∨ r.dep._waiting_num = 0) ∧
                (r.ret ≠ -1 → r.ret = 1) ∧ notified x = 0) ∨
              ((r.dep._waiting_num = 1 ∨ r.dep._waiting_num = 2) ∧
                (r.ret ≠ -1 → r.ret = 0) ∧ notified x = 1))) := by
  have hsrc' : d._source ≠ none := by rw [hsrc]; simp
  obtain ⟨x, hx⟩ := Option.ne_none_iff_exists'.mp
    (run_defined d cv hdistinct hsrc' schedule _ hcv (inv_start d _))
  refine ⟨x, hx, ?_⟩
  intro hq
  have hinv := run_inv d cv hdistinct schedule _ x hcv (inv_start d _) hx
  have hb := inv_bounds hinv
  have hcnt := hinv.counter
  have hK := activate_increment_range d
  simp only [quiescent, Bool.and_eq_true, Bool.or_eq_true, Bool.not_eq_true',
    Option.isNone_iff_eq_none] at hq
  obtain ⟨⟨⟨hact, hcond⟩, htgt⟩, hrun⟩ := hq
  obtain ⟨r, hr⟩ := Option.isSome_iff_exists.mp hact
  obtain ⟨mv, hmv, hactor, e, he⟩ := run_activation schedule (start d) x r hx rfl hr
  refine ⟨r, hr, mv, hmv, hactor, ⟨e, he⟩, activate_refused_iff mv.env e r he, ?_⟩
  have hacts : x.acts = 1 := by simp [Execution.acts, hact]
  have hobs : x.observed = r.dep._waiting_num := by simp [Execution.observed, hr]
  have hret := hinv.returned r hr
  have hor := hinv.observed_range hacts
  rw [hobs] at hor
  have hT : established_at d cv = true → x.target_call.subs = 1 := by
    intro he
    rcases htgt with h | h
    · rw [he] at h; simp at h
    · apply hinv.target_busy
      cases hc : x.target_call <;> simp_all [CallState.is_finished, CallState.is_idle]
  have hseenT := seen_settled x.target_call hrun
  have hCfin : x.condition_call.is_idle = true ∨ x.condition_call.is_finished = true := by
    rcases hcond with h | h
    · left
      rw [hinv.condition_none h]
      rfl
    · right; exact h
  have hseenC := seen_settled x.condition_call hCfin
  have hS : activate_increment d ≤ x.target_call.subs + x.condition_call.subs := by
    rcases hK with ⟨hn, hK⟩ | ⟨hn, hK⟩
    · have : established_at d cv = true := by simp [established_at, hn]
      have := hT this
      omega
    · rcases hcond with h | h
      · exact absurd h hn
      · cases hC : x.condition_call with
        | idle => rw [hC] at h; simp [CallState.is_finished] at h
        | entered m => rw [hC] at h; simp [CallState.is_finished] at h
        | finished r' =>
          obtain ⟨h1, h2, h3⟩ := hinv.condition_done r' hC
          try rw [hC] at h1 h2 h3
          cases hsat : established_at d cv
          · have := h3 hsat
            omega
          · have := hT hsat
            omega
  have hnot : (notified x : Int) = x.target_call.seen + x.condition_call.seen := by
    rw [hseenT, hseenC]
    simp [notified]
  by_cases hp : 1 ≤ r.dep._waiting_num
  · right
    have h1 := hinv.seen_one hsrc' hacts (by rw [hobs]; exact hp) hS
    refine ⟨by omega, ?_, by omega⟩
    intro hne
    rcases hret with h | h
    · exact absurd h hne
    · rw [h]
      have : ¬ (r.dep._waiting_num = -1 ∨ r.dep._waiting_num = 0) := by omega
      simp [this]
  · left
    have h0 := hinv.seen_none hsrc' (by rw [hobs]; intro hh; exact hp hh.2.1)
    refine ⟨by omega, ?_, by omega⟩
    intro hne
    rcases hret with h | h
    · exact absurd h hne
    · rw [h]
      have : r.dep._waiting_num = -1 ∨ r.dep._waiting_num = 0 := by omega
      simp [this]

/-- Witness of C2 on `conditional_edge` and the schedule `schedule_condition_first`. -/
theorem C2_single_outcome_witness :
    ∃ x, run (start conditional_edge) schedule_condition_first = some x ∧
      (quiescent conditional_edge true x = true →
        ∃ r, x.activated = some r ∧
          ∃ mv ∈ schedule_condition_first, mv.actor = Actor.activator ∧
            (∃ e, activate mv.env e = some r) ∧
            (r.ret = -1 ↔ refused mv.env r.events = true) ∧
            (((r.dep._waiting_num = -1 ∨ r.dep._waiting_num = 0) ∧
                (r.ret ≠ -1 → r.ret = 1) ∧ notified x = 0) ∨
              ((r.dep._waiting_num = 1 ∨ r.dep._waiting_num = 2) ∧
                (r.ret ≠ -1 → r.ret = 0) ∧ notified x = 1))) :=
  C2_single_outcome conditional_edge true schedule_condition_first 0 rfl (by decide)
    (condition_reads_moves _ _ _ _ (fun _ _ => rfl))

/-- Counterexample to C3 as stated: the target of `plain_edge` completed before the
activation (`_waiting_num = -1`) and every reservation is granted; `activate` returns 1, not
0, although no reservation was refused. -/
theorem C3_activate_return_code_counterexample :
    (activate env_grant { plain_edge with _waiting_num := -1 }).map
        (fun r => (r.ret, refused env_grant r.events)) = some (1, false) := by
  decide

/-- C3 as amended, return code of `activate`.  For every edge state and every behaviour of
the collaborators, `activate` returns -1 exactly when a reservation it attempted on the
target was refused; in every other case it returns 1 when the value after its `fetch_add`
is -1 or 0, and 0 otherwise.  It returns (no null pointer is dereferenced) whenever the edge
has a source vertex and does not reach the value 2 without having a condition. -/
theorem C3_activate_return_code (env : Env) (d : GraphDependency) :
    (d._source ≠ none → (d._condition = none → post_add d ≠ 2) →
      activate env d ≠ none) ∧
    ∀ r, activate env d = some r →
      (r.ret = -1 ↔ refused env r.events = true) ∧
      (r.ret ≠ -1 → r.ret = if post_add d = -1 ∨ post_add d = 0 then 1 else 0) := by
  apply activate_cases env d
    (fun o => (d._source ≠ none → (d._condition = none → post_add d ≠ 2) →
        o ≠ none) ∧
      ∀ r, o = some r → (r.ret = -1 ↔ refused env r.events = true) ∧
        (r.ret ≠ -1 → r.ret = if post_add d = -1 ∨ post_add d = 0 then 1 else 0))
  all_goals intros
  all_goals refine ⟨by simp_all, ?_⟩
  all_goals intro r hr
  all_goals simp only [Option.some.injEq, reduceCtorEq] at hr
  all_goals (try subst hr)
  all_goals simp_all

/-- Witness of C3 as amended on the freshly reset `plain_edge`: `activate` returns, and its
return code 0 goes with the value 1 after the `fetch_add` and no refused reservation. -/
theorem C3_activate_return_code_witness :
    activate env_grant plain_edge ≠ none ∧
    ∃ r, activate env_grant plain_edge = some r ∧
      (r.ret = -1 ↔ refused env_grant r.events = true) ∧
      (r.ret ≠ -1 →
        r.ret = if post_add plain_edge = -1 ∨ post_add plain_edge = 0 then 1 else 0) :=
  ⟨(C3_activate_return_code env_grant plain_edge).1 (by decide) (by decide),
    _, rfl, (C3_activate_return_code env_grant plain_edge).2 _ rfl⟩

/-- C4, `activate` at the value 0 after its `fetch_add`.  It triggers nothing; if the edge is
established (no condition, or the condition's boolean equals `_establish_value`) it attempts
exactly one reservation on the target, `acquire_mutable_depend` if the edge is mutable and
`acquire_immutable_depend` otherwise, and when that is granted `_ready` becomes
`target.ready()`, `_established` is true and the result is 1.  In particular, on a freshly
reset unconditional edge `ready(target)` leaves `_waiting_num = -1`, and when
`target.ready()` is true and the reservation is granted the activation that follows observes
0, makes that one reservation, ends with `_established` and `_ready` true and returns 1. -/
theorem C4_activate_post_add_zero (env : Env) (d : GraphDependency) :
    (post_add d = 0 →
      ∃ r, activate env d = some r ∧ triggers r.events = [] ∧
        (satisfied env d = true →
          reservations r.events = [wanted_reservation d] ∧
          (granted env d = true →
            r.dep._ready = env.data_ready d._target ∧ r.dep._established = true ∧
            r.ret = 1))) ∧
    (d._condition = none →
      (∀ env1 rs, (ready env1 (reset d) (some d._target) rs).map (fun r => r.dep)
        = some { reset d with _waiting_num := -1 }) ∧
      (env.data_ready d._target = true → granted env d = true →
        post_add { reset d with _waiting_num := -1 } = 0 ∧
        ∃ r, activate env { reset d with _waiting_num := -1 } = some r ∧
          reservations r.events = [wanted_reservation d] ∧ r.dep._waiting_num = 0 ∧
          r.dep._established = true ∧ r.dep._ready = true ∧ r.ret = 1)) := by
  constructor
  · intro h0
    apply activate_cases env d
      (fun o => ∃ r, o = some r ∧ triggers r.events = [] ∧
        (satisfied env d = true →
          reservations r.events = [wanted_reservation d] ∧
          (granted env d = true →
            r.dep._ready = env.data_ready d._target ∧ r.dep._established = true ∧
            r.ret = 1)))
    all_goals intros
    all_goals simp_all
  · intro hc
    constructor
    · intro env1 rs
      have hd : some d._target ≠ (reset d)._condition := by simp [reset, hc]
      have hp : post_sub (reset d) = -1 := by simp [post_sub, reset, wrap64]
      unfold ready
      rw [ready_enter_other env1 (reset d) (some d._target) rs hd, hp]
      simp [ready_leave, ready_final_nonzero, reset]
    · intro hr hg
      have h0 : post_add { reset d with _waiting_num := -1 } = 0 := by
        simp [post_add, activate_increment, reset, hc, wrap64]
      refine ⟨h0, ?_⟩
      rw [activate_zero_granted env _ h0 (by simp [reset, hc, condition_holds])
        (by simpa using hg)]
      simp [reset, hr]

/-- Witness of C4 on `plain_edge` after its target completed. -/
theorem C4_activate_post_add_zero_witness :
    post_add { reset plain_edge with _waiting_num := -1 } = 0 ∧
    ∃ r, activate env_grant { reset plain_edge with _waiting_num := -1 } = some r ∧
      reservations r.events = [wanted_reservation plain_edge] ∧ r.dep._waiting_num = 0 ∧
      r.dep._established = true ∧ r.dep._ready = true ∧ r.ret = 1 :=
  ((C4_activate_post_add_zero env_grant plain_edge).2 rfl).2 rfl rfl

/-- C5, `activate` at the value 1 after its `fetch_add`.  (a) No condition: `_established`
is set, the target is reserved and, if the reservation is granted, `trigger(target)` is
called once.  (b) The condition exists and is not ready: `trigger(condition)` is called once,
nothing is reserved.  (c) The condition is ready and its boolean equals `_establish_value`:
the target is reserved and, if granted, `trigger(target)` is called once.  (d) The condition
is ready, its boolean differs from `_establish_value` and the edge has not been marked
established before: nothing is triggered, nothing is reserved, `_established` is unchanged.
In every case `_ready` is not modified and, unless a reservation was refused, the result is
0.  The call returns whenever the edge has a source vertex. -/
theorem C5_activate_post_add_one (env : Env) (d : GraphDependency) (h : post_add d = 1) :
    (d._source ≠ none → activate env d ≠ none) ∧
    ∀ r, activate env d = some r →
      (d._condition = none →
        r.dep._established = true ∧ reservations r.events = [wanted_reservation d] ∧
        triggers r.events = if granted env d then [Event.trigger d._target] else []) ∧
      (∀ c, d._condition = some c → env.data_ready c = false →
        triggers r.events = [Event.trigger c] ∧ reservations r.events = [] ∧
        r.dep._established = d._established) ∧
      (∀ c, d._condition = some c → env.data_ready c = true →
        env.as_bool c = d._establish_value →
        r.dep._established = true ∧ reservations r.events = [wanted_reservation d] ∧
        triggers r.events = if granted env d then [Event.trigger d._target] else []) ∧
      (∀ c, d._condition = some c → env.data_ready c = true →
        env.as_bool c ≠ d._establish_value → d._established = false →
        triggers r.events = [] ∧ reservations r.events = [] ∧
        r.dep._established = d._established) ∧
      (refused env r.events = false → r.ret = 0) ∧
      r.dep._ready = d._ready := by
  apply activate_cases env d
    (fun o => (d._source ≠ none → o ≠ none) ∧
      ∀ r, o = some r →
      (d._condition = none →
        r.dep._established = true ∧ reservations r.events = [wanted_reservation d] ∧
        triggers r.events = if granted env d then [Event.trigger d._target] else []) ∧
      (∀ c, d._condition = some c → env.data_ready c = false →
        triggers r.events = [Event.trigger c] ∧ reservations r.events = [] ∧
        r.dep._established = d._established) ∧
      (∀ c, d._condition = some c → env.data_ready c = true →
        env.as_bool c = d._establish_value →
        r.dep._established = true ∧ reservations r.events = [wanted_reservation d] ∧
        triggers r.events = if granted env d then [Event.trigger d._target] else []) ∧
      (∀ c, d._condition = some c → env.data_ready c = true →
        env.as_bool c ≠ d._establish_value → d._established = false →
        triggers r.events = [] ∧ reservations r.events = [] ∧
        r.dep._established = d._established) ∧
      (refused env r.events = false → r.ret = 0) ∧
      r.dep._ready = d._ready)
  all_goals intros
  all_goals refine ⟨by simp_all, ?_⟩
  all_goals intro r hr
  all_goals simp only [Option.some.injEq, reduceCtorEq] at hr
  all_goals (try subst hr)
  all_goals simp_all [condition_holds]
  all_goals tauto

/-- Witness of C5 on the freshly reset `plain_edge`, whose activation observes 1. -/
theorem C5_activate_post_add_one_witness :
    activate env_grant plain_edge ≠ none ∧
    ∃ r, activate env_grant plain_edge = some r ∧ r.ret = 0 ∧ r.dep._ready = false :=
  ⟨(C5_activate_post_add_one env_grant plain_edge (by decide)).1 (by decide),
    _, rfl,
    ((C5_activate_post_add_one env_grant plain_edge (by decide)).2 _ rfl).2.2.2.2.1 rfl,
    ((C5_activate_post_add_one env_grant plain_edge (by decide)).2 _ rfl).2.2.2.2.2⟩

/-- Counterexample to C6 as stated: `ready(condition)` on an activated conditional edge whose
condition holds ends with `_waiting_num = 1`, not 0, and yet the runnable stack has changed
from empty to `[9]`: `recursive_activate` was handed the stack and scheduled vertex 9. -/
theorem C6_completion_cascade_counterexample :
    (ready env_schedule { conditional_edge with _waiting_num := 2 } (some 2) []).map
        (fun r => (r.dep._waiting_num, r.runnable_vertexes)) = some (1, [9]) := by
  decide

/-- C6 as amended, completion cascade.  For every call `ready(data, runnable)` on an edge
with the source vertex `v`: if the call ends with `_waiting_num = 0`, then `_ready` is
finalized (for `data == target` it is the result of `check_established()`, which is true
exactly when the edge is established provided the flag was consistent; otherwise it is
`established() && target.ready()`), `v->ready(this)` is called exactly once, and `v` is
appended to `runnable` exactly when that call returns true.  If the call ends with another
value, `_ready` is not modified, `v->ready(this)` is not called and the call itself appends
nothing to `runnable`, which is left as it was or, when `recursive_activate` was called, as
`recursive_activate` left it. -/
theorem C6_completion_cascade (env : Env) (d : GraphDependency) (data : Option Nat)
    (rs : List Nat) (v : Nat)
    (hv : d._source = some v) :
    ∃ r, ready env d data rs = some r ∧
      (r.dep._waiting_num = 0 →
        (data = some d._target → r.dep._ready = (d._established || satisfied env d)) ∧
        (data = some d._target → flag_consistent env d → r.dep._ready = satisfied env d) ∧
        (data ≠ some d._target →
          r.dep._ready = (r.dep._established && env.data_ready d._target)) ∧
        notifications r.events = [Event.vertex_ready v] ∧
        (pushes r.events = if env.vertex_ready v then [Event.emplace_back v] else []) ∧
        r.runnable_vertexes = if env.vertex_ready v then rs ++ [v] else rs) ∧
      (r.dep._waiting_num ≠ 0 →
        r.dep._ready = d._ready ∧ notifications r.events = [] ∧ pushes r.events = [] ∧
        r.runnable_vertexes =
          if recursive_activations r.events = [] then rs
          else (env.recursive_activate d._target v rs).2) := by
  unfold ready flag_consistent
  apply ready_enter_cases env d data rs
    (fun o => ∃ r, o.map (fun m => ready_leave env m.dep data m) = some r ∧
      (r.dep._waiting_num = 0 →
        (data = some d._target → r.dep._ready = (d._established || satisfied env d)) ∧
        (data = some d._target → (d._established = true → satisfied env d = true) →
          r.dep._ready = satisfied env d) ∧
        (data ≠ some d._target →
          r.dep._ready = (r.dep._established && env.data_ready d._target)) ∧
        notifications r.events = [Event.vertex_ready v] ∧
        (pushes r.events = if env.vertex_ready v then [Event.emplace_back v] else []) ∧
        r.runnable_vertexes = if env.vertex_ready v then rs ++ [v] else rs) ∧
      (r.dep._waiting_num ≠ 0 →
        r.dep._ready = d._ready ∧ notifications r.events = [] ∧ pushes r.events = [] ∧
        r.runnable_vertexes =
          if recursive_activations r.events = [] then rs
          else (env.recursive_activate d._target v rs).2))
  case other =>
    intro hd
    by_cases h0 : post_sub d = 0
    · by_cases hdt : data = some d._target
      · cases hvr : env.vertex_ready v <;> cases hE : d._established <;>
          cases hS : condition_holds env d._condition d._establish_value <;>
          simp [ready_leave, ready_final_target, h0, hv, hdt, hvr, hE, hS]
      · cases hvr : env.vertex_ready v <;> cases hE : d._established <;>
          simp [ready_leave, ready_final_other, h0, hv, hdt, hvr, hE]
    · simp [ready_leave, ready_final_nonzero, h0]
  case unestablished =>
    intro hd hE hS
    simp only [satisfied] at hS
    by_cases h0 : post_sub d = 0
    · by_cases hdt : data = some d._target
      · have hdt2 : d._condition = some d._target := by rw [← hd]; exact hdt
        simp only [hdt2] at hS
        cases hvr : env.vertex_ready v <;>
          simp [ready_leave, ready_final_target, h0, hv, hdt, hdt2, hvr, hE, hS]
      · cases hvr : env.vertex_ready v <;>
          simp [ready_leave, ready_final_other, h0, hv, hdt, hvr, hE]
    · by_cases h2 : wrap64 (post_sub d - 1) = 0
      · by_cases hdt : data = some d._target
        · have hdt2 : d._condition = some d._target := by rw [← hd]; exact hdt
          simp only [hdt2] at hS
          cases hvr : env.vertex_ready v <;>
            simp [ready_leave, ready_final_target, h0, h2, hv, hdt, hdt2, hvr, hE, hS]
        · cases hvr : env.vertex_ready v <;>
            simp [ready_leave, ready_final_other, h0, h2, hv, hdt, hvr, hE]
      · simp [ready_leave, ready_final_nonzero, h0, h2]
  case established =>
    intro hd hE h1
    simp only [satisfied] at hE
    by_cases h0 : post_sub d = 0
    · by_cases hdt : data = some d._target
      · have hdt2 : d._condition = some d._target := by rw [← hd]; exact hdt
        simp only [hdt2] at hE
        cases hvr : env.vertex_ready v <;>
          cases hE1 : d._established <;>
          cases hS1 : condition_holds env (some d._target) d._establish_value <;>
          simp_all [ready_leave, ready_final_target]
      · cases hvr : env.vertex_ready v <;>
          simp [ready_leave, ready_final_other, h0, hv, hdt, hvr]
    · simp [ready_leave, ready_final_nonzero, h0]
  case null_source => intros; simp_all
  all_goals intro w hd hE h1 hg hw
  all_goals intros
  all_goals simp only [satisfied] at hE
  all_goals simp_all [ready_leave, ready_final_nonzero]

/-- Witness of C6 as amended: `ready(target)` on the activated `plain_edge` ends with
`_waiting_num = 0`, invokes `_source->ready(this)` once and pushes the source vertex. -/
theorem C6_completion_cascade_witness :
    ∃ r, ready env_grant { plain_edge with _waiting_num := 1 } (some 1) [] = some r ∧
      r.dep._waiting_num = 0 ∧ notifications r.events = [Event.vertex_ready 0] ∧
      r.runnable_vertexes = [0] := by
  obtain ⟨r, h1, h2, _⟩ :=
    C6_completion_cascade env_grant { plain_edge with _waiting_num := 1 } (some 1) [] 0 rfl
  have h0 : r.dep._waiting_num = 0 := by
    have h3 : ready env_grant { plain_edge with _waiting_num := 1 } (some 1) [] =
        some (ready_leave env_grant { plain_edge with _waiting_num := 0 } (some 1)
          ⟨{ plain_edge with _waiting_num := 0 }, [], [Event.fetch_sub 1], 0, false,
            false⟩) := by
      rfl
    rw [h3] at h1
    simp only [Option.some.injEq] at h1
    rw [← h1]
    rfl
  exact ⟨r, h1, h0, (h2 h0).2.2.2.1, (h2 h0).2.2.2.2.2⟩

/-- Counterexample to C7 as stated: the condition of the freshly reset `conditional_edge`
completes, unsatisfied, before the activation.  The value after the first `fetch_sub` is
-1, which is not at least 1, and the second `fetch_sub` is made all the same: the counter
ends at -2. -/
theorem C7_ready_decrements_counterexample :
    post_sub conditional_edge = -1 ∧
    (ready env_false conditional_edge (some 2) []).map
        (fun r => (counter_ops r.events, r.dep._waiting_num))
      = some ([Event.fetch_sub 1, Event.fetch_sub 1], -2) := by
  decide

/-- C7 as amended, decrements on completion.  `ready(data)` with `data` other than the
condition makes exactly one `fetch_sub(1)`.  `ready(condition)` makes one, and a second one
exactly when `check_established()` returned false and the value after the first subtraction
is nonzero, positive or negative; otherwise there is no second decrement.  The edge ends with
the value after the last subtraction, which is the old value minus 1, respectively minus 2,
as long as `int64_t` does not wrap.  The call returns whenever the edge has a source
vertex. -/
theorem C7_ready_decrements (env : Env) (d : GraphDependency) (data : Option Nat) (rs : List Nat) :
    (d._source ≠ none → ready env d data rs ≠ none) ∧
    (∀ r, ready env d data rs = some r →
      (data ≠ d._condition →
        counter_ops r.events = [Event.fetch_sub 1] ∧ r.dep._waiting_num = post_sub d) ∧
      (data = d._condition →
        (counter_ops r.events = [Event.fetch_sub 1, Event.fetch_sub 1] ↔
          ((check_established env d).2.1 = false ∧ post_sub d ≠ 0)) ∧
        (((check_established env d).2.1 = false ∧ post_sub d ≠ 0) →
          r.dep._waiting_num = wrap64 (post_sub d - 1)) ∧
        (¬ ((check_established env d).2.1 = false ∧ post_sub d ≠ 0) →
          counter_ops r.events = [Event.fetch_sub 1] ∧ r.dep._waiting_num = post_sub d))) ∧
    (-9223372036854775806 ≤ d._waiting_num → d._waiting_num ≤ 9223372036854775807 →
      post_sub d = d._waiting_num - 1 ∧ wrap64 (post_sub d - 1) = d._waiting_num - 2) := by
  refine ⟨?_, ?_, ?_⟩
  · intro hs
    unfold ready
    apply ready_enter_cases env d data rs
      (fun o => o.map (fun m => ready_leave env m.dep data m) ≠ none)
    all_goals intros
    all_goals simp_all
  · simp only [check_established_flag]
    unfold ready
    apply ready_enter_cases env d data rs
      (fun o => ∀ r, o.map (fun m => ready_leave env m.dep data m) = some r →
        (data ≠ d._condition →
          counter_ops r.events = [Event.fetch_sub 1] ∧ r.dep._waiting_num = post_sub d) ∧
        (data = d._condition →
          (counter_ops r.events = [Event.fetch_sub 1, Event.fetch_sub 1] ↔
            ((d._established || satisfied env d) = false ∧ post_sub d ≠ 0)) ∧
          (((d._established || satisfied env d) = false ∧ post_sub d ≠ 0) →
            r.dep._waiting_num = wrap64 (post_sub d - 1)) ∧
          (¬ ((d._established || satisfied env d) = false ∧ post_sub d ≠ 0) →
            counter_ops r.events = [Event.fetch_sub 1] ∧ r.dep._waiting_num = post_sub d)))
    case other =>
      intro hd r hr
      simp only [Option.map_some', Option.some.injEq] at hr
      subst hr
      by_cases h0 : post_sub d = 0
      · cases hsrc : d._source with
        | none => simp [ready_leave, ready_final_null, hd, h0, hsrc]
        | some v =>
          by_cases hdt : data = some d._target
          · cases hvr : env.vertex_ready v <;>
              simp [ready_leave, ready_final_target, hd, h0, hsrc, hdt, hvr]
          · cases hvr : env.vertex_ready v <;> cases hE : d._established <;>
              simp [ready_leave, ready_final_other, hd, h0, hsrc, hdt, hvr, hE]
      · simp [ready_leave, ready_final_nonzero, hd, h0]
    case unestablished =>
      intro hd hE hS r hr
      simp only [Option.map_some', Option.some.injEq] at hr
      subst hr
      simp only [satisfied] at hS
      by_cases h0 : post_sub d = 0
      · cases hsrc : d._source with
        | none => simp [ready_leave, ready_final_null, hd, h0, hsrc, hE, hS]
        | some v =>
          by_cases hdt : d._condition = some d._target
          · simp only [hdt] at hS
            cases hvr : env.vertex_ready v <;>
              simp [ready_leave, ready_final_target, hd, h0, hsrc, hdt, hvr, hE, hS]
          · cases hvr : env.vertex_ready v <;>
              simp [ready_leave, ready_final_other, hd, h0, hsrc, hdt, hvr, hE, hS]
      · by_cases h2 : wrap64 (post_sub d - 1) = 0
        · cases hsrc : d._source with
          | none => simp [ready_leave, ready_final_null, hd, h0, h2, hsrc, hE, hS]
          | some v =>
            by_cases hdt : d._condition = some d._target
            · simp only [hdt] at hS
              cases hvr : env.vertex_ready v <;>
                simp [ready_leave, ready_final_target, hd, h0, h2, hsrc, hdt, hvr, hE, hS]
            · cases hvr : env.vertex_ready v <;>
                simp [ready_leave, ready_final_other, hd, h0, h2, hsrc, hdt, hvr, hE, hS]
        · simp [ready_leave, ready_final_nonzero, hd, h0, h2, hE, hS]
    case established =>
      intro hd hE h1 r hr
      simp only [Option.map_some', Option.some.injEq] at hr
      subst hr
      simp only [satisfied] at hE
      by_cases h0 : post_sub d = 0
      · cases hsrc : d._source with
        | none => simp [ready_leave, ready_final_null, hd, h0, hsrc, hE]
        | some v =>
          by_cases hdt : d._condition = some d._target
          · simp only [hdt] at hE
            cases hvr : env.vertex_ready v <;>
              simp [ready_leave, ready_final_target, hd, h0, hsrc, hdt, hvr, hE]
          · cases hvr : env.vertex_ready v <;>
              simp [ready_leave, ready_final_other, hd, h0, hsrc, hdt, hvr, hE]
      · simp [ready_leave, ready_final_nonzero, hd, h0, hE]
    case null_source => intros; simp_all
    all_goals intro v hd hE h1 hg hv
    all_goals intros
    all_goals rename_i r hr
    all_goals simp only [Option.map_some', Option.some.injEq] at hr
    all_goals subst hr
    all_goals simp only [satisfied] at hE
    all_goals cases hE1 : d._established <;>
      cases hS1 : condition_holds env d._condition d._establish_value <;>
      simp_all [ready_leave, ready_final_nonzero]
  · intro h1 h2
    have e1 : post_sub d = d._waiting_num - 1 := by
      unfold post_sub
      exact wrap64_of_range _ (by omega) (by omega)
    rw [e1]
    exact ⟨rfl, by rw [wrap64_of_range _ (by omega) (by omega)]; omega⟩

/-- Witness of C7 as amended: `ready(condition)` on `conditional_edge` under a false
condition returns, and its decrements follow the rule. -/
theorem C7_ready_decrements_witness :
    ready env_false conditional_edge (some 2) [] ≠ none ∧
    (post_sub conditional_edge = conditional_edge._waiting_num - 1 ∧
      wrap64 (post_sub conditional_edge - 1) = conditional_edge._waiting_num - 2) :=
  ⟨(C7_ready_decrements env_false conditional_edge (some 2) []).1 (by decide),
    (C7_ready_decrements env_false conditional_edge (some 2) []).2.2 (by decide) (by decide)⟩

/-- C8, failure propagation from `ready(condition)`.  For every call `ready(condition,
runnable)` on an edge with the source vertex `v` in which `check_established()` returns true
and the value after the subtraction is 1: exactly one reservation on the target is attempted
(`acquire_mutable_depend` iff the edge is mutable); if it is refused, the closure of `v` is
finished with -1 and `recursive_activate` is not called; if it is granted,
`target.recursive_activate(runnable, v->closure())` is called once, and the closure is
finished with its result `r` when `r` is nonzero and not finished when it is zero.  In
every case `_ready` is not modified, `v->ready(this)` is not called and nothing is pushed to
`runnable` by the call. -/
theorem C8_ready_condition_failure (env : Env) (d : GraphDependency) (data : Option Nat)
    (rs : List Nat) (v : Nat)
    (hd : data = d._condition) (hv : d._source = some v)
    (he : (check_established env d).2.1 = true) (h1 : post_sub d = 1) :
    ∃ r, ready env d data rs = some r ∧
      reservations r.events = [wanted_reservation d] ∧
      (granted env d = false →
        finishes r.events = [Event.closure_finish v (-1)] ∧
        recursive_activations r.events = []) ∧
      (granted env d = true →
        recursive_activations r.events = [Event.recursive_activate d._target v] ∧
        finishes r.events =
          if (env.recursive_activate d._target v rs).1 ≠ 0 then
            [Event.closure_finish v (env.recursive_activate d._target v rs).1]
          else []) ∧
      r.dep._ready = d._ready ∧ notifications r.events = [] ∧ pushes r.events = [] := by
  rw [check_established_flag] at he
  unfold ready
  apply ready_enter_cases env d data rs
    (fun o => ∃ r, o.map (fun m => ready_leave env m.dep data m) = some r ∧
      reservations r.events = [wanted_reservation d] ∧
      (granted env d = false →
        finishes r.events = [Event.closure_finish v (-1)] ∧
        recursive_activations r.events = []) ∧
      (granted env d = true →
        recursive_activations r.events = [Event.recursive_activate d._target v] ∧
        finishes r.events =
          if (env.recursive_activate d._target v rs).1 ≠ 0 then
            [Event.closure_finish v (env.recursive_activate d._target v rs).1]
          else []) ∧
      r.dep._ready = d._ready ∧ notifications r.events = [] ∧ pushes r.events = [])
  all_goals intros
  all_goals simp_all [ready_leave, ready_final_nonzero]

/-- Witness of C8: the condition of the activated `conditional_edge` completes and holds. -/
theorem C8_ready_condition_failure_witness :
    ∃ r, ready env_grant { conditional_edge with _waiting_num := 2 } (some 2) [] = some r ∧
      reservations r.events = [Event.acquire_immutable_depend 1] ∧
      r.dep._ready = false ∧ notifications r.events = [] ∧ pushes r.events = [] := by
  obtain ⟨r, h1, h2, _, _, h5, h6, h7⟩ :=
    C8_ready_condition_failure env_grant { conditional_edge with _waiting_num := 2 } (some 2)
      [] 0 rfl rfl (by decide) (by decide)
  exact ⟨r, h1, h2, h5, h6, h7⟩

/-- C9, the extreme values of `activate`.  When the value after the `fetch_add` is -1,
`activate` triggers nothing, attempts no reservation, leaves `_established` and `_ready`
unchanged and returns 1.  When it is 2, on an edge with the condition `c`, `activate` calls
`trigger(c)` exactly once, does not trigger the target, attempts no reservation, leaves
`_established` and `_ready` unchanged and returns 0. -/
theorem C9_activate_extreme_cases (env : Env) (d : GraphDependency) :
    (post_add d = -1 →
      ∃ r, activate env d = some r ∧ triggers r.events = [] ∧ reservations r.events = [] ∧
        r.dep._established = d._established ∧ r.dep._ready = d._ready ∧ r.ret = 1) ∧
    (post_add d = 2 → ∀ c, d._condition = some c →
      ∃ r, activate env d = some r ∧ triggers r.events = [Event.trigger c] ∧
        reservations r.events = [] ∧ r.dep._established = d._established ∧
        r.dep._ready = d._ready ∧ r.ret = 0) := by
  constructor
  · intro h
    rw [activate_neg_one env d h]
    simp
  · intro h c hc
    rw [activate_two_some env d c h hc]
    simp

/-- Witness of C9 on the freshly reset `conditional_edge`, whose activation observes 2. -/
theorem C9_activate_extreme_cases_witness :
    ∃ r, activate env_grant conditional_edge = some r ∧
      triggers r.events = [Event.trigger 2] ∧ reservations r.events = [] ∧
      r.dep._established = false ∧ r.dep._ready = false ∧ r.ret = 0 :=
  (C9_activate_extreme_cases env_grant conditional_edge).2 (by decide) 2 rfl

/-- C10, not-ready access.  For every edge whose `_ready` is false, whatever its target
holds: `value<T>()` returns null, `mutable_value<T>()` returns null and `as<T>()` returns
`static_cast<T>(0)`, and none of them makes any call on the target. -/
theorem C10_not_ready_access {T : Type} [Zero T] (view : DataView T) (d : GraphDependency)
    (h : d._ready = false) :
    value view d = (none, []) ∧ mutable_value view d = (none, []) ∧ as view d = (0, []) := by
  simp [value, mutable_value, as, h]

/-- Witness of C10 on `plain_edge`, whose target holds 7. -/
theorem C10_not_ready_access_witness :
    value view_seven plain_edge = (none, []) ∧
      mutable_value view_seven plain_edge = (none, []) ∧
      as view_seven plain_edge = (0, []) :=
  C10_not_ready_access view_seven plain_edge rfl


/-! ## Introspection -/

theorem emplace_back_all (view : ProducerView) (producers : List Nat) (names : List String) :
    producers.foldl (fun names producer => names ++ [view.name producer]) names =
      names ++ producers.map view.name := by
  induction producers generalizing names with
  | nil => simp
  | cons p ps ih => simp [ih]

/-! ## Single calls and sequences of calls -/

theorem reset_fresh_edge (d : GraphDependency) :
    reset d =
      fresh_edge d._source d._target d._condition d._establish_value d._mutable d._essential :=
  rfl

theorem reset_same_edge {d e : GraphDependency} (h : same_edge d e) : reset e = reset d := by
  rcases d with ⟨s1, t1, c1, v1, m1, e1, w1, x1, r1⟩
  rcases e with ⟨s2, t2, c2, v2, m2, e2, w2, x2, r2⟩
  simp only [same_edge] at h
  obtain ⟨h1, h2, h3, h4, h5, h6⟩ := h
  subst h1 h2 h3 h4 h5 h6
  rfl

theorem activate_flags (env : Env) (d : GraphDependency) (r : ActivateResult)
    (h : activate env d = some r) :
    ((d._ready = true → d._established = true) →
      r.dep._ready = true → r.dep._established = true) ∧
    (r.dep._established = true → d._established = true ∨ checked env d r.events) := by
  revert r
  apply activate_cases env d
    (fun o => ∀ r, o = some r →
      ((d._ready = true → d._established = true) →
        r.dep._ready = true → r.dep._established = true) ∧
      (r.dep._established = true → d._established = true ∨ checked env d r.events))
  all_goals intros
  all_goals rename_i r hr
  all_goals simp only [Option.some.injEq, reduceCtorEq] at hr
  all_goals (try subst hr)
  all_goals simp_all [checked, condition_holds, condition_read]
  all_goals
    cases hc : d._condition <;> simp_all [condition_holds, condition_read]

theorem checked_same {d e : GraphDependency} (env : Env) (es : List Event)
    (h : same_edge d e) : checked env e es ↔ checked env d es := by
  unfold checked
  rw [h.2.2.1, h.2.2.2.1]

theorem checked_append_left (env : Env) (d : GraphDependency) (es fs : List Event)
    (h : checked env d es) : checked env d (es ++ fs) := by
  rcases h with h | ⟨c, h1, h2, h3⟩
  · exact Or.inl h
  · exact Or.inr ⟨c, h1, List.mem_append_left _ h2, h3⟩

theorem ready_enter_flags (env : Env) (d : GraphDependency) (data : Option Nat)
    (rs : List Nat) (m : ReadyMid) (h : ready_enter env d data rs = some m) :
    same_edge d m.dep ∧ m.dep._ready = d._ready ∧
    (d._established = true → m.dep._established = true) ∧
    (m.dep._established = true → d._established = true ∨ checked env d m.events) := by
  revert m
  apply ready_enter_cases env d data rs
    (fun o => ∀ m, o = some m →
      same_edge d m.dep ∧ m.dep._ready = d._ready ∧
      (d._established = true → m.dep._established = true) ∧
      (m.dep._established = true → d._established = true ∨ checked env d m.events))
  all_goals intros
  all_goals rename_i m hm
  all_goals simp only [Option.some.injEq, reduceCtorEq] at hm
  all_goals (try subst hm)
  all_goals simp_all [same_edge, checked, condition_holds, condition_read]
  all_goals
    cases hc : d._condition <;> simp_all [condition_holds, condition_read]

theorem ready_final_flags (env : Env) (d : GraphDependency) (data : Option Nat) (w : Int)
    (rs : List Nat) (es : List Event) :
    same_edge d (ready_final env d data w rs es).dep ∧
    ((d._ready = true → d._established = true) →
      (ready_final env d data w rs es).dep._ready = true →
      (ready_final env d data w rs es).dep._established = true) ∧
    ((ready_final env d data w rs es).dep._established = true →
      d._established = true ∨ checked env d (ready_final env d data w rs es).events) ∧
    (∀ e, e ∈ es → e ∈ (ready_final env d data w rs es).events) := by
  by_cases hw : w = 0
  · subst hw
    cases hsrc : d._source with
    | none =>
      simp only [ready_final_null, hsrc, same_edge]
      simp
      tauto
    | some v =>
      by_cases hdt : data = some d._target
      · rw [ready_final_target env d data rs es v hsrc hdt]
        cases hE : d._established <;> cases hc : d._condition <;>
          simp_all [same_edge, checked, condition_holds, condition_read]
      · rw [ready_final_other env d data rs es v hsrc hdt]
        cases hE : d._established <;>
          simp_all [same_edge, checked]
  · rw [ready_final_nonzero env d data w rs es hw]
    simp only [same_edge]
    simp
    tauto

theorem ready_leave_flags (env : Env) (d : GraphDependency) (data : Option Nat) (m : ReadyMid) :
    same_edge d (ready_leave env d data m).dep ∧
    ((d._ready = true → d._established = true) →
      (ready_leave env d data m).dep._ready = true →
      (ready_leave env d data m).dep._established = true) ∧
    ((ready_leave env d data m).dep._established = true →
      d._established = true ∨ checked env d (ready_leave env d data m).events) ∧
    (∀ e, e ∈ m.events → e ∈ (ready_leave env d data m).events) := by
  unfold ready_leave
  cases hret : m.returned
  · cases hsec : m.second_sub
    · have h := ready_final_flags env d data m.waiting_num m.runnable_vertexes m.events
      simpa using h
    · have h := ready_final_flags env { d with _waiting_num := post_sub d } data (post_sub d)
        m.runnable_vertexes (m.events ++ [Event.fetch_sub 1])
      simp only [same_edge, checked] at h ⊢
      obtain ⟨h1, h2, h3, h4⟩ := h
      refine ⟨by simpa using h1, by simpa using h2, by simpa using h3, ?_⟩
      intro e he
      exact h4 e (List.mem_append_left _ he)
  · simp only [same_edge]
    simp
    tauto

theorem ready_flags (env : Env) (d : GraphDependency) (data : Option Nat) (rs : List Nat)
    (r : ReadyResult) (h : ready env d data rs = some r) :
    same_edge d r.dep ∧
    ((d._ready = true → d._established = true) →
      r.dep._ready = true → r.dep._established = true) ∧
    (r.dep._established = true → d._established = true ∨ checked env d r.events) := by
  unfold ready at h
  simp only [Option.map_eq_some'] at h
  obtain ⟨m, hm, hr⟩ := h
  subst hr
  obtain ⟨e1, e2, e3, e4⟩ := ready_enter_flags env d data rs m hm
  obtain ⟨l1, l2, l3, l4⟩ := ready_leave_flags env m.dep data m
  refine ⟨same_edge_trans e1 l1, ?_, ?_⟩
  · intro hd
    apply l2
    intro hmr
    rw [e2] at hmr
    exact e3 (hd hmr)
  · intro hest
    rcases l3 hest with hme | hch
    · rcases e4 hme with hde | hch
      · exact Or.inl hde
      · right
        rcases hch with hn | ⟨c, hc1, hc2, hc3⟩
        · exact Or.inl hn
        · exact Or.inr ⟨c, hc1, l4 _ hc2, hc3⟩
    · exact Or.inr ((checked_same env _ e1).mp hch)

theorem perform_flags (c : Call) (d d1 : GraphDependency) (o : CallOutput)
    (h : perform c d = some (d1, o)) :
    same_edge d d1 ∧
    ((d._ready = true → d._established = true) →
      d1._ready = true → d1._established = true) ∧
    (d1._established = true → d._established = true ∨ checked c.env d o.events) := by
  cases c with
  | activate env =>
    simp only [perform, Option.map_eq_some', Prod.mk.injEq] at h
    obtain ⟨r, hr, h1, h2⟩ := h
    subst h1 h2
    have hf := activate_flags env d r hr
    exact ⟨(activate_effect env d r hr).1, hf.1, hf.2⟩
  | ready env data rs =>
    simp only [perform, Option.map_eq_some', Prod.mk.injEq] at h
    obtain ⟨r, hr, h1, h2⟩ := h
    subst h1 h2
    exact ready_flags env d data rs r hr
  | check_established env =>
    simp only [perform, Option.some.injEq, Prod.mk.injEq] at h
    obtain ⟨h1, h2⟩ := h
    subst h1 h2
    simp only [check_established_dep, check_established_events, Call.env]
    cases hE : d._established <;> cases hc : d._condition <;>
      simp_all [same_edge, checked, condition_holds, condition_read]

theorem replay_flags (calls : List Call) :
    ∀ (d final : GraphDependency) (outs : List CallOutput),
      replay d calls = some (final, outs) →
      same_edge d final ∧
      ((d._ready = true → d._established = true) →
        final._ready = true → final._established = true) ∧
      (final._established = true → d._established = true ∨
        ∃ call out, (call, out) ∈ calls.zip outs ∧ checked call.env d out.events) := by
  induction calls with
  | nil =>
    intro d final outs h
    simp only [replay, Option.some.injEq, Prod.mk.injEq] at h
    obtain ⟨h1, h2⟩ := h
    subst h1 h2
    exact ⟨same_edge_refl d, fun hd => hd, fun he => Or.inl he⟩
  | cons c cs ih =>
    intro d final outs h
    simp only [replay] at h
    cases hp : perform c d with
    | none => simp [hp] at h
    | some p =>
      obtain ⟨d1, o⟩ := p
      simp only [hp, Option.map_eq_some', Prod.mk.injEq] at h
      obtain ⟨q, hq, h1, h2⟩ := h
      obtain ⟨q1, q2⟩ := q
      simp only at h1 h2
      subst h1 h2
      obtain ⟨p1, p2, p3⟩ := perform_flags c d d1 o hp
      obtain ⟨r1, r2, r3⟩ := ih d1 q1 q2 hq
      refine ⟨same_edge_trans p1 r1, fun hd => r2 (p2 hd), ?_⟩
      intro hest
      rcases r3 hest with h1 | ⟨call, out, hmem, hch⟩
      · rcases p3 h1 with h0 | hch
        · exact Or.inl h0
        · exact Or.inr ⟨c, o, by simp, hch⟩
      · refine Or.inr ⟨call, out, ?_, (checked_same call.env _ p1).mp hch⟩
        simp only [List.zip_cons_cons, List.mem_cons]
        exact Or.inr hmem

/-! ## Reservations made by `activate` against the state of the target -/

theorem activate_reservation (env : Env) (d : GraphDependency) (r : ActivateResult)
    (h : activate env d = some r) :
    (reservations r.events ≠ [] →
      reservations r.events = [wanted_reservation d] ∧
      (granted env d = true → r.ret ≠ -1) ∧
      (granted env d = false → r.ret = -1 ∧ triggers r.events = [])) ∧
    (d._condition = none → post_add d = 0 ∨ post_add d = 1 →
      reservations r.events ≠ []) := by
  revert r
  apply activate_cases env d
    (fun o => ∀ r, o = some r →
      (reservations r.events ≠ [] →
        reservations r.events = [wanted_reservation d] ∧
        (granted env d = true → r.ret ≠ -1) ∧
        (granted env d = false → r.ret = -1 ∧ triggers r.events = [])) ∧
      (d._condition = none → post_add d = 0 ∨ post_add d = 1 → reservations r.events ≠ []))
  all_goals intros
  all_goals rename_i r hr
  all_goals simp only [Option.some.injEq, reduceCtorEq] at hr
  all_goals (try subst hr)
  all_goals simp_all [condition_holds]
  all_goals
    cases hc : d._condition <;> simp_all

theorem activate_unconditional_defined (env : Env) (d : GraphDependency)
    (hc : d._condition = none) (hp : post_add d = 0 ∨ post_add d = 1) :
    activate env d ≠ none := by
  apply activate_cases env d (fun o => o ≠ none)
  all_goals intros
  all_goals simp_all

theorem record_reservations (es : List Event) :
    ∀ w : Nat → Reservation,
      Reservation.record w es = Reservation.record w (reservations es) := by
  induction es with
  | nil => intro w; rfl
  | cons e es ih =>
    intro w
    cases e <;> simp [Reservation.record, ih] <;> rfl

theorem record_wanted (w : Nat → Reservation) (d : GraphDependency) :
    Reservation.record w [wanted_reservation d] d._target =
      if d._mutable then (w d._target).acquire_mutable_depend.2
      else (w d._target).acquire_immutable_depend.2 := by
  cases hm : d._mutable <;> simp [reservation_call, hm, Reservation.record]

theorem granted_reserving (env : Env) (w : Nat → Reservation) (d : GraphDependency) :
    granted (env_reserving env w) d =
      if d._mutable then (w d._target).acquire_mutable_depend.1
      else (w d._target).acquire_immutable_depend.1 := by
  cases hm : d._mutable <;> simp [reservation_answer, env_reserving, hm]

theorem activate_reserving_pair (env1 env2 : Env) (e1 e2 : GraphDependency)
    (r1 r2 : ActivateResult) (w w1 w2 : Nat → Reservation)
    (hfree : w e1._target = Reservation.free)
    (htarget : e2._target = e1._target) (hexcl : e1._mutable = true ∨ e2._mutable = true)
    (h1 : activate_reserving env1 w e1 = some (r1, w1))
    (h2 : activate_reserving env2 w1 e2 = some (r2, w2))
    (ha1 : reservations r1.events ≠ []) (ha2 : reservations r2.events ≠ []) :
    r1.ret ≠ -1 ∧ r2.ret = -1 ∧ triggers r2.events = [] := by
  simp only [activate_reserving, Option.map_eq_some', Prod.mk.injEq] at h1 h2
  obtain ⟨q1, hq1, hr1, hs1⟩ := h1
  obtain ⟨q2, hq2, hr2, _⟩ := h2
  subst hr1 hr2
  obtain ⟨a1, _⟩ := activate_reservation _ e1 q1 hq1
  obtain ⟨a2, _⟩ := activate_reservation _ e2 q2 hq2
  obtain ⟨b1, b2, _⟩ := a1 ha1
  obtain ⟨_, _, c3⟩ := a2 ha2
  have hg1 : granted (env_reserving env1 w) e1 = true := by
    rw [granted_reserving, hfree]
    cases e1._mutable <;> rfl
  have hs1' : w1 e2._target = if e1._mutable then Reservation.free.acquire_mutable_depend.2
      else Reservation.free.acquire_immutable_depend.2 := by
    rw [← hs1, record_reservations, b1, htarget, record_wanted, hfree]
  have hg2 : granted (env_reserving env2 w1) e2 = false := by
    rw [granted_reserving, hs1']
    rcases hexcl with hm | hm
    · rw [hm]
      cases e2._mutable <;> rfl
    · rw [hm]
      cases e1._mutable <;> rfl
  exact ⟨b2 hg1, (c3 hg2).1, (c3 hg2).2⟩

theorem activate_unreserved (env : Env) (d : GraphDependency) (r : ActivateResult)
    (h : activate env d = some r) (hnone : reservations r.events = []) : r.ret ≠ -1 := by
  revert r
  apply activate_cases env d
    (fun o => ∀ r, o = some r → reservations r.events = [] → r.ret ≠ -1)
  all_goals intros
  all_goals rename_i r hr hnone
  all_goals simp only [Option.some.injEq, reduceCtorEq] at hr
  all_goals (try subst hr)
  all_goals simp_all

theorem activate_attempts (env : Env) (d : GraphDependency) (r : ActivateResult)
    (h : activate env d = some r) :
    reservations r.events ≠ [] ↔
      (post_add d = 0 ∧ (d._established || satisfied env d) = true) ∨
      (post_add d = 1 ∧ (d._condition = none ∨
        ∃ c, d._condition = some c ∧ env.data_ready c = true ∧
          (d._established || satisfied env d) = true)) := by
  revert r
  apply activate_cases env d
    (fun o => ∀ r, o = some r →
      (reservations r.events ≠ [] ↔
        (post_add d = 0 ∧ (d._established || satisfied env d) = true) ∨
        (post_add d = 1 ∧ (d._condition = none ∨
          ∃ c, d._condition = some c ∧ env.data_ready c = true ∧
            (d._established || satisfied env d) = true))))
  all_goals intros
  all_goals rename_i r hr
  all_goals simp only [Option.some.injEq, reduceCtorEq] at hr
  all_goals (try subst hr)
  all_goals simp_all

theorem activate_reserving_outcome (env1 env2 : Env) (e1 e2 : GraphDependency)
    (r1 r2 : ActivateResult) (w w1 w2 : Nat → Reservation)
    (hfree : w e1._target = Reservation.free)
    (htarget : e2._target = e1._target) (hexcl : e1._mutable = true ∨ e2._mutable = true)
    (h1 : activate_reserving env1 w e1 = some (r1, w1))
    (h2 : activate_reserving env2 w1 e2 = some (r2, w2)) :
    r1.ret ≠ -1 ∧
    (r2.ret = -1 ↔ reservations r1.events ≠ [] ∧ reservations r2.events ≠ []) ∧
    (r2.ret = -1 → triggers r2.events = []) := by
  have g1 := h1
  have g2 := h2
  simp only [activate_reserving, Option.map_eq_some', Prod.mk.injEq] at g1 g2
  obtain ⟨q1, hq1, hr1, hs1⟩ := g1
  obtain ⟨q2, hq2, hr2, _⟩ := g2
  subst hr1 hr2
  have hg1 : granted (env_reserving env1 w) e1 = true := by
    rw [granted_reserving, hfree]
    cases e1._mutable <;> rfl
  have hfirst : q1.ret ≠ -1 := by
    by_cases ha1 : reservations q1.events = []
    · exact activate_unreserved _ e1 q1 hq1 ha1
    · exact ((activate_reservation _ e1 q1 hq1).1 ha1).2.1 hg1
  have hsecond : q2.ret = -1 →
      reservations q1.events ≠ [] ∧ reservations q2.events ≠ [] := by
    intro hret
    have ha2 : reservations q2.events ≠ [] :=
      fun hn => activate_unreserved _ e2 q2 hq2 hn hret
    refine ⟨?_, ha2⟩
    intro ha1
    have hw1 : w1 e2._target = Reservation.free := by
      rw [← hs1, record_reservations, ha1, htarget]
      exact hfree
    have hg2 : granted (env_reserving env2 w1) e2 = true := by
      rw [granted_reserving, hw1]
      cases e2._mutable <;> rfl
    exact ((activate_reservation _ e2 q2 hq2).1 ha2).2.1 hg2 hret
  refine ⟨hfirst, ⟨hsecond, ?_⟩, ?_⟩
  · intro hboth
    exact (activate_reserving_pair env1 env2 e1 e2 q1 q2 w w1 w2 hfree htarget hexcl h1 h2
      hboth.1 hboth.2).2.1
  · intro hret
    obtain ⟨ha1, ha2⟩ := hsecond hret
    exact (activate_reserving_pair env1 env2 e1 e2 q1 q2 w w1 w2 hfree htarget hexcl h1 h2
      ha1 ha2).2.2

/-! ## The counter before the activation -/

theorem subs_nonneg (cs : CallState) : 0 ≤ cs.subs := by
  unfold CallState.subs
  omega

theorem counted_start (d : GraphDependency) : Counted d (start d) := by
  constructor <;>
    simp [start, reset, same_edge, CallState.subs, CallState.events]

theorem step_before (mv : Move) (x y : Execution) (h : step mv x = some y)
    (hy : y.activated = none) : x.activated = none ∧ mv.actor ≠ Actor.activator := by
  unfold step at h
  cases ha : mv.actor with
  | activator =>
    rw [ha] at h
    cases hx : x.activated with
    | some r =>
      simp only [hx, Option.some.injEq] at h
      rw [← h, hx] at hy
      cases hy
    | none =>
      simp only [hx, Option.map_eq_some'] at h
      obtain ⟨r, _, hr⟩ := h
      rw [← hr] at hy
      cases hy
  | target_completer =>
    rw [ha] at h
    simp only [Option.map_eq_some'] at h
    obtain ⟨p, _, hp⟩ := h
    rw [← hp] at hy
    exact ⟨hy, by simp⟩
  | condition_completer =>
    rw [ha] at h
    cases hc : x.dep._condition with
    | none =>
      simp only [hc, Option.some.injEq] at h
      rw [← h] at hy
      exact ⟨hy, by simp⟩
    | some c =>
      simp only [hc, Option.map_eq_some'] at h
      obtain ⟨p, _, hp⟩ := h
      rw [← hp] at hy
      exact ⟨hy, by simp⟩

theorem run_before (schedule : List Move) :
    ∀ x y, run x schedule = some y → y.activated = none → x.activated = none := by
  induction schedule with
  | nil =>
    intro x y h hy
    simp only [run, Option.some.injEq] at h
    rw [h]; exact hy
  | cons mv rest ih =>
    intro x y h hy
    simp only [run, Option.bind_eq_some] at h
    obtain ⟨z, hz, hrest⟩ := h
    exact (step_before mv x z hz (ih z y hrest hy)).1

theorem counted_post_sub {d : GraphDependency} {x : Execution} (h : Counted d x) :
    post_sub x.dep = x.dep._waiting_num - 1 := by
  have h1 := h.counter
  have h2 := h.target_subs
  have h3 := h.condition_subs
  have h4 := subs_nonneg x.target_call
  have h5 := subs_nonneg x.condition_call
  unfold post_sub
  exact wrap64_of_range _ (by omega) (by omega)

theorem step_counted (d : GraphDependency) (mv : Move) (x y : Execution)
    (hd : d._condition ≠ some d._target) (hinv : Counted d x) (h : step mv x = some y)
    (hy : y.activated = none) : Counted d y := by
  have hact := (step_before mv x y h hy).2
  have hps := counted_post_sub hinv
  have hcnt := hinv.counter
  have hts := hinv.target_subs
  have hcs := hinv.condition_subs
  unfold step at h
  cases ha : mv.actor with
  | activator => exact absurd ha hact
  | target_completer =>
    rw [ha] at h
    simp only [Option.map_eq_some'] at h
    obtain ⟨p, hp, hyp⟩ := h
    rw [← hyp]
    cases hT : x.target_call with
    | idle =>
      simp only [hT, step_call, Option.map_eq_some'] at hp
      obtain ⟨m, hm, hpm⟩ := hp
      rw [← hpm]
      have hd' : some x.dep._target ≠ x.dep._condition := by
        rw [hinv.edge.2.1, hinv.edge.2.2.1]
        exact fun e => hd e.symm
      obtain ⟨m', hm', he, hw, _, _, hc, _, hsec, _⟩ :=
        ready_enter_target_effect mv.env x.dep (some x.dep._target) mv.runnable_vertexes hd'
      rw [hm] at hm'
      simp only [Option.some.injEq] at hm'
      subst hm'
      have hT0 : x.target_call.subs = 0 := by rw [hT]; rfl
      have hT1 : (CallState.entered m).subs = 1 := by
        simp [CallState.subs, CallState.events, hc]
      rw [hps] at hw
      constructor
      · exact same_edge_trans hinv.edge he
      · exact hinv.before
      · show m.dep._waiting_num = - (CallState.entered m).subs - x.condition_call.subs
        omega
      · show (CallState.entered m).subs ≤ 1
        omega
      · intro m' hm'
        simp only [CallState.entered.injEq] at hm'
        subst hm'
        exact hsec
      · exact hinv.condition_none
      · exact hinv.condition_mid
      · exact hinv.condition_subs
    | entered m =>
      simp only [hT, step_call, Option.some.injEq] at hp
      rw [← hp]
      have hsec := hinv.target_mid m hT
      obtain ⟨he, hw, _, hc, _⟩ := ready_leave_effect mv.env x.dep (some x.dep._target) m
      simp only [hsec, Bool.false_eq_true, and_false, if_false, List.append_nil] at hw hc
      have hT1 : (CallState.finished (ready_leave mv.env x.dep (some x.dep._target) m)).subs =
          x.target_call.subs := by
        rw [hT]
        simp [CallState.subs, CallState.events, hc]
      constructor
      · exact same_edge_trans hinv.edge he
      · exact hinv.before
      · show (ready_leave mv.env x.dep (some x.dep._target) m).dep._waiting_num =
          - (CallState.finished (ready_leave mv.env x.dep (some x.dep._target) m)).subs
            - x.condition_call.subs
        omega
      · show (CallState.finished (ready_leave mv.env x.dep (some x.dep._target) m)).subs ≤ 1
        omega
      · intro m' hm'
        cases hm'
      · exact hinv.condition_none
      · exact hinv.condition_mid
      · exact hinv.condition_subs
    | finished r =>
      simp only [hT, step_call, Option.some.injEq] at hp
      rw [← hp]
      have : ({ x with dep := x.dep, target_call := CallState.finished r } : Execution) = x := by
        rw [← hT]
      rw [this]
      exact hinv
  | condition_completer =>
    rw [ha] at h
    cases hc : x.dep._condition with
    | none =>
      simp only [hc, Option.some.injEq] at h
      rw [← h]; exact hinv
    | some c =>
      have hdc : d._condition ≠ none := by
        rw [← hinv.edge.2.2.1, hc]
        simp
      simp only [hc, Option.map_eq_some'] at h
      obtain ⟨p, hp, hyp⟩ := h
      rw [← hyp]
      cases hC : x.condition_call with
      | idle =>
        simp only [hC, step_call, Option.map_eq_some'] at hp
        obtain ⟨m, hm, hpm⟩ := hp
        rw [← hpm]
        obtain ⟨he, hw, _, _, hco, _⟩ :=
          ready_enter_condition_effect mv.env x.dep (some c) mv.runnable_vertexes m hc.symm hm
        have hC0 : x.condition_call.subs = 0 := by rw [hC]; rfl
        have hC1 : (CallState.entered m).subs = 1 := by
          simp [CallState.subs, CallState.events, hco]
        rw [hps] at hw
        constructor
        · exact same_edge_trans hinv.edge he
        · exact hinv.before
        · show m.dep._waiting_num = - x.target_call.subs - (CallState.entered m).subs
          omega
        · exact hinv.target_subs
        · exact hinv.target_mid
        · intro hn
          exact absurd hn hdc
        · intro m' _
          exact hC1
        · show (CallState.entered m).subs ≤ 2
          omega
      | entered m =>
        simp only [hC, step_call, Option.some.injEq] at hp
        rw [← hp]
        have hC1 : x.condition_call.subs = 1 := hinv.condition_mid m hC
        have hm1 : (counter_ops m.events).length = 1 := by
          rw [hC] at hC1
          simp only [CallState.subs, CallState.events] at hC1
          omega
        obtain ⟨he, hw, _, hco, _⟩ := ready_leave_effect mv.env x.dep (some c) m
        rw [hps] at hw
        have hsubs : (CallState.finished (ready_leave mv.env x.dep (some c) m)).subs =
            if m.returned = false ∧ m.second_sub = true then 2 else 1 := by
          simp only [CallState.subs, CallState.events, hco, List.length_append, hm1]
          by_cases hb : m.returned = false ∧ m.second_sub = true
          · simp [hb]
          · simp [hb]
        constructor
        · exact same_edge_trans hinv.edge he
        · exact hinv.before
        · show (ready_leave mv.env x.dep (some c) m).dep._waiting_num =
            - x.target_call.subs - (CallState.finished (ready_leave mv.env x.dep (some c) m)).subs
          rw [hsubs, hw]
          by_cases hb : m.returned = false ∧ m.second_sub = true
          · simp only [hb, and_self, if_true]
            omega
          · simp only [hb, if_false]
            omega
        · exact hinv.target_subs
        · exact hinv.target_mid
        · intro hn
          exact absurd hn hdc
        · intro m' hm'
          cases hm'
        · show (CallState.finished (ready_leave mv.env x.dep (some c) m)).subs ≤ 2
          rw [hsubs]
          by_cases hb : m.returned = false ∧ m.second_sub = true
          · simp [hb]
          · simp [hb]
      | finished r =>
        simp only [hC, step_call, Option.some.injEq] at hp
        rw [← hp]
        have : ({ x with dep := x.dep, condition_call := CallState.finished r } : Execution)
            = x := by
          rw [← hC]
        rw [this]
        exact hinv

theorem run_counted (d : GraphDependency) (hd : d._condition ≠ some d._target)
    (schedule : List Move) :
    ∀ x y, Counted d x → run x schedule = some y → y.activated = none → Counted d y := by
  induction schedule with
  | nil =>
    intro x y hinv h _
    simp only [run, Option.some.injEq] at h
    rw [← h]; exact hinv
  | cons mv rest ih =>
    intro x y hinv h hy
    simp only [run, Option.bind_eq_some] at h
    obtain ⟨z, hz, hrest⟩ := h
    have hzb := run_before rest z y hrest hy
    exact ih z y (step_counted d mv x z hd hinv hz hzb) hrest hy

/-! ## `ready` on an edge without a source vertex -/

theorem ready_without_source (env : Env) (d : GraphDependency) (data : Option Nat)
    (rs : List Nat) (hs : d._source = none) :
    (ready env d data rs = none ↔
      data = d._condition ∧ (d._established || satisfied env d) = true ∧ post_sub d = 1) ∧
    ∀ r, ready env d data rs = some r →
      r.dep._ready = d._ready ∧ r.runnable_vertexes = rs ∧ finishes r.events = [] ∧
      notifications r.events = [] ∧ recursive_activations r.events = [] := by
  unfold ready
  apply ready_enter_cases env d data rs
    (fun o =>
      (o.map (fun m => ready_leave env m.dep data m) = none ↔
        data = d._condition ∧ (d._established || satisfied env d) = true ∧ post_sub d = 1) ∧
      ∀ r, o.map (fun m => ready_leave env m.dep data m) = some r →
        r.dep._ready = d._ready ∧ r.runnable_vertexes = rs ∧ finishes r.events = [] ∧
        notifications r.events = [] ∧ recursive_activations r.events = [])
  all_goals intros
  all_goals
    simp_all [ready_leave, ready_final_null]
  all_goals
    split <;> simp_all [ready_final_null]

/-! ## The claims on introspection, reset and the flags -/

/-- C11, `activated_vertex_name`.  Both overloads return -1 when the edge is not ready, 1 when
it is ready and the target has no producers (a null or an empty list), and 0 when it is ready
and the target has at least one producer.  When the result is not 0 the output argument is
left as it was; when it is 0 the vector overload has appended the names of all producers, in
producer order, to what the vector held, and the string overload has set the string to the name
of the first producer. -/
theorem C11_activated_vertex_name (view : ProducerView) (d : GraphDependency)
    (vertex_names : List String) (vertex_name : String) :
    (d._ready = false →
      activated_vertex_name_vector view d vertex_names = (-1, vertex_names) ∧
      activated_vertex_name_string view d vertex_name = (-1, vertex_name)) ∧
    (d._ready = true →
      view.producers d._target = none ∨ view.producers d._target = some [] →
      activated_vertex_name_vector view d vertex_names = (1, vertex_names) ∧
      activated_vertex_name_string view d vertex_name = (1, vertex_name)) ∧
    (∀ producer producers, d._ready = true →
      view.producers d._target = some (producer :: producers) →
      activated_vertex_name_vector view d vertex_names =
        (0, vertex_names ++ (producer :: producers).map view.name) ∧
      activated_vertex_name_string view d vertex_name = (0, view.name producer)) := by
  refine ⟨?_, ?_, ?_⟩
  · intro hr
    simp [activated_vertex_name_vector, activated_vertex_name_string, hr]
  · intro hr hp
    rcases hp with hp | hp <;>
      simp [activated_vertex_name_vector, activated_vertex_name_string, hr, hp]
  · intro producer producers hr hp
    simp [activated_vertex_name_vector, activated_vertex_name_string, hr, hp,
      emplace_back_all]

/-- Witness of C11: the target of the ready `plain_edge` is produced by the vertices named
"v4" and "v5"; the vector overload appends both names to `["a"]`, the string overload stores
"v4", and both return 0. -/
theorem C11_activated_vertex_name_witness :
    activated_vertex_name_vector view_two { plain_edge with _ready := true } ["a"] =
      (0, ["a", "v4", "v5"]) ∧
    activated_vertex_name_string view_two { plain_edge with _ready := true } "a" = (0, "v4") :=
  (C11_activated_vertex_name view_two { plain_edge with _ready := true } ["a"] "a").2.2
    4 [5] rfl rfl

/-- C12, `reset()` and replay.  `reset()` sets `_waiting_num` to 0 and `_established` and
`_ready` to false, keeps the source, target, condition, establish value, mutable and essential
settings, and is idempotent.  For every edge state `s` and every finite sequence of
`activate` / `ready` (and `check_established`) calls with given answers of the collaborators,
running the sequence after `reset()` from `s` gives the same return codes, the same calls on
the collaborators and the same final state as running it on a freshly constructed edge with
the same configuration, and as running it after `reset()` from any other state of an edge with
that configuration. -/
theorem C12_reset_replay (s : GraphDependency) (calls : List Call) :
    (reset s)._waiting_num = 0 ∧ (reset s)._established = false ∧ (reset s)._ready = false ∧
    same_edge s (reset s) ∧ reset (reset s) = reset s ∧
    replay (reset s) calls =
      replay (fresh_edge s._source s._target s._condition s._establish_value s._mutable
        s._essential) calls ∧
    ∀ t, same_edge s t → replay (reset t) calls = replay (reset s) calls := by
  refine ⟨rfl, rfl, rfl, ⟨rfl, rfl, rfl, rfl, rfl, rfl⟩, rfl, ?_, ?_⟩
  · rw [reset_fresh_edge]
  · intro t ht
    rw [reset_same_edge ht]

/-- Witness of C12: after `reset()` the used edge `used_edge` runs an activation and the
completion of its target exactly as the freshly constructed edge does, ending ready with
`_waiting_num = 0`. -/
theorem C12_reset_replay_witness :
    replay (reset used_edge) calls_plain =
      replay (fresh_edge (some 0) 1 none false false true) calls_plain ∧
    (replay (reset used_edge) calls_plain).map
        (fun p => (p.1._waiting_num, p.1._established, p.1._ready, p.2.map (fun o => o.ret)))
      = some (0, true, true, [some 0, none]) :=
  ⟨(C12_reset_replay used_edge calls_plain).2.2.2.2.2.1, by decide⟩

/-- C18, ready implies established.  In every state reached from `reset()` by a sequence of
`activate`, `ready(...)` and `check_established` calls (each of which returns), `_ready` true
implies `_established` true, and `_established` true implies that the edge has no condition or
that one of the calls read the condition's boolean and found it equal to `_establish_value`.
In particular an edge whose condition's boolean never equals `_establish_value` keeps
`_established` and `_ready` false, and `value`, `mutable_value` and `as` then return null,
null and zero. -/
theorem C18_ready_implies_established (d : GraphDependency) (calls : List Call)
    (final : GraphDependency) (outs : List CallOutput)
    (h : replay (reset d) calls = some (final, outs)) :
    (final._ready = true → final._established = true) ∧
    (final._established = true → d._condition = none ∨
      ∃ c call out, d._condition = some c ∧ (call, out) ∈ calls.zip outs ∧
        Event.as_bool c ∈ out.events ∧ call.env.as_bool c = d._establish_value) ∧
    (∀ c, d._condition = some c →
      (∀ call ∈ calls, call.env.as_bool c ≠ d._establish_value) →
      final._established = false ∧ final._ready = false ∧
      ∀ (T : Type) [Zero T] (view : DataView T),
        (value view final).1 = none ∧ (mutable_value view final).1 = none ∧
        (as view final).1 = 0) := by
  obtain ⟨h1, h2, h3⟩ := replay_flags calls (reset d) final outs h
  have hr : final._ready = true → final._established = true :=
    h2 (fun hf => by simp [reset] at hf)
  have he : final._established = true → d._condition = none ∨
      ∃ c call out, d._condition = some c ∧ (call, out) ∈ calls.zip outs ∧
        Event.as_bool c ∈ out.events ∧ call.env.as_bool c = d._establish_value := by
    intro hest
    rcases h3 hest with h0 | ⟨call, out, hmem, hch⟩
    · simp [reset] at h0
    · rcases hch with hn | ⟨c, hc1, hc2, hc3⟩
      · exact Or.inl hn
      · exact Or.inr ⟨c, call, out, hc1, hmem, hc2, hc3⟩
  refine ⟨hr, he, ?_⟩
  intro c hc hnever
  have hne : final._established = false := by
    cases hE : final._established with
    | false => rfl
    | true =>
      rcases he hE with hn | ⟨c1, call, out, hc1, hmem, _, hc3⟩
      · rw [hc] at hn; cases hn
      · rw [hc] at hc1
        cases hc1
        exact absurd hc3 (hnever call (List.of_mem_zip hmem).1)
  have hnr : final._ready = false := by
    cases hR : final._ready with
    | false => rfl
    | true => rw [hr hR] at hne; cases hne
  refine ⟨hne, hnr, ?_⟩
  intro T _ view
  simp [value, mutable_value, as, hnr]

/-- Witness of C18: `conditional_edge` is activated and both its data complete while the
condition reads false; every call returns, and the edge ends neither established nor ready,
its accessors returning null and zero. -/
theorem C18_ready_implies_established_witness :
    ∃ final outs, replay (reset conditional_edge) calls_unsatisfied = some (final, outs) ∧
      final._established = false ∧ final._ready = false ∧
      (value view_seven final).1 = none ∧ (mutable_value view_seven final).1 = none ∧
      (as view_seven final).1 = 0 :=
  ⟨_, _, rfl,
    ((C18_ready_implies_established conditional_edge calls_unsatisfied _ _ rfl).2.2 2 rfl
      (by decide)).1,
    ((C18_ready_implies_established conditional_edge calls_unsatisfied _ _ rfl).2.2 2 rfl
      (by decide)).2.1,
    (((C18_ready_implies_established conditional_edge calls_unsatisfied _ _ rfl).2.2 2 rfl
      (by decide)).2.2 Int view_seven)⟩

/-! ## The claims on reservations, the counter range and edges without a source -/

/-- Counterexample to C16 as stated: `mutable_edge` and `mutable_conditional_edge` both
declare mutable on data 1, which nobody reserved, and are activated one after the other.  The
first `activate` is granted the exclusive reservation and returns 0.  The second one observes 2
after its `fetch_add`, attempts no reservation, triggers its condition and returns 0, not
-1. -/
theorem C16_second_reservation_counterexample :
    ((activate_reserving env_grant Reservation.nothing_reserved mutable_edge).bind fun p =>
      (activate_reserving env_grant p.2 mutable_conditional_edge).map fun q =>
        (p.1.ret, reservations p.1.events, q.1.ret, q.1.events))
      = some (0, [Event.acquire_mutable_depend 1], 0,
          [Event.fetch_add 2, Event.trigger 2]) := by
  decide

/-- C16 as amended, two consumers of which one is mutable.  The reservations of the data are
modelled as in the GraphData contract.  Two edges on the same target, which nobody reserved
yet, are activated one after the other, and at least one of them declares mutable (both
mutable, mutable after immutable, or immutable after mutable).  Whenever both calls return,
the first does not return -1, and the second returns -1 exactly when both calls attempt
their reservation, in which case it triggers nothing.  A call of `activate` attempts the
reservation exactly when the value after its `fetch_add` is 0 and `check_established()` is
true, or that value is 1 and the edge has no condition or its condition is ready and
`check_established()` is true.  In particular, if both edges are unconditional and activated
under the protocol (the value after the `fetch_add` is 0 or 1), both calls return, the first
does not return -1, and the second returns -1 and triggers nothing. -/
theorem C16_second_reservation (env1 env2 : Env) (e1 e2 : GraphDependency)
    (w : Nat → Reservation) (hfree : w e1._target = Reservation.free)
    (htarget : e2._target = e1._target) (hexcl : e1._mutable = true ∨ e2._mutable = true) :
    (∀ r1 w1 r2 w2, activate_reserving env1 w e1 = some (r1, w1) →
      activate_reserving env2 w1 e2 = some (r2, w2) →
      r1.ret ≠ -1 ∧
      (r2.ret = -1 ↔ reservations r1.events ≠ [] ∧ reservations r2.events ≠ []) ∧
      (r2.ret = -1 → triggers r2.events = [])) ∧
    (∀ env e r, activate env e = some r →
      (reservations r.events ≠ [] ↔
        (post_add e = 0 ∧ (check_established env e).2.1 = true) ∨
        (post_add e = 1 ∧ (e._condition = none ∨
          ∃ c, e._condition = some c ∧ env.data_ready c = true ∧
            (check_established env e).2.1 = true)))) ∧
    (e1._condition = none → e2._condition = none →
      post_add e1 = 0 ∨ post_add e1 = 1 → post_add e2 = 0 ∨ post_add e2 = 1 →
      ∃ r1 w1 r2 w2, activate_reserving env1 w e1 = some (r1, w1) ∧
        activate_reserving env2 w1 e2 = some (r2, w2) ∧
        r1.ret ≠ -1 ∧ r2.ret = -1 ∧ triggers r2.events = []) := by
  refine ⟨?_, ?_, ?_⟩
  · intro r1 w1 r2 w2 h1 h2
    exact activate_reserving_outcome env1 env2 e1 e2 r1 r2 w w1 w2 hfree htarget hexcl h1 h2
  · intro env e r h
    rw [check_established_flag]
    exact activate_attempts env e r h
  · intro hc1 hc2 hp1 hp2
    obtain ⟨q1, hq1⟩ := Option.ne_none_iff_exists'.mp
      (activate_unconditional_defined (env_reserving env1 w) e1 hc1 hp1)
    obtain ⟨q2, hq2⟩ := Option.ne_none_iff_exists'.mp
      (activate_unconditional_defined (env_reserving env2 (Reservation.record w q1.events))
        e2 hc2 hp2)
    have h1 : activate_reserving env1 w e1 = some (q1, Reservation.record w q1.events) := by
      simp [activate_reserving, hq1]
    have h2 : activate_reserving env2 (Reservation.record w q1.events) e2 =
        some (q2, Reservation.record (Reservation.record w q1.events) q2.events) := by
      simp [activate_reserving, hq2]
    exact ⟨q1, _, q2, _, h1, h2,
      activate_reserving_pair env1 env2 e1 e2 q1 q2 w _ _ hfree htarget hexcl h1 h2
        ((activate_reservation _ e1 q1 hq1).2 hc1 hp1)
        ((activate_reservation _ e2 q2 hq2).2 hc2 hp2)⟩

/-- Witness of C16 as amended: `mutable_edge` and `second_mutable_edge` both declare mutable
on data 1; the first activation returns 0, the second returns -1 and triggers nothing. -/
theorem C16_second_reservation_witness :
    ∃ r1 w1 r2 w2,
      activate_reserving env_grant Reservation.nothing_reserved mutable_edge = some (r1, w1) ∧
      activate_reserving env_grant w1 second_mutable_edge = some (r2, w2) ∧
      r1.ret ≠ -1 ∧ r2.ret = -1 ∧ triggers r2.events = [] :=
  (C16_second_reservation env_grant env_grant mutable_edge second_mutable_edge
    Reservation.nothing_reserved rfl rfl (Or.inl rfl)).2.2 rfl rfl (by decide) (by decide)

/-- C17, failing input.  `mutable_conditional_edge` is activated (it observes 2 and triggers
its condition), then its target completes, then its condition completes and holds.  Every
step returns, the edge ends with `_ready = true` and `_waiting_num = 0`, `mutable_value` hands
out the value of the target, and yet no reservation call was made on the target during the
whole execution: `ready(condition)` reserves only when it observes 1. -/
theorem C17_ready_without_reservation :
    run (start mutable_conditional_edge) schedule_target_first = some final_target_first ∧
    final_target_first.dep._ready = true ∧ final_target_first.dep._mutable = true ∧
    final_target_first.dep._waiting_num = 0 ∧
    reservations final_target_first.events = [] ∧
    (mutable_value view_seven final_target_first.dep).1 = some 7 := by
  decide

/-- C19, range of the value `activate` observes.  In every state an execution reaches before
`activate` has run (after `reset()`, with at most one `ready(target)` and, for an edge that has
a condition, one `ready(condition)`, each possibly still between its two parts, whatever the
collaborators answer), the value `activate` will observe after its `fetch_add` is -1, 0, 1 or
2, so the default branch is not reached; `activate` leaves exactly that value in
`_waiting_num`.  For an edge without a condition the value is 0 or 1, and `activate` returns:
the branches that dereference the condition are not reached with a null condition. -/
theorem C19_post_add_range (d : GraphDependency) (schedule : List Move) (x : Execution)
    (hdistinct : d._condition ≠ some d._target) (hrun : run (start d) schedule = some x)
    (hbefore : x.activated = none) :
    (post_add x.dep = -1 ∨ post_add x.dep = 0 ∨ post_add x.dep = 1 ∨ post_add x.dep = 2) ∧
    (∀ env r, activate env x.dep = some r → r.dep._waiting_num = post_add x.dep) ∧
    (d._condition = none →
      (post_add x.dep = 0 ∨ post_add x.dep = 1) ∧ ∀ env, activate env x.dep ≠ none) := by
  have hinv := run_counted d hdistinct schedule (start d) x (counted_start d) hrun hbefore
  have hcnt := hinv.counter
  have hts := hinv.target_subs
  have hcs := hinv.condition_subs
  have ht0 := subs_nonneg x.target_call
  have hc0 := subs_nonneg x.condition_call
  have hK := activate_increment_range d
  have hKx := activate_increment_same hinv.edge
  have hnone : d._condition = none → x.condition_call.subs = 0 := by
    intro hn
    rw [hinv.condition_none hn]
    rfl
  have hp : post_add x.dep = x.dep._waiting_num + activate_increment d := by
    unfold post_add
    rw [hKx]
    apply wrap64_of_range <;> omega
  have hrange : post_add x.dep = -1 ∨ post_add x.dep = 0 ∨ post_add x.dep = 1 ∨
      post_add x.dep = 2 := by
    rcases hK with ⟨hn, h1⟩ | ⟨_, h2⟩
    · have := hnone hn
      omega
    · omega
  refine ⟨hrange, ?_, ?_⟩
  · intro env r hr
    exact (activate_effect env x.dep r hr).2.1
  · intro hn
    have := hnone hn
    have hK1 : activate_increment d = 1 := by
      rcases hK with ⟨_, h1⟩ | ⟨h2, _⟩
      · exact h1
      · exact absurd hn h2
    have h01 : post_add x.dep = 0 ∨ post_add x.dep = 1 := by omega
    refine ⟨h01, fun env => ?_⟩
    apply activate_unconditional_defined env x.dep _ h01
    rw [hinv.edge.2.2.1]
    exact hn

/-- Witness of C19: on `conditional_edge` the condition completes before the activation;
`activate` then observes a value among -1, 0, 1, 2. -/
theorem C19_post_add_range_witness :
    ∃ x, run (start conditional_edge)
        (moves env_grant [Actor.condition_completer, Actor.condition_completer]) = some x ∧
      (post_add x.dep = -1 ∨ post_add x.dep = 0 ∨ post_add x.dep = 1 ∨ post_add x.dep = 2) :=
  ⟨_, rfl,
    (C19_post_add_range conditional_edge
      (moves env_grant [Actor.condition_completer, Actor.condition_completer]) _ (by decide)
      rfl rfl).1⟩

/-- C20, failing input.  `sourceless_edge` has no source vertex, a condition (data 2) and
`_waiting_num = 2`.  The call `ready(condition, runnable)` observes 1 with the condition
holding, reserves the target and then evaluates `_source->closure()` on the null source,
whether the reservation is granted or refused: the call has no defined result. -/
theorem C20_null_source_dereferenced :
    sourceless_edge._source = none ∧
    ready env_grant sourceless_edge (some 2) [] = none ∧
    ready env_refuse sourceless_edge (some 2) [] = none := by
  decide

end babylon.anyflow

namespace babylon

open anyflow

/-! ## Arithmetic of the wrapped lanes -/

theorem wrap64_add_left (a b : Int) : wrap64 (wrap64 a + b) = wrap64 (a + b) := by
  unfold wrap64
  omega

theorem wrap64_add_right (a b : Int) : wrap64 (a + wrap64 b) = wrap64 (a + b) := by
  unfold wrap64
  omega

theorem wrap64_idem (a : Int) : wrap64 (wrap64 a) = wrap64 a := by
  unfold wrap64
  omega

/-! ## The slot of the calling thread -/

theorem local_slot_update_local {T : Type} (init : T) (f : T → T) (thread : Nat) :
    ∀ (storage : List T) (t : Nat),
      local_slot init t (update_local init f thread storage) =
        if t = thread then f (local_slot init t storage) else local_slot init t storage := by
  induction thread with
  | zero =>
    intro storage t
    cases storage <;> cases t <;> simp [update_local, local_slot]
  | succ n ih =>
    intro storage t
    cases storage with
    | nil =>
      cases t with
      | zero => simp [update_local, local_slot]
      | succ k =>
        have := ih [] k
        simp only [local_slot, List.getD_nil] at this
        simp only [update_local, local_slot, List.getD_cons_succ, List.getD_nil,
          Nat.add_right_cancel_iff]
        exact this
    | cons x xs =>
      cases t with
      | zero => simp [update_local, local_slot]
      | succ k =>
        have := ih xs k
        simp only [local_slot] at this
        simp only [update_local, local_slot, List.getD_cons_succ, Nat.add_right_cancel_iff]
        exact this

/-! ## ConcurrentAdder -/

theorem adder_sum_update (value : Int) (thread : Nat) :
    ∀ storage : List Int,
      wrap64 (update_local 0 (fun slot => wrap64 (slot + value)) thread storage).sum =
        wrap64 (storage.sum + value) := by
  induction thread with
  | zero =>
    intro storage
    cases storage with
    | nil => simp [update_local, wrap64_idem]
    | cons x xs =>
      simp only [update_local, List.sum_cons]
      rw [wrap64_add_left]
      congr 1
      omega
  | succ n ih =>
    intro storage
    cases storage with
    | nil =>
      have := ih []
      simpa [update_local] using this
    | cons x xs =>
      simp only [update_local, List.sum_cons]
      rw [← wrap64_add_right, ih xs, wrap64_add_right]
      congr 1
      omega

theorem adder_fold (storage : List Int) :
    ∀ a : Int, storage.foldl (fun sum slot => wrap64 (sum + slot)) (wrap64 a) =
      wrap64 (a + storage.sum) := by
  induction storage with
  | nil => intro a; simp
  | cons x xs ih =>
    intro a
    simp only [List.foldl_cons, List.sum_cons]
    rw [wrap64_add_left, ih]
    congr 1
    omega

theorem adder_value (a : ConcurrentAdder) : a.value = wrap64 a._storage.sum := by
  have h := adder_fold a._storage 0
  have h0 : wrap64 0 = 0 := by decide
  rw [h0] at h
  simpa [ConcurrentAdder.value] using h

theorem adder_writes (ws : List (Nat × Int)) :
    ∀ a : ConcurrentAdder,
      (a.writes ws).value = wrap64 (a._storage.sum + (ws.map Prod.snd).sum) := by
  induction ws with
  | nil => intro a; simp [ConcurrentAdder.writes, adder_value]
  | cons w ws ih =>
    intro a
    have h := ih (a.operator_shl w.1 w.2)
    simp only [ConcurrentAdder.writes, List.foldl_cons] at h ⊢
    rw [h, ← wrap64_add_left]
    simp only [ConcurrentAdder.operator_shl]
    rw [adder_sum_update, wrap64_add_left, List.map_cons, List.sum_cons]
    congr 1
    omega

/-! ## ConcurrentMaxer -/

theorem write_slot_rule (_version : Nat) (value : Int) (slot : Slot) :
    ConcurrentMaxer.write_slot _version value slot =
      if _version ≠ slot.version then { version := _version, value := value }
      else { version := slot.version, value := max slot.value value } := by
  unfold ConcurrentMaxer.write_slot
  by_cases hv : _version = slot.version
  · by_cases hgt : value > slot.value
    · simp [hv, hgt, max_eq_right (le_of_lt hgt)]
    · have hle : value ≤ slot.value := not_lt.mp hgt
      simp [hv, hgt, max_eq_left hle]
  · simp [hv]

theorem write_slot_epoch (_version : Nat) (values : List Int) :
    ∀ (found : Int),
      values.foldl (fun slot value => ConcurrentMaxer.write_slot _version value slot)
          { version := _version, value := found } =
        { version := _version, value := values.foldl max found } := by
  induction values with
  | nil => intro found; rfl
  | cons v vs ih =>
    intro found
    simp only [List.foldl_cons]
    rw [write_slot_rule]
    simp only [ne_eq, not_true_eq_false, if_false]
    exact ih (max found v)

theorem raise_fold (values : List Int) :
    ∀ found : Int,
      values.foldl ConcurrentMaxer.raise (some found) = some (values.foldl max found) := by
  induction values with
  | nil => intro found; rfl
  | cons v vs ih =>
    intro found
    simp only [List.foldl_cons, ConcurrentMaxer.raise]
    exact ih (max found v)

theorem current_max_update (uninitialised : Int) (_version : Nat) (value : Int)
    (hv : _version ≠ SIZE_MAX) (thread : Nat) :
    ∀ storage : List Slot,
      ConcurrentMaxer.current_max _version
          (update_local (ConcurrentMaxer.fresh_slot uninitialised)
            (ConcurrentMaxer.write_slot _version value) thread storage) =
        ConcurrentMaxer.raise (ConcurrentMaxer.current_max _version storage) value := by
  have hfresh : ¬ SIZE_MAX = _version := fun h => hv h.symm
  induction thread with
  | zero =>
    intro storage
    cases storage with
    | nil =>
      simp [update_local, write_slot_rule, ConcurrentMaxer.current_max,
        ConcurrentMaxer.fresh_slot, ConcurrentMaxer.raise, hv]
    | cons x xs =>
      simp only [update_local, ConcurrentMaxer.current_max]
      by_cases hx : x.version = _version
      · have hw : ConcurrentMaxer.write_slot _version value x =
            { version := _version, value := max x.value value } := by
          rw [write_slot_rule]
          simp [hx]
        rw [hw]
        simp only [hx, if_true]
        cases ConcurrentMaxer.current_max _version xs with
        | none => simp [ConcurrentMaxer.raise]
        | some found =>
          simp only [ConcurrentMaxer.raise, Option.some.injEq]
          rw [max_assoc, max_comm value found, ← max_assoc]
      · have hx' : _version ≠ x.version := fun h => hx h.symm
        have hw : ConcurrentMaxer.write_slot _version value x =
            { version := _version, value := value } := by
          rw [write_slot_rule]
          simp [hx']
        rw [hw]
        simp only [hx, if_true, if_false]
        cases ConcurrentMaxer.current_max _version xs with
        | none => simp [ConcurrentMaxer.raise]
        | some found =>
          simp only [ConcurrentMaxer.raise, Option.some.injEq]
          exact max_comm _ _
  | succ n ih =>
    intro storage
    cases storage with
    | nil =>
      have := ih []
      simp only [update_local, ConcurrentMaxer.current_max, ConcurrentMaxer.fresh_slot, hfresh,
        if_false] at this ⊢
      exact this
    | cons x xs =>
      simp only [update_local, ConcurrentMaxer.current_max, ih xs]
      by_cases hx : x.version = _version
      · simp only [hx, if_true]
        cases ConcurrentMaxer.current_max _version xs with
        | none => simp [ConcurrentMaxer.raise]
        | some found => simp [ConcurrentMaxer.raise, max_assoc]
      · simp only [hx, if_false]

theorem maxer_writes_version (uninitialised : Int) (ws : List (Nat × Int)) :
    ∀ m : ConcurrentMaxer, (ConcurrentMaxer.writes uninitialised m ws)._version = m._version := by
  induction ws with
  | nil => intro m; rfl
  | cons w ws ih =>
    intro m
    simp only [ConcurrentMaxer.writes, List.foldl_cons] at ih ⊢
    rw [ih]
    rfl

theorem maxer_writes (uninitialised : Int) (ws : List (Nat × Int)) :
    ∀ m : ConcurrentMaxer, m._version ≠ SIZE_MAX →
      (ConcurrentMaxer.writes uninitialised m ws).value =
        (ws.map Prod.snd).foldl ConcurrentMaxer.raise m.value := by
  induction ws with
  | nil => intro m _; rfl
  | cons w ws ih =>
    intro m hm
    have h := ih (ConcurrentMaxer.operator_shl uninitialised m w.1 w.2) hm
    simp only [ConcurrentMaxer.writes, List.foldl_cons, List.map_cons] at h ⊢
    rw [h]
    congr 1
    exact current_max_update uninitialised m._version w.2 hm w.1 m._storage

theorem current_max_none (_version : Nat) (storage : List Slot)
    (h : ∀ slot ∈ storage, slot.version ≠ _version) :
    ConcurrentMaxer.current_max _version storage = none := by
  induction storage with
  | nil => rfl
  | cons x xs ih =>
    have hx : x.version ≠ _version := h x (List.mem_cons_self _ _)
    simp only [ConcurrentMaxer.current_max, hx, if_false]
    exact ih (fun slot hs => h slot (List.mem_cons_of_mem _ hs))

theorem write_slot_version (_version : Nat) (value : Int) (slot : Slot) :
    (ConcurrentMaxer.write_slot _version value slot).version = _version := by
  rw [write_slot_rule]
  by_cases hv : _version = slot.version
  · simp [hv]
  · simp [hv]

theorem update_local_mem {T : Type} (init : T) (f : T → T) (P : T → Prop) (hinit : P init)
    (hf : ∀ slot, P (f slot)) (thread : Nat) :
    ∀ storage : List T, (∀ slot ∈ storage, P slot) →
      ∀ slot ∈ update_local init f thread storage, P slot := by
  induction thread with
  | zero =>
    intro storage hs slot hmem
    cases storage with
    | nil =>
      simp only [update_local, List.mem_singleton] at hmem
      rw [hmem]; exact hf init
    | cons x xs =>
      simp only [update_local, List.mem_cons] at hmem
      rcases hmem with h | h
      · rw [h]; exact hf x
      · exact hs slot (List.mem_cons_of_mem _ h)
  | succ n ih =>
    intro storage hs slot hmem
    cases storage with
    | nil =>
      simp only [update_local, List.mem_cons] at hmem
      rcases hmem with h | h
      · rw [h]; exact hinit
      · exact ih [] (fun _ hx => absurd hx (List.not_mem_nil _)) slot h
    | cons x xs =>
      simp only [update_local, List.mem_cons] at hmem
      rcases hmem with h | h
      · rw [h]; exact hs x (List.mem_cons_self _ _)
      · exact ih xs (fun y hy => hs y (List.mem_cons_of_mem _ hy)) slot h

theorem maxer_versions_writes (uninitialised : Int) (ws : List (Nat × Int)) :
    ∀ m : ConcurrentMaxer,
      (∀ slot ∈ m._storage, slot.version ≤ m._version ∨ slot.version = SIZE_MAX) →
      ∀ slot ∈ (ConcurrentMaxer.writes uninitialised m ws)._storage,
        slot.version ≤ m._version ∨ slot.version = SIZE_MAX := by
  induction ws with
  | nil => intro m hm; exact hm
  | cons w ws ih =>
    intro m hm
    have h := ih (ConcurrentMaxer.operator_shl uninitialised m w.1 w.2)
      (update_local_mem (ConcurrentMaxer.fresh_slot uninitialised)
        (ConcurrentMaxer.write_slot m._version w.2)
        (fun slot => slot.version ≤ m._version ∨ slot.version = SIZE_MAX)
        (Or.inr rfl) (fun slot => Or.inl (le_of_eq (write_slot_version _ _ _))) w.1
        m._storage hm)
    simpa [ConcurrentMaxer.writes] using h

theorem maxer_reset_epoch (m : ConcurrentMaxer)
    (hm : ∀ slot ∈ m._storage, slot.version ≤ m._version ∨ slot.version = SIZE_MAX)
    (hv : m._version + 1 < SIZE_MAX) :
    m.reset._version ≠ SIZE_MAX ∧
      ∀ slot ∈ m.reset._storage, slot.version ≠ m.reset._version := by
  have hS : SIZE_MAX = 18446744073709551615 := rfl
  have hr : m.reset._version = m._version + 1 := by
    simp only [ConcurrentMaxer.reset]
    omega
  refine ⟨by omega, ?_⟩
  intro slot hs
  have := hm slot hs
  omega

/-! ## ConcurrentSummer -/

theorem summer_sum_update (summary : Summary) (thread : Nat) :
    ∀ storage : List Summary,
      wrap64 ((update_local { sum := 0, num := 0 }
          (fun slot => ConcurrentSummer.add_epi64 slot summary) thread storage).map
            Summary.sum).sum =
        wrap64 ((storage.map Summary.sum).sum + summary.sum) ∧
      ((update_local { sum := 0, num := 0 }
          (fun slot => ConcurrentSummer.add_epi64 slot summary) thread storage).map
            Summary.num).sum % 18446744073709551616 =
        ((storage.map Summary.num).sum + summary.num) % 18446744073709551616 := by
  induction thread with
  | zero =>
    intro storage
    cases storage with
    | nil => simp [update_local, ConcurrentSummer.add_epi64, wrap64_idem]
    | cons x xs =>
      simp only [update_local, ConcurrentSummer.add_epi64, List.map_cons, List.sum_cons]
      constructor
      · rw [wrap64_add_left]
        congr 1
        omega
      · omega
  | succ n ih =>
    intro storage
    cases storage with
    | nil =>
      have := ih []
      simpa [update_local] using this
    | cons x xs =>
      obtain ⟨h1, h2⟩ := ih xs
      simp only [update_local, List.map_cons, List.sum_cons]
      constructor
      · rw [← wrap64_add_right, h1, wrap64_add_right]
        congr 1
        omega
      · omega

theorem summer_fold (storage : List Summary) :
    ∀ (a : Int) (b : Nat),
      storage.foldl ConcurrentSummer.add_epi64
          { sum := wrap64 a, num := b % 18446744073709551616 } =
        { sum := wrap64 (a + (storage.map Summary.sum).sum)
          num := (b + (storage.map Summary.num).sum) % 18446744073709551616 } := by
  induction storage with
  | nil => intro a b; simp
  | cons x xs ih =>
    intro a b
    simp only [List.foldl_cons, List.map_cons, List.sum_cons]
    have hstep : ConcurrentSummer.add_epi64 { sum := wrap64 a, num := b % 18446744073709551616 } x
        = { sum := wrap64 (a + x.sum), num := (b + x.num) % 18446744073709551616 } := by
      simp only [ConcurrentSummer.add_epi64, wrap64_add_left, Summary.mk.injEq, true_and]
      omega
    rw [hstep, ih]
    simp only [Summary.mk.injEq]
    constructor
    · congr 1
      omega
    · congr 1
      omega

theorem summer_value (s : ConcurrentSummer) :
    s.value =
      { sum := wrap64 (s._storage.map Summary.sum).sum
        num := (s._storage.map Summary.num).sum % 18446744073709551616 } := by
  have h := summer_fold s._storage 0 0
  have h0 : wrap64 0 = 0 := by decide
  rw [h0] at h
  simpa [ConcurrentSummer.value] using h

theorem summer_writes (ws : List (Nat × Int)) :
    ∀ s : ConcurrentSummer,
      (s.writes ws).value =
        { sum := wrap64 ((s._storage.map Summary.sum).sum + (ws.map Prod.snd).sum)
          num := ((s._storage.map Summary.num).sum + ws.length) % 18446744073709551616 } := by
  induction ws with
  | nil => intro s; simp [ConcurrentSummer.writes, summer_value]
  | cons w ws ih =>
    intro s
    have h := ih (s.operator_shl w.1 w.2)
    obtain ⟨h1, h2⟩ := summer_sum_update { sum := w.2, num := 1 } w.1 s._storage
    dsimp only at h1 h2
    simp only [ConcurrentSummer.writes, List.foldl_cons] at h ⊢
    rw [h]
    simp only [ConcurrentSummer.operator_shl, ConcurrentSummer.operator_shl_summary,
      Summary.mk.injEq, List.map_cons, List.sum_cons, List.length_cons]
    constructor
    · rw [← wrap64_add_left, h1, wrap64_add_left]
      congr 1
      omega
    · omega

theorem uniform_writes_sum (samples : Nat) (value : Int) (threads : Nat) :
    ((uniform_writes samples value threads).map Prod.snd).sum = threads * samples * value ∧
    (uniform_writes samples value threads).length = threads * samples := by
  induction threads with
  | zero => simp [uniform_writes]
  | succ n ih =>
    obtain ⟨h1, h2⟩ := ih
    simp only [uniform_writes, List.map_append, List.sum_append, List.length_append, h1, h2,
      List.map_replicate, List.sum_replicate, List.length_replicate, smul_eq_mul,
      nsmul_eq_mul]
    constructor
    · push_cast
      ring
    · ring

/-! ## The claims on the counters -/

/-- C13, write rule of `ConcurrentMaxer` and the resulting maximum.  A write of `value` makes
the slot `{version = global version, value}` when the slot's version differs from the global
one, and keeps the version and makes the value `max(value of the slot, value)` when they are
equal; no other thread's slot changes.  Hence a non-empty sequence of writes by one thread
within one epoch, to a slot whose version differs from the global one, leaves the slot with
the global version and the maximum of the written values, whatever their signs.  When no slot
carries the current version at the start of the epoch (the global version not being
`SIZE_MAX`, the version of slots nobody wrote), the maximum over the slots carrying the
current version after a non-empty sequence of writes is the maximum of the written values;
`reset()` starts such an epoch. -/
theorem C13_maxer_write_rule (uninitialised : Int) (m : ConcurrentMaxer) :
    (∀ _version value slot,
      ConcurrentMaxer.write_slot _version value slot =
        if _version ≠ slot.version then { version := _version, value := value }
        else { version := slot.version, value := max slot.value value }) ∧
    (∀ thread value t,
      local_slot (ConcurrentMaxer.fresh_slot uninitialised) t
          (ConcurrentMaxer.operator_shl uninitialised m thread value)._storage =
        if t = thread then
          ConcurrentMaxer.write_slot m._version value
            (local_slot (ConcurrentMaxer.fresh_slot uninitialised) t m._storage)
        else local_slot (ConcurrentMaxer.fresh_slot uninitialised) t m._storage) ∧
    (∀ _version slot value values, slot.version ≠ _version →
      (value :: values).foldl (fun slot value => ConcurrentMaxer.write_slot _version value slot)
          slot =
        { version := _version, value := values.foldl max value }) ∧
    (m._version ≠ SIZE_MAX → (∀ slot ∈ m._storage, slot.version ≠ m._version) →
      ∀ w ws, (ConcurrentMaxer.writes uninitialised m (w :: ws)).value =
        some ((ws.map Prod.snd).foldl max w.2)) ∧
    ((∀ slot ∈ m._storage, slot.version ≤ m._version ∨ slot.version = SIZE_MAX) →
      m._version + 1 < SIZE_MAX →
      ∀ w ws, (ConcurrentMaxer.writes uninitialised m.reset (w :: ws)).value =
        some ((ws.map Prod.snd).foldl max w.2)) := by
  have hepoch : ∀ k : ConcurrentMaxer, k._version ≠ SIZE_MAX →
      (∀ slot ∈ k._storage, slot.version ≠ k._version) →
      ∀ w ws, (ConcurrentMaxer.writes uninitialised k (w :: ws)).value =
        some ((ws.map Prod.snd).foldl max w.2) := by
    intro k hk hstart w ws
    rw [maxer_writes uninitialised (w :: ws) k hk]
    have hnone : k.value = none := current_max_none k._version k._storage hstart
    rw [hnone]
    simp only [List.map_cons, List.foldl_cons, ConcurrentMaxer.raise]
    exact raise_fold _ _
  refine ⟨write_slot_rule, ?_, ?_, hepoch m, ?_⟩
  · intro thread value t
    exact local_slot_update_local _ _ thread m._storage t
  · intro _version slot value values hne
    simp only [List.foldl_cons]
    have hw : ConcurrentMaxer.write_slot _version value slot =
        { version := _version, value := value } := by
      have hne1 : _version ≠ slot.version := fun h => hne h.symm
      rw [write_slot_rule]
      simp only [hne1, ne_eq, not_false_eq_true, if_true]
    rw [hw]
    exact write_slot_epoch _version values value
  · intro hm hv
    obtain ⟨h1, h2⟩ := maxer_reset_epoch m hm hv
    exact hepoch m.reset h1 h2

/-- Witness of C13: the writes 3, 1, 8, 2, 5 spread over four threads of a fresh maxer give
the maximum 8; after `reset()` and a single write of 4 the maximum is 4. -/
theorem C13_maxer_write_rule_witness :
    (ConcurrentMaxer.writes 77 ConcurrentMaxer.fresh five_writes).value = some 8 ∧
    (ConcurrentMaxer.writes 77
      (ConcurrentMaxer.writes 77 ConcurrentMaxer.fresh five_writes).reset [(2, 4)]).value
      = some 4 :=
  ⟨(C13_maxer_write_rule 77 ConcurrentMaxer.fresh).2.2.2.1 (by decide) (by decide) (0, 3)
      [(1, 1), (2, 8), (3, 2), (0, 5)],
    (C13_maxer_write_rule 77
      (ConcurrentMaxer.writes 77 ConcurrentMaxer.fresh five_writes)).2.2.2.2 (by decide)
      (by decide) (2, 4) []⟩

/-- C14, sum of `ConcurrentAdder`.  The slots start at 0.  A write of `value` by a thread
replaces that thread's slot by slot + value (in `ssize_t`) and changes no other slot.  For
every finite sequence of writes with no reset in between, the sum of all slots, which is what
`value()` returns, is the sum of the written values wrapped to 64 bits, hence exactly that sum
when it fits into an `ssize_t`; it does not depend on how the writes are distributed over the
threads or on their order. -/
theorem C14_adder_sum (ws : List (Nat × Int)) :
    (∀ t, local_slot 0 t ({ _storage := [] } : ConcurrentAdder)._storage = 0) ∧
    (∀ (a : ConcurrentAdder) thread value t,
      local_slot 0 t (a.operator_shl thread value)._storage =
        if t = thread then wrap64 (local_slot 0 t a._storage + value)
        else local_slot 0 t a._storage) ∧
    (ConcurrentAdder.writes { _storage := [] } ws).value = wrap64 (ws.map Prod.snd).sum ∧
    (-9223372036854775808 ≤ (ws.map Prod.snd).sum →
      (ws.map Prod.snd).sum ≤ 9223372036854775807 →
      (ConcurrentAdder.writes { _storage := [] } ws).value = (ws.map Prod.snd).sum) ∧
    (∀ ws1 : List (Nat × Int), (ws1.map Prod.snd).Perm (ws.map Prod.snd) →
      (ConcurrentAdder.writes { _storage := [] } ws1).value =
        (ConcurrentAdder.writes { _storage := [] } ws).value) := by
  have hv : ∀ l : List (Nat × Int),
      (ConcurrentAdder.writes { _storage := [] } l).value = wrap64 (l.map Prod.snd).sum := by
    intro l
    rw [adder_writes]
    simp
  refine ⟨?_, ?_, hv ws, ?_, ?_⟩
  · intro t
    simp [local_slot]
  · intro a thread value t
    exact local_slot_update_local 0 _ thread a._storage t
  · intro h1 h2
    rw [hv, wrap64_of_range _ h1 h2]
  · intro ws1 hperm
    rw [hv, hv, hperm.sum_eq]

/-- Witness of C14: thread 3 writes 5 and 4, thread 1 writes -2; `value()` is 7. -/
theorem C14_adder_sum_witness :
    (ConcurrentAdder.writes { _storage := [] } [(3, 5), (1, -2), (3, 4)]).value = 7 :=
  (C14_adder_sum [(3, 5), (1, -2), (3, 4)]).2.2.2.1 (by decide) (by decide)

/-- C15, fold of `ConcurrentSummer`.  Writing a scalar `value` is writing the summary
`{value, 1}`.  Writing a summary changes the slot `{sum, num}` of the writing thread into
`{sum + summary.sum, num + summary.num}`, each 64-bit lane added on its own modulo 2^64
(the `sum` lane in two's complement), and changes no other slot.  For every sequence of n
scalar writes over any threads, starting with no slot written, folding all slots lane by lane
gives `{v_1 + ... + v_n, n}` modulo 2^64 in each lane, hence exactly these numbers when they
fit into the lanes; 1000 threads writing 100 samples of value 1 each give
`{100000, 100000}`. -/
theorem C15_summer_fold (ws : List (Nat × Int)) :
    (∀ (s : ConcurrentSummer) thread value,
      s.operator_shl thread value = s.operator_shl_summary thread { sum := value, num := 1 }) ∧
    (∀ (s : ConcurrentSummer) thread summary t,
      local_slot { sum := 0, num := 0 } t (s.operator_shl_summary thread summary)._storage =
        if t = thread then
          { sum := wrap64 ((local_slot { sum := 0, num := 0 } t s._storage).sum + summary.sum)
            num := ((local_slot { sum := 0, num := 0 } t s._storage).num + summary.num)
              % 18446744073709551616 }
        else local_slot { sum := 0, num := 0 } t s._storage) ∧
    (ConcurrentSummer.writes { _storage := [] } ws).value =
      { sum := wrap64 (ws.map Prod.snd).sum, num := ws.length % 18446744073709551616 } ∧
    (-9223372036854775808 ≤ (ws.map Prod.snd).sum →
      (ws.map Prod.snd).sum ≤ 9223372036854775807 → ws.length < 18446744073709551616 →
      (ConcurrentSummer.writes { _storage := [] } ws).value =
        { sum := (ws.map Prod.snd).sum, num := ws.length }) ∧
    (ConcurrentSummer.writes { _storage := [] } (uniform_writes 100 1 1000)).value =
      { sum := 100000, num := 100000 } := by
  have hv : ∀ l : List (Nat × Int),
      (ConcurrentSummer.writes { _storage := [] } l).value =
        { sum := wrap64 (l.map Prod.snd).sum, num := l.length % 18446744073709551616 } := by
    intro l
    rw [summer_writes]
    simp
  refine ⟨fun _ _ _ => rfl, ?_, hv ws, ?_, ?_⟩
  · intro s thread summary t
    exact local_slot_update_local _ _ thread s._storage t
  · intro h1 h2 h3
    rw [hv, wrap64_of_range _ h1 h2, Nat.mod_eq_of_lt h3]
  · obtain ⟨h1, h2⟩ := uniform_writes_sum 100 1 1000
    rw [hv, h1, h2]
    decide

/-- Witness of C15: three threads write the samples 5, -2 and 4; the fold is `{7, 3}`. -/
theorem C15_summer_fold_witness :
    (ConcurrentSummer.writes { _storage := [] } [(0, 5), (1, -2), (2, 4)]).value =
      { sum := 7, num := 3 } :=
  (C15_summer_fold [(0, 5), (1, -2), (2, 4)]).2.2.2.1 (by decide) (by decide) (by decide)

end babylon
